import Mathlib

/-!
# A shallow embedding of mustache.js (v4.1.0): parser and renderer

This file embeds the template engine's core — the tokenizer/parser
(`parseTemplate`, `squashTokens`, `nestTokens`) and the renderer
(`Writer.prototype.parse` / `render` / `renderTokens` and its helpers) — as
executable Lean definitions over `List Char` strings, and proves properties
of the embedding.

Strings are `List Char`; indices are `Nat`.  JavaScript's `undefined`/`null`
and loose truthiness are modelled explicitly on a `Value` type.  The `Scanner`
class is not part of the given sources; its two operations (`scan`,
`scanUntil`) are modelled from the spec (§4.1: `scan` is anchored at the
cursor, `scanUntil` advances to the first occurrence of the pattern), and are
specialised to the regex shapes the parser actually builds: a literal string
followed by `\s*` (the opening-tag pattern) and `\s*` followed by a literal
string (the closing-tag, equals and curly patterns).
-/

namespace Mus

/-- Strings of the embedding: JavaScript strings as lists of characters. -/
abbrev Str := List Char

/-- JavaScript `\s` for the characters relevant here: space, tab, newline,
carriage return, vertical tab, form feed (the Unicode space classes are not
modelled).  Mirrors `isWhitespace` (via `nonSpaceRe = /\S/`). -/
def isWs (c : Char) : Bool :=
  c = ' ' || c = '\t' || c = '\n' || c = '\r' || c = Char.ofNat 11 || c = Char.ofNat 12

/-- Length of the leading whitespace run: what `/\s*/` consumes when anchored. -/
def wsRunLen : Str → Nat
  | [] => 0
  | c :: t => if isWs c then wsRunLen t + 1 else 0

/-- Index of the first occurrence of the literal `pat` in `s`, if any. -/
def findSub (pat : Str) : Str → Option Nat
  | [] => if pat.isPrefixOf ([] : Str) then some 0 else none
  | c :: t =>
    if pat.isPrefixOf (c :: t) then some 0
    else (findSub pat t).map (· + 1)

/-- Greedy backtracking attempt for the anchored pattern `\s*L`: try consuming
`k` whitespace characters (largest first) and then the literal `L`. -/
def tryWsL (L : Str) (s : Str) : Nat → Option Nat
  | 0 => if L.isPrefixOf s then some L.length else none
  | k + 1 =>
    if L.isPrefixOf (s.drop (k + 1)) then some (k + 1 + L.length)
    else tryWsL L s k

/-- Length matched by the anchored pattern `\s*L` at the start of `s`
(greedy with backtracking, as a JS regex), or `none` if it does not match. -/
def matchWsLAt (L : Str) (s : Str) : Option Nat :=
  tryWsL L s (wsRunLen s)

/-- Leftmost match of the pattern `\s*L` in `s`: start index and length. -/
def findWsL (L : Str) : Str → Option (Nat × Nat)
  | [] => (matchWsLAt L ([] : Str)).map (fun n => (0, n))
  | c :: t =>
    match matchWsLAt L (c :: t) with
    | some n => some (0, n)
    | none => (findWsL L t).map (fun p => (p.1 + 1, p.2))

/-- Modelled from the spec: the Scanner (§4.1) — a cursor over an immutable
source string; `scanner.js` is not among the given sources. -/
structure Scanner where
  src : Str
  pos : Nat
deriving Repr

/-- The text from the cursor to the end of input. -/
def Scanner.rem (sc : Scanner) : Str := sc.src.drop sc.pos

/-- `Scanner.prototype.eos`. -/
def Scanner.eos (sc : Scanner) : Bool := sc.rem.isEmpty

/-- `scanUntil(re)` for the opening-tag pattern `Lit ++ \s*`: the leftmost
match starts at the first occurrence of the literal.  Returns the skipped
text and the advanced scanner. -/
def scanUntilLit (L : Str) (sc : Scanner) : Str × Scanner :=
  match findSub L sc.rem with
  | some i => (sc.rem.take i, { sc with pos := sc.pos + i })
  | none => (sc.rem, { sc with pos := sc.pos + sc.rem.length })

/-- `scan(re)` for the opening-tag pattern `Lit ++ \s*`, anchored at the
cursor.  Returns the matched text (`[]` when the match fails or is empty,
which the parser treats as falsy, as JS does with `''`). -/
def scanLitWs (L : Str) (sc : Scanner) : Str × Scanner :=
  if L.isPrefixOf sc.rem then
    let n := L.length + wsRunLen (sc.rem.drop L.length)
    (sc.rem.take n, { sc with pos := sc.pos + n })
  else ([], sc)

/-- `scanUntil(re)` for the patterns `\s* ++ Lit` (closing tag, `\s*=`,
`\s*}` + closing tag). -/
def scanUntilWsL (L : Str) (sc : Scanner) : Str × Scanner :=
  match findWsL L sc.rem with
  | some p => (sc.rem.take p.1, { sc with pos := sc.pos + p.1 })
  | none => (sc.rem, { sc with pos := sc.pos + sc.rem.length })

/-- `scan(re)` for the patterns `\s* ++ Lit`, anchored at the cursor. -/
def scanWsL (L : Str) (sc : Scanner) : Str × Scanner :=
  match matchWsLAt L sc.rem with
  | some n => (sc.rem.take n, { sc with pos := sc.pos + n })
  | none => ([], sc)

/-- `scan(whiteRe)` — consume `/\s*/`. -/
def scanWhite (sc : Scanner) : Scanner :=
  { sc with pos := sc.pos + wsRunLen sc.rem }

/-- The characters of `tagRe = /#|\^|\/|>|\{|&|=|!/`. -/
def tagChars : List Char := ['#', '^', '/', '>', '{', '&', '=', '!']

/-- `scan(tagRe)`: a single sigil character, anchored. -/
def scanTagType (sc : Scanner) : Option Char × Scanner :=
  match sc.rem with
  | [] => (none, sc)
  | c :: _ => if c ∈ tagChars then (some c, { sc with pos := sc.pos + 1 }) else (none, sc)

/-! ## Tokens

A parse-phase token is the positional array
`[ type, value, start, end ]`, with three extra fields that are only
meaningful for `>` (partial) tokens: the accumulated indentation, the index
of the tag on its line, and whether the line has non-whitespace content. -/

/-- A flat (pre-nesting) token.  `ty` is one of `"text"`, `"name"`, `"#"`,
`"^"`, `"/"`, `">"`, `"&"`, `"!"`, `"="`.  For non-partial tokens the last
three fields keep their defaults. -/
structure PFlat where
  ty : String
  val : Str
  ts : Nat
  te : Nat
  indent : Str := []
  tagIdx : Nat := 0
  lineNS : Bool := false
deriving Repr, DecidableEq

/-- A nested token as produced by `nestTokens`: either a flat token, or a
section token carrying its children (token[4]) and the index in the template
where its closing tag begins (token[5]). -/
inductive Tok where
  | flat (f : PFlat)
  | sec (ty : String) (val : Str) (ts te : Nat) (children : List Tok) (closeStart : Nat)
deriving Repr

/-- Parse errors: the `throw new Error(...)` sites of the parser, plus a
fuel marker that a sufficiently large fuel (as `parseTemplate` supplies)
never produces. -/
inductive PErr where
  | invalidTags
  | unclosedTag (pos : Nat)
  | unopenedSection (name : Str) (pos : Nat)
  | unclosedSection (name : Str) (pos : Nat)
  | fuel
deriving Repr, DecidableEq

/-- JavaScript `value.split(/\s+/, 2)` on a string: split on whitespace runs
(a leading run produces a leading empty element, a trailing run a trailing
empty element), keeping the first two elements. -/
def splitWsGo : Str → Str → Bool → List Str
  | [], acc, inRun => if inRun then [[]] else [acc.reverse]
  | c :: t, acc, inRun =>
    if isWs c then
      if inRun then splitWsGo t [] true
      else acc.reverse :: splitWsGo t [] true
    else splitWsGo t (c :: acc) false

def jsSplitWs2 (s : Str) : List Str := (splitWsGo s [] false).take 2

/-- `compileTags` on an array argument: must be exactly two strings. -/
def compileTagsList (l : List Str) : Except PErr (Str × Str) :=
  match l with
  | [o, c] => .ok (o, c)
  | _ => .error .invalidTags

/-- `compileTags` on a string argument (a `{{=...=}}` tag body): split on
whitespace with limit 2, then as for an array. -/
def compileTagsStr (s : Str) : Except PErr (Str × Str) :=
  compileTagsList (jsSplitWs2 s)

/-- `mustache.tags`, the default delimiters. -/
def mustacheTags : List Str := ["\x7b\x7b".toList, "\x7d\x7d".toList]

/-! ## Parser state and main loop -/

/-- The mutable locals of `parseTemplate`: the token buffer (with `none` for
entries removed by `delete tokens[...]`), the whitespace-token indices of the
current line, the stack of open sections (innermost first), the per-line
flags, and the currently compiled delimiter pair. -/
structure PState where
  tokens : List (Option PFlat) := []
  spaces : List Nat := []
  sections : List PFlat := []
  hasTag : Bool := false
  nonSpace : Bool := false
  indentation : Str := []
  tagIndex : Nat := 0
  lineHasNonSpace : Bool := false
  otag : Str
  ctag : Str
deriving Repr

/-- `delete tokens[i]`. -/
def deleteTok (toks : List (Option PFlat)) (i : Nat) : List (Option PFlat) :=
  toks.set i none

/-- `stripSpace()`: if the current line had a tag and no non-space text,
delete its recorded whitespace tokens; either way clear the per-line list
and flags. -/
def stripSpace (st : PState) : PState :=
  if st.hasTag && !st.nonSpace then
    { st with tokens := st.spaces.foldl deleteTok st.tokens,
              spaces := [], hasTag := false, nonSpace := false }
  else
    { st with spaces := [], hasTag := false, nonSpace := false }

/-- One character of the text-copying loop (`parseTemplate` lines 154–177):
record whitespace indices and indentation, push a one-character text token,
and on a newline strip the finished line and reset the per-line state. -/
def pushTextChar (st : PState) (c : Char) (start : Nat) : PState :=
  let st :=
    if isWs c then
      { st with spaces := st.spaces ++ [st.tokens.length],
                indentation := st.indentation ++ [c] }
    else
      { st with nonSpace := true, lineHasNonSpace := true,
                indentation := st.indentation ++ [' '] }
  let st := { st with tokens := st.tokens ++ [some ⟨"text", [c], start, start + 1, [], 0, false⟩] }
  if c = '\n' then
    { stripSpace st with indentation := [], tagIndex := 0, lineHasNonSpace := false }
  else st

/-- The text-copying loop over the text scanned before the next tag. -/
def processText : PState → Str → Nat → PState
  | st, [], _ => st
  | st, c :: cs, start => processText (pushTextChar st c start) cs (start + 1)

/-- Everything after the tag value has been scanned (`parseTemplate` lines
204–232): require the closing delimiter, build and record the token, and
apply the per-type bookkeeping (section stack, `nonSpace`, delimiter
recompilation). -/
def handleTag (st : PState) (sc : Scanner) (ty : String) (value : Str) (tagStart : Nat) :
    Except PErr (PState × Scanner) :=
  let (m, sc) := scanWsL st.ctag sc
  if m.isEmpty then .error (.unclosedTag sc.pos)
  else
    let token : PFlat :=
      if ty = ">" then
        ⟨ty, value, tagStart, sc.pos, st.indentation, st.tagIndex, st.lineHasNonSpace⟩
      else ⟨ty, value, tagStart, sc.pos, [], 0, false⟩
    let st := { st with tagIndex := st.tagIndex + 1, tokens := st.tokens ++ [some token] }
    if ty = "#" ∨ ty = "^" then .ok ({ st with sections := token :: st.sections }, sc)
    else if ty = "/" then
      match st.sections with
      | [] => .error (.unopenedSection value tagStart)
      | openSec :: rest =>
        if openSec.val ≠ value then .error (.unclosedSection openSec.val tagStart)
        else .ok ({ st with sections := rest }, sc)
    else if ty = "name" ∨ ty = "\x7b" ∨ ty = "&" then .ok ({ st with nonSpace := true }, sc)
    else if ty = "=" then
      match compileTagsStr value with
      | .error e => .error e
      | .ok (o, c) => .ok ({ st with otag := o, ctag := c }, sc)
    else .ok (st, sc)

/-- One iteration of the scanning loop of `parseTemplate` (lines 148–233):
`.inl` exits the loop (end of scan, or no opening tag matched — the
source's `break`), `.inr` continues with the next iteration's state. -/
def parseStep (st : PState) (sc : Scanner) :
    Except PErr ((PState × Scanner) ⊕ (PState × Scanner)) :=
  if sc.eos then .ok (.inl (st, sc))
  else
    let (value, sc) := scanUntilLit st.otag sc
    let st := processText st value (sc.pos - value.length)
    let tagStart := sc.pos
    let (m, sc) := scanLitWs st.otag sc
    if m.isEmpty then .ok (.inl (st, sc))
    else
      let st := { st with hasTag := true }
      let (tyc, sc) := scanTagType sc
      let ty : String := match tyc with | some c => String.mk [c] | none => "name"
      let sc := scanWhite sc
      let step : Except PErr (PState × Scanner) :=
        if ty = "=" then
          let (value, sc) := scanUntilWsL ['='] sc
          let sc := (scanWsL ['='] sc).2
          let sc := (scanUntilWsL st.ctag sc).2
          handleTag st sc ty value tagStart
        else if ty = "\x7b" then
          let (value, sc) := scanUntilWsL ('}' :: st.ctag) sc
          let sc := (scanWsL ['}'] sc).2
          let sc := (scanUntilWsL st.ctag sc).2
          handleTag st sc "&" value tagStart
        else
          let (value, sc) := scanUntilWsL st.ctag sc
          handleTag st sc ty value tagStart
      match step with
      | .error e => .error e
      | .ok (st, sc) => .ok (.inr (st, sc))

/-- The scanning loop of `parseTemplate` (lines 148–233).  `fuel` bounds
the number of iterations; each continuing iteration consumes at least the
opening delimiter, so `template.length + 1` is always sufficient. -/
def parseLoop : Nat → PState → Scanner → Except PErr (PState × Scanner)
  | 0, _, _ => .error .fuel
  | fuel + 1, st, sc =>
    match parseStep st sc with
    | .error e => .error e
    | .ok (.inl r) => .ok r
    | .ok (.inr (st, sc)) => parseLoop fuel st sc

/-- `squashTokens`: drop deleted entries and merge runs of adjacent text
tokens (accumulator holds the output in reverse; its head is `lastToken`). -/
def squashGo : List (Option PFlat) → List PFlat → List PFlat
  | [], acc => acc.reverse
  | none :: t, acc => squashGo t acc
  | some tok :: t, acc =>
    match acc with
    | last :: rest =>
      if tok.ty = "text" ∧ last.ty = "text" then
        squashGo t ({ last with val := last.val ++ tok.val, te := tok.te } :: rest)
      else squashGo t (tok :: acc)
    | [] => squashGo t [tok]

def squashTokens (toks : List (Option PFlat)) : List PFlat :=
  squashGo toks []

/-- Defensive closing of sections left open; `parseTemplate` never feeds
`nestTokens` an unbalanced sequence, so this is unreachable from it. -/
def closeLeftovers : List (PFlat × List Tok) → List Tok → List Tok
  | [], current => current
  | (sec, saved) :: rest, current =>
    closeLeftovers rest (saved ++ [Tok.sec sec.ty sec.val sec.ts sec.te current 0])

/-- `nestTokens`: fold the flat sequence into a tree using the section
open/close discipline.  The stack holds, for each open section, its token
and the collector it interrupted. -/
def nestGo : List PFlat → List (PFlat × List Tok) → List Tok → List Tok
  | [], stack, current => closeLeftovers stack current
  | tok :: ts, stack, current =>
    if tok.ty = "#" ∨ tok.ty = "^" then nestGo ts ((tok, current) :: stack) []
    else if tok.ty = "/" then
      match stack with
      | (sec, saved) :: rest =>
        nestGo ts rest (saved ++ [Tok.sec sec.ty sec.val sec.ts sec.te current tok.ts])
      | [] => nestGo ts [] current
    else nestGo ts stack (current ++ [Tok.flat tok])

def nestTokens (toks : List PFlat) : List Tok := nestGo toks [] []

/-- `parseTemplate(template, tags)`: returns the nested token tree or the
first structural error.  An empty template short-circuits to `[]` before the
delimiters are validated, exactly as the source's `if (!template) return []`
does. -/
def parseTemplate (template : Str) (tags : Option (List Str)) : Except PErr (List Tok) :=
  if template.isEmpty then .ok []
  else
    match compileTagsList (tags.getD mustacheTags) with
    | .error e => .error e
    | .ok (o, c) =>
      match parseLoop (template.length + 1) { otag := o, ctag := c } ⟨template, 0⟩ with
      | .error e => .error e
      | .ok (st, sc) =>
        let st := stripSpace st
        match st.sections with
        | s :: _ => .error (.unclosedSection s.val sc.pos)
        | [] => .ok (nestTokens (squashTokens st.tokens))

/-! ## Values

JavaScript view values, as far as the engine observes them: `undefined`,
`null`, booleans, numbers (integers plus `NaN`; other floats are not
modelled), strings, arrays, plain objects, and callables.  A callable is
modelled by its dependence on its first argument (the raw section text);
the sub-render callback and the `this` binding it also receives are not
needed by any property proved here.  A `none` result is a `null`/`undefined`
return, which the renderer discards. -/

/-- A JavaScript number: an integer or `NaN`. -/
inductive JsNum where
  | int (i : Int)
  | nan
deriving Repr, DecidableEq

inductive Value where
  | undef
  | vnull
  | bool (b : Bool)
  | num (n : JsNum)
  | str (s : Str)
  | arr (elems : List Value)
  | obj (fields : List (Str × Value))
  | lambda (f : Str → Option Str)

/-- JavaScript truthiness (`!value` negated) on the modelled values:
`undefined`, `null`, `false`, `0`, `NaN` and `''` are falsy; every array,
object and function is truthy. -/
def truthy : Value → Bool
  | .undef => false
  | .vnull => false
  | .bool b => b
  | .num (.int i) => i ≠ 0
  | .num .nan => false
  | .str s => !s.isEmpty
  | .arr _ => true
  | .obj _ => true
  | .lambda _ => true

/-- JavaScript `value != null` (loose): false exactly for `null`/`undefined`. -/
def jsNonNull : Value → Bool
  | .undef => false
  | .vnull => false
  | _ => true

def numToStr : JsNum → Str
  | .int i => (toString i).toList
  | .nan => "NaN".toList

mutual
/-- JavaScript `String(value)` on the modelled values. -/
def jsToString : Value → Str
  | .undef => "undefined".toList
  | .vnull => "null".toList
  | .bool b => if b then "true".toList else "false".toList
  | .num n => numToStr n
  | .str s => s
  | .arr xs => jsArrToString xs
  | .obj _ => "[object Object]".toList
  | .lambda _ => "function".toList

/-- `Array.prototype.toString`: elements joined by `,`, with
`null`/`undefined` elements contributing the empty string. -/
def jsArrToString : List Value → Str
  | [] => []
  | [.undef] => []
  | [.vnull] => []
  | [v] => jsToString v
  | .undef :: rest => ',' :: jsArrToString rest
  | .vnull :: rest => ',' :: jsArrToString rest
  | v :: rest => jsToString v ++ ',' :: jsArrToString rest
end

/-- The `entityMap` substitution of `escapeHtml`. -/
def entitySub (c : Char) : Str :=
  if c = '&' then "&amp;".toList
  else if c = '<' then "&lt;".toList
  else if c = '>' then "&gt;".toList
  else if c = Char.ofNat 34 then "&quot;".toList
  else if c = Char.ofNat 39 then "&#39;".toList
  else if c = '/' then "&#x2F;".toList
  else if c = Char.ofNat 96 then "&#x60;".toList
  else if c = '=' then "&#x3D;".toList
  else [c]

/-- `escapeHtml(string)`: coerce to string, then substitute the eight
escapable characters. -/
def escapeHtml (v : Value) : Str :=
  (jsToString v).flatMap entitySub

/-! ## Context (modelled from the spec)

`context.js` is not among the given sources; the scope chain and `lookup`
are modelled from the spec (§3, §4.3): a node wraps one view value and an
optional parent; `lookup(".")` returns the current view; otherwise the
dotted path is split, the chain is walked inner-to-outer for the first
scope whose view resolves the first segment (a key lookup on an object
view), and the remaining segments are resolved strictly against the found
value with no further fallback.  A miss is `undefined`, not an error. -/

inductive Ctx where
  | root (view : Value)
  | push (parent : Ctx) (view : Value)

def Ctx.view : Ctx → Value
  | .root v => v
  | .push _ v => v

/-- JavaScript `path.split('.')`. -/
def splitDots : Str → List Str
  | [] => [[]]
  | c :: t =>
    if c = '.' then [] :: splitDots t
    else
      match splitDots t with
      | h :: r => (c :: h) :: r
      | [] => [[c]]

/-- Modelled from the spec: one segment of a property/key lookup against a
view value (§4.3); only object views carry resolvable keys here. -/
def resolveSeg (v : Value) (seg : Str) : Option Value :=
  match v with
  | .obj fields => (fields.find? (fun p => p.1 = seg)).map (fun p => p.2)
  | _ => none

/-- Modelled from the spec: walk the chain inner-to-outer and resolve the
first path segment in the first scope that carries it (§4.3). -/
def firstSegScope : Ctx → Str → Option Value
  | .root v, seg => resolveSeg v seg
  | .push p v, seg =>
    match resolveSeg v seg with
    | some x => some x
    | none => firstSegScope p seg

/-- Strict resolution of the remaining path segments. -/
def resolvePath : Value → List Str → Option Value
  | v, [] => some v
  | v, seg :: rest =>
    match resolveSeg v seg with
    | some v' => resolvePath v' rest
    | none => none

/-- Modelled from the spec: `Context.prototype.lookup` (§4.3).  Returns
`Value.undef` on a miss, as JS returns `undefined`. -/
def Ctx.lookup (c : Ctx) (path : Str) : Value :=
  if path = ['.'] then c.view
  else
    match splitDots path with
    | [] => .undef
    | seg :: rest =>
      match firstSegScope c seg with
      | none => .undef
      | some v => (resolvePath v rest).getD Value.undef

/-! ## Writer: configuration, cache, and rendering -/

/-- An escape collaborator: either the default `mustache.escape`
(`escapeHtml`), or a caller-supplied function, which receives the raw
looked-up value (its result is coerced to a string by `buffer += value`).
The identity test `escape === mustache.escape` in `escapedValue` is the
test for the `default` constructor. -/
inductive EscFn where
  | default
  | custom (f : Value → Str)

def applyEscape : EscFn → Value → Str
  | .default, v => escapeHtml v
  | .custom f, v => f v

/-- The optional `config` argument of `render`: absent, a bare delimiter
array, or an object with optional `tags` and `escape` attributes. -/
inductive Config where
  | noCfg
  | tagsArr (tags : List Str)
  | cfgObj (tags : Option (List Str)) (escape : Option EscFn)

/-- `Writer.prototype.getConfigTags`. -/
def getConfigTags : Config → Option (List Str)
  | .noCfg => none
  | .tagsArr l => some l
  | .cfgObj t _ => t

/-- `Writer.prototype.getConfigEscape`. -/
def getConfigEscape : Config → Option EscFn
  | .cfgObj _ e => e
  | _ => none

/-- The partials collaborator: absent, or a name-to-template resolver
(covering both an object map and a loader function). -/
abbrev Partials := Option (Str → Option Str)

/-- The writer's template cache: key to token list.  `set` prepends, `get`
takes the first match, giving JS object-assignment semantics.  A writer
with `templateCache` set to `undefined` is the `none` case. -/
abbrev Cache := List (Str × List Tok)

def cacheGet (c : Cache) (k : Str) : Option (List Tok) :=
  (c.find? (fun p => p.1 = k)).map (fun p => p.2)

def cacheSet (c : Cache) (k : Str) (v : List Tok) : Cache :=
  (k, v) :: c

def joinColon : List Str → Str
  | [] => []
  | [s] => s
  | s :: rest => s ++ ':' :: joinColon rest

/-- The cache key of `Writer.prototype.parse`:
`template + ':' + (tags || mustache.tags).join(':')`. -/
def cacheKey (template : Str) (tags : List Str) : Str :=
  template ++ ':' :: joinColon tags

/-- `Writer.prototype.parse`: consult the cache, parse and fill it on a
miss.  A parse error propagates and caches nothing. -/
def wParse (w : Option Cache) (template : Str) (tags : Option (List Str)) :
    Except PErr (List Tok × Option Cache) :=
  match w with
  | some cache =>
    let key := cacheKey template (tags.getD mustacheTags)
    match cacheGet cache key with
    | some toks => .ok (toks, some cache)
    | none =>
      match parseTemplate template tags with
      | .error e => .error e
      | .ok toks => .ok (toks, some (cacheSet cache key toks))
  | none =>
    match parseTemplate template tags with
    | .error e => .error e
    | .ok toks => .ok (toks, none)

/-- `Writer.prototype.indentPartial`: prefix each non-empty line of the
text with the space/tab characters of `indentation` (the first line only
when the partial's own line had no preceding non-whitespace). -/
def splitNl : Str → List Str
  | [] => [[]]
  | c :: t =>
    if c = '\n' then [] :: splitNl t
    else
      match splitNl t with
      | h :: r => (c :: h) :: r
      | [] => [[c]]

def joinNl : List Str → Str
  | [] => []
  | [l] => l
  | l :: rest => l ++ '\n' :: joinNl rest

def indentPartial (ptext : Str) (indentation : Str) (lineHasNonSpace : Bool) : Str :=
  let filteredIndentation := indentation.filter (fun c => c = ' ' || c = '\t')
  let lines := splitNl ptext
  joinNl <| lines.enum.map fun p =>
    if p.2.length ≠ 0 ∧ (p.1 > 0 ∨ !lineHasNonSpace) then filteredIndentation ++ p.2
    else p.2

/-- `Writer.prototype.unescapedValue`. -/
def unescapedValue (ctx : Ctx) (tok : PFlat) : Option Str :=
  let value := ctx.lookup tok.val
  if jsNonNull value then some (jsToString value) else none

/-- `Writer.prototype.escapedValue`: with the default escape function a
numeric value is stringified raw; otherwise the (possibly caller-supplied)
escape function receives the raw value. -/
def escapedValue (cfg : Config) (ctx : Ctx) (tok : PFlat) : Option Str :=
  let esc := (getConfigEscape cfg).getD .default
  let value := ctx.lookup tok.val
  if jsNonNull value then
    some (match value, esc with
          | .num n, .default => numToStr n
          | _, _ => applyEscape esc value)
  else none

/-- Render-time errors: the single fatal condition (a lambda section with
no original template) and the fuel marker; parse errors raised by a
partial's `this.parse` or by `render`'s own parse propagate as `parseErr`. -/
inductive RErr where
  | parseErr (e : PErr)
  | noOriginalTemplate
  | fuelOut
deriving Repr, DecidableEq

/-- A work item of the renderer: a token list to render
(`Writer.prototype.renderTokens`), or the element loop of a section whose
value is an array (`renderSection`'s `for` loop). -/
inductive RWork where
  | toks (ts : List Tok) (ctx : Ctx) (orig : Option Str)
  | secElems (children : List Tok) (elems : List Value) (ctx : Ctx) (orig : Option Str)

/-- The renderer.  One recursive function on fuel covering
`Writer.prototype.renderTokens` and the bodies of `renderSection`,
`renderInverted` and `renderPartial` (writer.js lines 87–180); the
non-recursive helpers (`escapedValue`, `unescapedValue`, `rawValue`,
`indentPartial`, `wParse`) are the standalone functions above.  Appending
`undefined` and appending `''` are both modelled as appending `[]`. -/
def renderWork : Nat → Option Cache → RWork → Partials → Config →
    Except RErr (Str × Option Cache)
  | 0, _, _, _, _ => .error .fuelOut
  | _ + 1, w, .toks [] _ _, _, _ => .ok ([], w)
  | f + 1, w, .toks (tok :: rest) ctx orig, parts, cfg =>
    let step : Except RErr (Str × Option Cache) :=
      match tok with
      | .flat ft =>
        if ft.ty = "text" then .ok (ft.val, w)
        else if ft.ty = "name" then .ok ((escapedValue cfg ctx ft).getD [], w)
        else if ft.ty = "&" then .ok ((unescapedValue ctx ft).getD [], w)
        else if ft.ty = ">" then
          -- Writer.prototype.renderPartial
          match parts with
          | none => .ok ([], w)
          | some pf =>
            match pf ft.val with
            | none => .ok ([], w)
            | some value =>
              let indentedValue :=
                if ft.tagIdx = 0 ∧ ft.indent ≠ [] then
                  indentPartial value ft.indent ft.lineNS
                else value
              match wParse w indentedValue (getConfigTags cfg) with
              | .error e => .error (.parseErr e)
              | .ok (toks, w) =>
                renderWork f w (.toks toks ctx (some indentedValue)) parts cfg
        else .ok ([], w) -- '!' and '=' tokens produce undefined
      | .sec ty name _ te children closeStart =>
        if ty = "#" then
          -- Writer.prototype.renderSection
          let value := ctx.lookup name
          if !truthy value then .ok ([], w)
          else
            match value with
            | .arr xs => renderWork f w (.secElems children xs ctx orig) parts cfg
            | .obj _ => renderWork f w (.toks children (ctx.push value) orig) parts cfg
            | .str _ => renderWork f w (.toks children (ctx.push value) orig) parts cfg
            | .num _ => renderWork f w (.toks children (ctx.push value) orig) parts cfg
            | .lambda fn =>
              match orig with
              | none => .error .noOriginalTemplate
              | some ot =>
                -- originalTemplate.slice(token[3], token[5])
                match fn ((ot.drop te).take (closeStart - te)) with
                | some s => .ok (s, w)
                | none => .ok ([], w)
            | _ => renderWork f w (.toks children ctx orig) parts cfg
        else
          -- Writer.prototype.renderInverted
          let value := ctx.lookup name
          let isEmptyArr := match value with | .arr [] => true | _ => false
          if !truthy value || isEmptyArr then
            renderWork f w (.toks children ctx orig) parts cfg
          else .ok ([], w)
    match step with
    | .error e => .error e
    | .ok (v, w) =>
      match renderWork f w (.toks rest ctx orig) parts cfg with
      | .error e => .error e
      | .ok (r, w) => .ok (v ++ r, w)
  | _ + 1, w, .secElems _ [] _ _, _, _ => .ok ([], w)
  | f + 1, w, .secElems children (v :: vs) ctx orig, parts, cfg =>
    match renderWork f w (.toks children (ctx.push v) orig) parts cfg with
    | .error e => .error e
    | .ok (s, w) =>
      match renderWork f w (.secElems children vs ctx orig) parts cfg with
      | .error e => .error e
      | .ok (r, w) => .ok (s ++ r, w)

/-- `Writer.prototype.renderTokens`. -/
def renderTokens (fuel : Nat) (w : Option Cache) (ts : List Tok) (ctx : Ctx)
    (parts : Partials) (orig : Option Str) (cfg : Config) :
    Except RErr (Str × Option Cache) :=
  renderWork fuel w (.toks ts ctx orig) parts cfg

/-- `Writer.prototype.render`: parse (through the cache) and render, with
the template itself as the original template. -/
def render (fuel : Nat) (w : Option Cache) (template : Str) (ctx : Ctx)
    (parts : Partials) (cfg : Config) : Except RErr (Str × Option Cache) :=
  match wParse w template (getConfigTags cfg) with
  | .error e => .error (.parseErr e)
  | .ok (toks, w) => renderTokens fuel w toks ctx parts (some template) cfg

/-! ## Helper lemmas for the renderer -/

/-- Continuing after a step that appended nothing leaves the result of the
remaining tokens unchanged. -/
theorem matchRes_nil_append (x : Except RErr (Str × Option Cache)) :
    (match x with
     | .error e => .error e
     | .ok (r, w) => .ok (([] : Str) ++ r, w)) = x := by
  cases x with
  | error e => rfl
  | ok p => cases p; simp

theorem matchRes_append_nil (x : Except RErr (Str × Option Cache)) :
    (match x with
     | .error e => Except.error e
     | .ok (r, w) => .ok (r ++ ([] : Str), w)) = x := by
  cases x with
  | error e => rfl
  | ok p => cases p; simp

/-! ## C4 — render-time misses are silent -/

/-- C4: for every render of a parsed template, an unresolved escaped or
unescaped variable path, an unresolved partial name (including an absent
partials collaborator), and a falsy section value each cause the renderer to
append nothing for that token and raise no error; rendering continues with
the remaining tokens. -/
theorem c4_render_misses :
    (∀ f w ft rest ctx parts orig cfg, ft.ty = "name" → ctx.lookup ft.val = .undef →
      renderTokens (f + 1) w (.flat ft :: rest) ctx parts orig cfg =
        renderTokens f w rest ctx parts orig cfg)
    ∧ (∀ f w ft rest ctx parts orig cfg, ft.ty = "&" → ctx.lookup ft.val = .undef →
      renderTokens (f + 1) w (.flat ft :: rest) ctx parts orig cfg =
        renderTokens f w rest ctx parts orig cfg)
    ∧ (∀ f w ft rest ctx orig cfg, ft.ty = ">" →
      renderTokens (f + 1) w (.flat ft :: rest) ctx none orig cfg =
        renderTokens f w rest ctx none orig cfg)
    ∧ (∀ f w ft rest ctx pf orig cfg, ft.ty = ">" → pf ft.val = none →
      renderTokens (f + 1) w (.flat ft :: rest) ctx (some pf) orig cfg =
        renderTokens f w rest ctx (some pf) orig cfg)
    ∧ (∀ f w name ts te ch cs rest ctx parts orig cfg, truthy (ctx.lookup name) = false →
      renderTokens (f + 1) w (.sec "#" name ts te ch cs :: rest) ctx parts orig cfg =
        renderTokens f w rest ctx parts orig cfg) := by
  refine ⟨?_, ?_, ?_, ?_, ?_⟩
  · intro f w ft rest ctx parts orig cfg hty hlook
    simp only [renderTokens, renderWork, hty, escapedValue, hlook]
    simp [jsNonNull, matchRes_nil_append]
    cases renderWork f w (RWork.toks rest ctx orig) parts cfg with
    | error e => rfl
    | ok p => cases p; rfl
  · intro f w ft rest ctx parts orig cfg hty hlook
    simp only [renderTokens, renderWork, hty, unescapedValue, hlook]
    simp [jsNonNull, matchRes_nil_append]
    cases renderWork f w (RWork.toks rest ctx orig) parts cfg with
    | error e => rfl
    | ok p => cases p; rfl
  · intro f w ft rest ctx orig cfg hty
    simp only [renderTokens, renderWork, hty]
    simp [matchRes_nil_append]
    cases renderWork f w (RWork.toks rest ctx orig) none cfg with
    | error e => rfl
    | ok p => cases p; rfl
  · intro f w ft rest ctx pf orig cfg hty hmiss
    simp only [renderTokens, renderWork, hty, hmiss]
    simp [matchRes_nil_append]
    cases renderWork f w (RWork.toks rest ctx orig) (some pf) cfg with
    | error e => rfl
    | ok p => cases p; rfl
  · intro f w name ts te ch cs rest ctx parts orig cfg hfalsy
    simp only [renderTokens, renderWork, hfalsy]
    simp [matchRes_nil_append]
    cases renderWork f w (RWork.toks rest ctx orig) parts cfg with
    | error e => rfl
    | ok p => cases p; rfl

/-- Witness for C4 at concrete inputs. -/
theorem c4_render_misses_witness :
    renderTokens 2 (some []) [.flat ⟨"name", "v".toList, 0, 5, [], 0, false⟩]
        (Ctx.root (Value.obj [])) none none .noCfg =
      renderTokens 1 (some []) [] (Ctx.root (Value.obj [])) none none .noCfg
    ∧ renderTokens 2 (some []) [.flat ⟨"&", "v".toList, 0, 5, [], 0, false⟩]
        (Ctx.root (Value.obj [])) none none .noCfg =
      renderTokens 1 (some []) [] (Ctx.root (Value.obj [])) none none .noCfg
    ∧ renderTokens 2 (some []) [.flat ⟨">", "p".toList, 0, 5, [], 0, false⟩]
        (Ctx.root (Value.obj [])) none none .noCfg =
      renderTokens 1 (some []) [] (Ctx.root (Value.obj [])) none none .noCfg
    ∧ renderTokens 2 (some []) [.flat ⟨">", "p".toList, 0, 5, [], 0, false⟩]
        (Ctx.root (Value.obj [])) (some (fun _ => none)) none .noCfg =
      renderTokens 1 (some []) [] (Ctx.root (Value.obj [])) (some (fun _ => none)) none .noCfg
    ∧ renderTokens 2 (some []) [.sec "#" "v".toList 0 5 [] 5]
        (Ctx.root (Value.obj [])) none none .noCfg =
      renderTokens 1 (some []) [] (Ctx.root (Value.obj [])) none none .noCfg :=
  ⟨c4_render_misses.1 1 (some []) _ [] _ none none .noCfg rfl rfl,
   c4_render_misses.2.1 1 (some []) _ [] _ none none .noCfg rfl rfl,
   c4_render_misses.2.2.1 1 (some []) _ [] _ none .noCfg rfl,
   c4_render_misses.2.2.2.1 1 (some []) _ [] _ _ none .noCfg rfl rfl,
   c4_render_misses.2.2.2.2 1 (some []) _ 0 5 [] 5 [] _ none none .noCfg rfl⟩

/-! ## C5 — numeric values under the escape function -/

/-- C5: for every escaped-variable (`name`) token whose looked-up value is a
number, the default escape configuration stringifies the number raw (no
HTML-escaping is applied), while a caller-supplied escape function receives
the raw, un-stringified value. -/
theorem c5_numeric_escape :
    (∀ cfg ctx ft n, getConfigEscape cfg = none →
      ctx.lookup ft.val = .num n → escapedValue cfg ctx ft = some (numToStr n))
    ∧ (∀ cfg ctx ft n, getConfigEscape cfg = some .default →
      ctx.lookup ft.val = .num n → escapedValue cfg ctx ft = some (numToStr n))
    ∧ (∀ cfg ctx ft n g, getConfigEscape cfg = some (.custom g) →
      ctx.lookup ft.val = .num n → escapedValue cfg ctx ft = some (g (.num n)))
    ∧ (∀ f w ft ctx parts orig cfg n, ft.ty = "name" → getConfigEscape cfg = none →
      ctx.lookup ft.val = .num n →
      renderTokens (f + 2) w [.flat ft] ctx parts orig cfg = .ok (numToStr n, w)) := by
  refine ⟨?_, ?_, ?_, ?_⟩
  · intro cfg ctx ft n hesc hlook
    simp [escapedValue, hesc, hlook, jsNonNull]
  · intro cfg ctx ft n hesc hlook
    simp [escapedValue, hesc, hlook, jsNonNull]
  · intro cfg ctx ft n g hesc hlook
    simp [escapedValue, hesc, hlook, jsNonNull, applyEscape]
  · intro f w ft ctx parts orig cfg n hty hesc hlook
    simp only [renderTokens, renderWork, hty]
    simp [escapedValue, hesc, hlook, jsNonNull]

/-- Witness for C5 at concrete inputs. -/
theorem c5_numeric_escape_witness :
    escapedValue .noCfg (Ctx.root (Value.obj [("n".toList, Value.num (.int 7))]))
        ⟨"name", "n".toList, 0, 5, [], 0, false⟩ = some (numToStr (.int 7))
    ∧ escapedValue (.cfgObj none (some .default))
        (Ctx.root (Value.obj [("n".toList, Value.num (.int 7))]))
        ⟨"name", "n".toList, 0, 5, [], 0, false⟩ = some (numToStr (.int 7))
    ∧ escapedValue (.cfgObj none (some (.custom (fun v => '!' :: jsToString v))))
        (Ctx.root (Value.obj [("n".toList, Value.num (.int 7))]))
        ⟨"name", "n".toList, 0, 5, [], 0, false⟩ =
      some ((fun v => '!' :: jsToString v) (Value.num (.int 7)))
    ∧ renderTokens 3 (some []) [.flat ⟨"name", "n".toList, 0, 5, [], 0, false⟩]
        (Ctx.root (Value.obj [("n".toList, Value.num (.int 7))])) none none .noCfg =
      .ok (numToStr (.int 7), some []) :=
  ⟨c5_numeric_escape.1 .noCfg _ _ (.int 7) rfl rfl,
   c5_numeric_escape.2.1 _ _ _ (.int 7) rfl rfl,
   c5_numeric_escape.2.2.1 (.cfgObj none (some (.custom (fun v => '!' :: jsToString v)))) _ _
     (.int 7) (fun v => '!' :: jsToString v) rfl rfl,
   c5_numeric_escape.2.2.2 1 (some []) _ _ none none .noCfg (.int 7) rfl rfl rfl⟩

/-! ## C7 — empty-sequence sections and their inverted twins -/

/-- C7: for every view in which a name resolves to an empty sequence,
rendering a section with that name appends nothing, and rendering an
inverted section with that name renders its children against the current,
unmodified context. -/
theorem c7_empty_sequence :
    (∀ f w name ts te ch cs ctx parts orig cfg, ctx.lookup name = .arr [] →
      renderTokens (f + 2) w [.sec "#" name ts te ch cs] ctx parts orig cfg = .ok ([], w))
    ∧ (∀ f w name ts te ch cs ctx parts orig cfg, ctx.lookup name = .arr [] →
      renderTokens (f + 2) w [.sec "^" name ts te ch cs] ctx parts orig cfg =
        renderTokens (f + 1) w ch ctx parts orig cfg) := by
  constructor
  · intro f w name ts te ch cs ctx parts orig cfg hlook
    simp only [renderTokens, renderWork, hlook]
    simp [truthy]
  · intro f w name ts te ch cs ctx parts orig cfg hlook
    simp only [renderTokens, renderWork, hlook]
    simp only [truthy, Bool.not_true, Bool.false_or]
    cases renderWork (f + 1) w (RWork.toks ch ctx orig) parts cfg with
    | error e => rfl
    | ok p => cases p; simp

/-- Witness for C7 at concrete inputs. -/
theorem c7_empty_sequence_witness :
    renderTokens 3 (some []) [.sec "#" "e".toList 0 7 [.flat ⟨"text", "x".toList, 7, 8, [], 0, false⟩] 8]
        (Ctx.root (Value.obj [("e".toList, Value.arr [])])) none none .noCfg = .ok ([], some [])
    ∧ renderTokens 3 (some []) [.sec "^" "e".toList 0 7 [.flat ⟨"text", "x".toList, 7, 8, [], 0, false⟩] 8]
        (Ctx.root (Value.obj [("e".toList, Value.arr [])])) none none .noCfg =
      renderTokens 2 (some []) [.flat ⟨"text", "x".toList, 7, 8, [], 0, false⟩]
        (Ctx.root (Value.obj [("e".toList, Value.arr [])])) none none .noCfg :=
  ⟨c7_empty_sequence.1 1 (some []) _ 0 7 _ 8 _ none none .noCfg rfl,
   c7_empty_sequence.2 1 (some []) _ 0 7 _ 8 _ none none .noCfg rfl⟩

/-! ## C8 — truthy scalar section values -/

/-- C8: for every section whose looked-up value is truthy but neither a
sequence, an object, a string, a number, nor a callable (e.g. `true`), the
renderer renders the section's children against the unmodified outer
context, not a pushed scope. -/
theorem c8_scalar_section (f : Nat) (w : Option Cache) (name : Str) (ts te : Nat)
    (ch : List Tok) (cs : Nat) (ctx : Ctx) (parts : Partials) (orig : Option Str)
    (cfg : Config) (hlook : ctx.lookup name = .bool true) :
    renderTokens (f + 2) w [.sec "#" name ts te ch cs] ctx parts orig cfg =
      renderTokens (f + 1) w ch ctx parts orig cfg := by
  simp only [renderTokens, renderWork, hlook]
  simp only [truthy, Bool.not_true]
  cases renderWork (f + 1) w (RWork.toks ch ctx orig) parts cfg with
  | error e => rfl
  | ok p => cases p; simp

/-- Witness for C8 at concrete inputs. -/
theorem c8_scalar_section_witness :
    renderTokens 3 (some []) [.sec "#" "b".toList 0 7 [.flat ⟨"text", "y".toList, 7, 8, [], 0, false⟩] 8]
        (Ctx.root (Value.obj [("b".toList, Value.bool true)])) none none .noCfg =
      renderTokens 2 (some []) [.flat ⟨"text", "y".toList, 7, 8, [], 0, false⟩]
        (Ctx.root (Value.obj [("b".toList, Value.bool true)])) none none .noCfg :=
  c8_scalar_section 1 (some []) _ 0 7 _ 8 _ none none .noCfg rfl

/-! ## C10 — falsy variable values are rendered, only null/undefined are not -/

/-- C10: for escaped and unescaped variable tokens, only a looked-up value
of `null` or `undefined` appends nothing; the falsy values `false`, `0`,
`NaN` and the empty string are still stringified (and, for `name` tokens,
escaped) — unlike sections, where those values are falsy and suppress the
body. -/
theorem c10_variable_falsy :
    (∀ cfg ctx ft, ctx.lookup ft.val = .vnull →
      escapedValue cfg ctx ft = none ∧ unescapedValue ctx ft = none)
    ∧ (∀ cfg ctx ft, ctx.lookup ft.val = .undef →
      escapedValue cfg ctx ft = none ∧ unescapedValue ctx ft = none)
    ∧ (∀ cfg ctx ft, getConfigEscape cfg = none → ctx.lookup ft.val = .bool false →
      escapedValue cfg ctx ft = some "false".toList
      ∧ unescapedValue ctx ft = some "false".toList)
    ∧ (∀ cfg ctx ft, getConfigEscape cfg = none → ctx.lookup ft.val = .num (.int 0) →
      escapedValue cfg ctx ft = some "0".toList ∧ unescapedValue ctx ft = some "0".toList)
    ∧ (∀ cfg ctx ft, getConfigEscape cfg = none → ctx.lookup ft.val = .num .nan →
      escapedValue cfg ctx ft = some "NaN".toList ∧ unescapedValue ctx ft = some "NaN".toList)
    ∧ (∀ cfg ctx ft, getConfigEscape cfg = none → ctx.lookup ft.val = .str [] →
      escapedValue cfg ctx ft = some [] ∧ unescapedValue ctx ft = some [])
    ∧ (truthy (.bool false) = false ∧ truthy (.num (.int 0)) = false
      ∧ truthy (.num .nan) = false ∧ truthy (.str []) = false)
    ∧ (∀ f w name ts te ch cs rest ctx parts orig cfg, ctx.lookup name = .bool false →
      renderTokens (f + 1) w (.sec "#" name ts te ch cs :: rest) ctx parts orig cfg =
        renderTokens f w rest ctx parts orig cfg) := by
  refine ⟨?_, ?_, ?_, ?_, ?_, ?_, by decide, ?_⟩
  · intro cfg ctx ft h
    constructor <;> simp [escapedValue, unescapedValue, h, jsNonNull]
  · intro cfg ctx ft h
    constructor <;> simp [escapedValue, unescapedValue, h, jsNonNull]
  · intro cfg ctx ft hesc h
    constructor <;>
      simp [escapedValue, unescapedValue, hesc, h, jsNonNull, applyEscape, escapeHtml,
        jsToString, entitySub]
  · intro cfg ctx ft hesc h
    constructor <;>
      (simp [escapedValue, unescapedValue, hesc, h, jsNonNull, applyEscape, escapeHtml,
        jsToString, numToStr, entitySub]) <;> rfl
  · intro cfg ctx ft hesc h
    constructor <;>
      simp [escapedValue, unescapedValue, hesc, h, jsNonNull, applyEscape, escapeHtml,
        jsToString, numToStr, entitySub]
  · intro cfg ctx ft hesc h
    constructor <;>
      simp [escapedValue, unescapedValue, hesc, h, jsNonNull, applyEscape, escapeHtml,
        jsToString, entitySub]
  · intro f w name ts te ch cs rest ctx parts orig cfg hlook
    simp only [renderTokens, renderWork, hlook]
    simp [truthy, matchRes_nil_append]
    cases renderWork f w (RWork.toks rest ctx orig) parts cfg with
    | error e => rfl
    | ok p => cases p; rfl

/-- Witness for C10 at concrete inputs. -/
theorem c10_variable_falsy_witness :
    (escapedValue .noCfg (Ctx.root (Value.obj [("a".toList, Value.vnull)]))
        ⟨"name", "a".toList, 0, 5, [], 0, false⟩ = none
      ∧ unescapedValue (Ctx.root (Value.obj [("a".toList, Value.vnull)]))
        ⟨"name", "a".toList, 0, 5, [], 0, false⟩ = none)
    ∧ (escapedValue .noCfg (Ctx.root (Value.obj []))
        ⟨"name", "a".toList, 0, 5, [], 0, false⟩ = none
      ∧ unescapedValue (Ctx.root (Value.obj []))
        ⟨"name", "a".toList, 0, 5, [], 0, false⟩ = none)
    ∧ (escapedValue .noCfg (Ctx.root (Value.obj [("a".toList, Value.bool false)]))
        ⟨"name", "a".toList, 0, 5, [], 0, false⟩ = some "false".toList
      ∧ unescapedValue (Ctx.root (Value.obj [("a".toList, Value.bool false)]))
        ⟨"name", "a".toList, 0, 5, [], 0, false⟩ = some "false".toList)
    ∧ (escapedValue .noCfg (Ctx.root (Value.obj [("a".toList, Value.num (.int 0))]))
        ⟨"name", "a".toList, 0, 5, [], 0, false⟩ = some "0".toList
      ∧ unescapedValue (Ctx.root (Value.obj [("a".toList, Value.num (.int 0))]))
        ⟨"name", "a".toList, 0, 5, [], 0, false⟩ = some "0".toList)
    ∧ (escapedValue .noCfg (Ctx.root (Value.obj [("a".toList, Value.num .nan)]))
        ⟨"name", "a".toList, 0, 5, [], 0, false⟩ = some "NaN".toList
      ∧ unescapedValue (Ctx.root (Value.obj [("a".toList, Value.num .nan)]))
        ⟨"name", "a".toList, 0, 5, [], 0, false⟩ = some "NaN".toList)
    ∧ (escapedValue .noCfg (Ctx.root (Value.obj [("a".toList, Value.str [])]))
        ⟨"name", "a".toList, 0, 5, [], 0, false⟩ = some []
      ∧ unescapedValue (Ctx.root (Value.obj [("a".toList, Value.str [])]))
        ⟨"name", "a".toList, 0, 5, [], 0, false⟩ = some [])
    ∧ renderTokens 2 (some []) [.sec "#" "a".toList 0 5 [] 5]
        (Ctx.root (Value.obj [("a".toList, Value.bool false)])) none none .noCfg =
      renderTokens 1 (some []) [] (Ctx.root (Value.obj [("a".toList, Value.bool false)]))
        none none .noCfg :=
  ⟨c10_variable_falsy.1 .noCfg _ _ rfl,
   c10_variable_falsy.2.1 .noCfg _ _ rfl,
   c10_variable_falsy.2.2.1 .noCfg _ _ rfl rfl,
   c10_variable_falsy.2.2.2.1 .noCfg _ _ rfl rfl,
   c10_variable_falsy.2.2.2.2.1 .noCfg _ _ rfl rfl,
   c10_variable_falsy.2.2.2.2.2.1 .noCfg _ _ rfl rfl,
   c10_variable_falsy.2.2.2.2.2.2.2 1 (some []) _ 0 5 [] 5 [] _ none none .noCfg rfl⟩

/-! ## C1 — the cached parse versus direct parsing

`Writer.prototype.parse` memoizes on the key
`template + ':' + tags.join(':')`.  That key is not injective in the pair
(template, delimiter pair): the pair `("a", ["b:\x7b\x7b", "\x7d\x7d"])` and the pair
`("a:b", ["\x7b\x7b", "\x7d\x7d"])` both map to the key `"a:b:\x7b\x7b:\x7d\x7d"`, so a prior parse
of the former makes the cached parse of the latter return the wrong token
sequence.  Restricted to call sequences without such key collisions the
memoization is sound, which is proved below. -/

/-- A shallow fingerprint, used only to decide inequality of token trees. -/
def Tok.fp : Tok → String
  | .flat f => "F" ++ f.ty ++ "," ++ String.mk f.val ++ "," ++ toString f.ts ++ "," ++ toString f.te
  | .sec ty v ts te ch cs =>
    "S" ++ ty ++ "," ++ String.mk v ++ "," ++ toString ts ++ "," ++ toString te ++ ","
      ++ toString ch.length ++ "," ++ toString cs

def fpToks (ts : List Tok) : String :=
  String.intercalate ";" (ts.map Tok.fp)

/-- The cache key as a function of the call pair. -/
def keyOf (t : Str) (tags : Option (List Str)) : Str :=
  cacheKey t (tags.getD mustacheTags)

/-- Replay a sequence of `Writer.prototype.parse` calls against a writer
cache; a call that throws leaves the cache unchanged. -/
def buildCache : List (Str × Option (List Str)) → Option Cache → Option Cache
  | [], w => w
  | p :: rest, w =>
    match wParse w p.1 p.2 with
    | .ok (_, w') => buildCache rest w'
    | .error _ => buildCache rest w

/-- C1 counterexample: after a prior parse of `("a", ["b:\x7b\x7b", "\x7d\x7d"])`, the
cached parse of `("a:b", default tags)` returns the token sequence of the
*other* pair, which differs from parsing `"a:b"` directly. -/
theorem c1_counterexample :
    wParse (some []) "a".toList (some ["b:\x7b\x7b".toList, "\x7d\x7d".toList]) =
      .ok ([.flat ⟨"text", "a".toList, 0, 1, [], 0, false⟩],
           some [("a:b:\x7b\x7b:\x7d\x7d".toList, [.flat ⟨"text", "a".toList, 0, 1, [], 0, false⟩])])
    ∧ (wParse (some [("a:b:\x7b\x7b:\x7d\x7d".toList, [.flat ⟨"text", "a".toList, 0, 1, [], 0, false⟩])])
        "a:b".toList none).map Prod.fst =
      .ok [.flat ⟨"text", "a".toList, 0, 1, [], 0, false⟩]
    ∧ parseTemplate "a:b".toList none = .ok [.flat ⟨"text", "a:b".toList, 0, 3, [], 0, false⟩]
    ∧ ([Tok.flat ⟨"text", "a".toList, 0, 1, [], 0, false⟩] : List Tok) ≠
      [Tok.flat ⟨"text", "a:b".toList, 0, 3, [], 0, false⟩] :=
  ⟨rfl, rfl, rfl, fun h => absurd (congrArg fpToks h) (by decide)⟩

/-- A cache is sound for the pair `(t, tg)` when any entry stored under that
pair's key holds that pair's parse result. -/
def CacheSound (t : Str) (tg : Option (List Str)) : Option Cache → Prop
  | some c => ∀ kv ∈ c, kv.1 = keyOf t tg → parseTemplate t tg = .ok kv.2
  | none => True

theorem wParse_none_eq (t : Str) (tg : Option (List Str)) :
    (wParse none t tg).map Prod.fst = parseTemplate t tg := by
  simp only [wParse]
  cases parseTemplate t tg <;> rfl

theorem wParse_of_sound (t : Str) (tg : Option (List Str)) (c : Cache)
    (h : CacheSound t tg (some c)) :
    (wParse (some c) t tg).map Prod.fst = parseTemplate t tg := by
  simp only [wParse]
  cases hg : cacheGet c (cacheKey t (tg.getD mustacheTags)) with
  | some toks =>
    rw [cacheGet, Option.map_eq_some'] at hg
    obtain ⟨kv, hfind, hv⟩ := hg
    have hmem := List.mem_of_find?_eq_some hfind
    have hkey := List.find?_some hfind
    simp only [decide_eq_true_eq] at hkey
    have := h kv hmem hkey
    simp [this, ← hv]
    rfl
  | none =>
    cases parseTemplate t tg <;> rfl

theorem buildCache_sound (t : Str) (tg : Option (List Str)) :
    ∀ (prior : List (Str × Option (List Str))) (w : Option Cache),
      CacheSound t tg w →
      (∀ p ∈ prior, keyOf p.1 p.2 = keyOf t tg → parseTemplate p.1 p.2 = parseTemplate t tg) →
      CacheSound t tg (buildCache prior w) := by
  intro prior
  induction prior with
  | nil => intro w hw _; exact hw
  | cons p rest ih =>
    intro w hw hnc
    have hrest : ∀ q ∈ rest, keyOf q.1 q.2 = keyOf t tg →
        parseTemplate q.1 q.2 = parseTemplate t tg := fun q hq => hnc q (List.mem_cons_of_mem _ hq)
    simp only [buildCache]
    cases hp : wParse w p.1 p.2 with
    | error e => exact ih w hw hrest
    | ok res =>
      obtain ⟨toks, w'⟩ := res
      refine ih w' ?_ hrest
      cases w with
      | none =>
        simp only [wParse] at hp
        cases hpt : parseTemplate p.1 p.2 <;> simp [hpt] at hp
        exact hp.2 ▸ hw
      | some cache =>
        simp only [wParse] at hp
        cases hg : cacheGet cache (cacheKey p.1 (p.2.getD mustacheTags)) with
        | some cached =>
          simp [hg] at hp
          exact hp.2 ▸ hw
        | none =>
          simp only [hg] at hp
          cases hpt : parseTemplate p.1 p.2 with
          | error e => simp [hpt] at hp
          | ok ptoks =>
            simp only [hpt] at hp
            simp only [Except.ok.injEq, Prod.mk.injEq] at hp
            obtain ⟨h1, h2⟩ := hp
            refine h2 ▸ ?_
            intro kv hkv hkey
            simp only [cacheSet] at hkv
            rcases List.mem_cons.mp hkv with hnew | hold
            · subst hnew
              simp only at hkey
              have := hnc p (List.mem_cons_self _ _) hkey
              rw [← this, hpt, h1]
            · exact hw kv hold hkey

/-- C1 amended: the token sequence returned by the writer's cached parse
equals the direct parse of the pair, for every sequence of prior parse
calls in which no prior pair shares this pair's cache key with a different
parse result (the key `template ++ ':' ++ delimiters.join(':')` is not
injective in the pair, so this proviso is necessary — see the
counterexample). -/
theorem c1_cached_parse (prior : List (Str × Option (List Str))) (t : Str)
    (tg : Option (List Str))
    (hnc : ∀ p ∈ prior, keyOf p.1 p.2 = keyOf t tg →
      parseTemplate p.1 p.2 = parseTemplate t tg) :
    (wParse (buildCache prior (some [])) t tg).map Prod.fst = parseTemplate t tg := by
  have hsound : CacheSound t tg (buildCache prior (some [])) :=
    buildCache_sound t tg prior (some []) (by intro kv h; simp at h) hnc
  cases hb : buildCache prior (some []) with
  | none => exact wParse_none_eq t tg
  | some c => exact wParse_of_sound t tg c (hb ▸ hsound)

/-- Witness for the amended C1 at a concrete input (no prior calls). -/
theorem c1_cached_parse_witness :
    (wParse (buildCache [] (some [])) "x".toList none).map Prod.fst =
      parseTemplate "x".toList none :=
  c1_cached_parse [] "x".toList none (by intro p h; simp at h)

/-! ## C6 — partial indentation

`indentPartial` prefixes lines not with the captured indentation itself but
with its space/tab characters only (`indentation.replace(/[^ \t]/g, '')`).
An indentation containing `\r` (whitespace, so captured, but neither space
nor tab) separates the two readings. -/

/-- The rewriting as the claim words it: every non-empty line prefixed with
the captured indentation itself (the first line only when the partial's
line had no preceding non-whitespace content). -/
def claimIndent (ptext ind : Str) (lineHasNonSpace : Bool) : Str :=
  joinNl <| (splitNl ptext).enum.map fun p =>
    if p.2.length ≠ 0 ∧ (p.1 > 0 ∨ !lineHasNonSpace) then ind ++ p.2 else p.2

/-- C6 counterexample: the template `"\r\x7b\x7b>p\x7d\x7d"` captures indentation
`"\r"` for a first-on-line partial, yet the partial text `"x"` is parsed
unchanged (the `\r` is filtered out), so the render output is `"x"` and not
the `"\rx"` the claim's rewriting prescribes. -/
theorem c6_counterexample :
    parseTemplate "\r\x7b\x7b>p\x7d\x7d".toList none =
      .ok [.flat ⟨">", "p".toList, 1, 7, "\r".toList, 0, false⟩]
    ∧ (render 10 (some []) "\r\x7b\x7b>p\x7d\x7d".toList (Ctx.root (Value.obj []))
        (some fun n => if n = "p".toList then some "x".toList else none) .noCfg).map Prod.fst
      = .ok "x".toList
    ∧ claimIndent "x".toList "\r".toList false = "\rx".toList
    ∧ ("x".toList : Str) ≠ "\rx".toList :=
  ⟨by rfl, by rfl, by rfl, by decide⟩

theorem splitNl_ne_nil (v : Str) : splitNl v ≠ [] := by
  cases v with
  | nil => simp [splitNl]
  | cons c t =>
    simp only [splitNl]
    split
    · simp
    · cases splitNl t <;> simp

theorem splitNl_no_nl (l : Str) (h : '\n' ∉ l) : splitNl l = [l] := by
  induction l with
  | nil => rfl
  | cons c t ih =>
    simp only [List.mem_cons, not_or] at h
    have hc : ¬ (c = '\n') := fun hh => h.1 hh.symm
    simp only [splitNl, if_neg hc, ih h.2]

theorem splitNl_append_nl (l s : Str) (h : '\n' ∉ l) :
    splitNl (l ++ '\n' :: s) = l :: splitNl s := by
  induction l with
  | nil => simp [splitNl]
  | cons c t ih =>
    simp only [List.mem_cons, not_or] at h
    have hc : ¬ (c = '\n') := fun hh => h.1 hh.symm
    simp only [List.cons_append, splitNl, if_neg hc]
    rw [show t.append ('\n' :: s) = t ++ '\n' :: s from rfl, ih h.2]

theorem splitNl_joinNl (ls : List Str) (h : ∀ l ∈ ls, '\n' ∉ l) (hne : ls ≠ []) :
    splitNl (joinNl ls) = ls := by
  induction ls with
  | nil => exact absurd rfl hne
  | cons l rest ih =>
    cases rest with
    | nil => simpa [joinNl] using splitNl_no_nl l (h l (by simp))
    | cons l' r =>
      have h1 : '\n' ∉ l := h l (by simp)
      have h2 : ∀ x ∈ l' :: r, '\n' ∉ x := fun x hx => h x (List.mem_cons_of_mem _ hx)
      simp only [joinNl, splitNl_append_nl _ _ h1]
      rw [ih h2 (by simp)]

theorem mem_splitNl_no_nl (v : Str) : ∀ l ∈ splitNl v, '\n' ∉ l := by
  induction v with
  | nil => intro l hl; simp [splitNl] at hl; simp [hl]
  | cons c t ih =>
    intro l hl
    simp only [splitNl] at hl
    by_cases hc : c = '\n'
    · rw [if_pos hc] at hl
      rcases List.mem_cons.mp hl with h | h
      · simp [h]
      · exact ih l h
    · rw [if_neg hc] at hl
      cases hs : splitNl t with
      | nil => exact absurd hs (splitNl_ne_nil t)
      | cons hd tl =>
        rw [hs] at hl
        rcases List.mem_cons.mp hl with h | h
        · subst h
          simp only [List.mem_cons, not_or]
          refine ⟨fun hh => hc hh.symm, ?_⟩
          have : hd ∈ splitNl t := by rw [hs]; exact List.mem_cons_self _ _
          exact ih hd this
        · exact ih l (by rw [hs]; exact List.mem_cons_of_mem _ h)

theorem mem_enum_snd {α : Type} {ls : List α} {p : Nat × α} (h : p ∈ ls.enum) : p.2 ∈ ls := by
  rw [List.mem_enum_iff_getElem?] at h
  exact List.getElem?_mem h

/-- C6 amended: iff the partial is the first tag on its line and a
non-empty indentation was captured, the partial's text is rewritten before
parsing by prefixing every non-empty line with the *space and tab*
characters of that indentation (other captured whitespace such as `\r` is
dropped), the first line only when the line had no preceding non-whitespace
content; otherwise the text is parsed unchanged.  Conjunct one is the
renderer equation (with the `if` deciding the rewrite), conjunct two
identifies `indentPartial` with the claim's rewriting applied to the
filtered indentation, and conjunct three gives the line-by-line reading. -/
theorem c6_partial_indentation :
    (∀ f w ft ctx pf v orig cfg, ft.ty = ">" → pf ft.val = some v →
      renderTokens (f + 2) w [.flat ft] ctx (some pf) orig cfg =
        match wParse w (if ft.tagIdx = 0 ∧ ft.indent ≠ [] then
            indentPartial v ft.indent ft.lineNS else v) (getConfigTags cfg) with
        | .error e => .error (.parseErr e)
        | .ok (toks, w') =>
          renderTokens (f + 1) w' toks ctx (some pf)
            (some (if ft.tagIdx = 0 ∧ ft.indent ≠ [] then
              indentPartial v ft.indent ft.lineNS else v)) cfg)
    ∧ (∀ v ind lhn, indentPartial v ind lhn =
        claimIndent v (ind.filter (fun c => c = ' ' || c = '\t')) lhn)
    ∧ (∀ v ind lhn, splitNl (indentPartial v ind lhn) =
        (splitNl v).enum.map fun p =>
          if p.2.length ≠ 0 ∧ (p.1 > 0 ∨ !lhn) then
            (ind.filter (fun c => c = ' ' || c = '\t')) ++ p.2
          else p.2) := by
  refine ⟨?_, ?_, ?_⟩
  · intro f w ft ctx pf v orig cfg hty hres
    simp only [renderTokens, renderWork, hty, hres]
    cases hw : wParse w (if ft.tagIdx = 0 ∧ ft.indent ≠ [] then
        indentPartial v ft.indent ft.lineNS else v) (getConfigTags cfg) with
    | error e => simp [hw]
    | ok p =>
      obtain ⟨toks, w'⟩ := p
      simp only [hw]
      cases renderWork (f + 1) w' (RWork.toks toks ctx
          (some (if ft.tagIdx = 0 ∧ ft.indent ≠ [] then
            indentPartial v ft.indent ft.lineNS else v))) (some pf) cfg with
      | error e => simp
      | ok q => cases q; simp
  · intro v ind lhn
    rfl
  · intro v ind lhn
    rw [indentPartial]
    refine splitNl_joinNl _ ?_ ?_
    · intro l hl
      rw [List.mem_map] at hl
      obtain ⟨p, hp, hpl⟩ := hl
      have hmem : p.2 ∈ splitNl v := mem_enum_snd hp
      have hnl : '\n' ∉ p.2 := mem_splitNl_no_nl v p.2 hmem
      subst hpl
      split
      · intro hin
        rcases List.mem_append.mp hin with hmemf | hmem2
        · have hprop := List.of_mem_filter hmemf
          simp at hprop
        · exact hnl hmem2
      · exact hnl
    · simp only [ne_eq, List.map_eq_nil_iff, List.enum_eq_nil]
      exact splitNl_ne_nil v

/-- Witness for the amended C6 at concrete inputs. -/
theorem c6_partial_indentation_witness :
    renderTokens 3 (some []) [.flat ⟨">", "p".toList, 1, 7, "\r".toList, 0, false⟩]
        (Ctx.root (Value.obj []))
        (some fun n => if n = "p".toList then some "x".toList else none) none .noCfg =
      (match wParse (some []) (if (0 : Nat) = 0 ∧ ("\r".toList : Str) ≠ [] then
          indentPartial "x".toList "\r".toList false else "x".toList) none with
       | .error e => .error (.parseErr e)
       | .ok (toks, w') =>
         renderTokens 2 w' toks (Ctx.root (Value.obj []))
           (some fun n => if n = "p".toList then some "x".toList else none)
           (some (if (0 : Nat) = 0 ∧ ("\r".toList : Str) ≠ [] then
             indentPartial "x".toList "\r".toList false else "x".toList)) .noCfg) :=
  c6_partial_indentation.1 1 (some []) ⟨">", "p".toList, 1, 7, "\r".toList, 0, false⟩
    (Ctx.root (Value.obj []))
    (fun n => if n = "p".toList then some "x".toList else none) "x".toList none .noCfg
    rfl (by simp)

/-! ## Character classes for symbolic templates -/

/-- The surrounding whitespace of a standalone line: spaces and tabs. -/
def lineWsOf (s : Str) : Prop := ∀ c ∈ s, c = ' ' ∨ c = '\t'

/-- Plain tag names: alphabetic characters only. -/
def alphaOf (s : Str) : Prop := ∀ c ∈ s, c.isAlpha = true

theorem ws_chars (c : Char) (h : isWs c = true) :
    c = ' ' ∨ c = '\t' ∨ c = '\n' ∨ c = '\r' ∨ c = Char.ofNat 11 ∨ c = Char.ofNat 12 := by
  simpa [isWs, or_assoc] using h

theorem alpha_not_ws (c : Char) (h : c.isAlpha = true) : isWs c = false := by
  by_contra hws
  rcases ws_chars c (by simpa using hws) with rfl | rfl | rfl | rfl | rfl | rfl <;>
    exact absurd h (by decide)

theorem alpha_ne (c d : Char) (h : c.isAlpha = true) (hd : d.isAlpha = false) : c ≠ d :=
  fun e => by subst e; rw [h] at hd; cases hd

theorem lineWs_isWs (c : Char) (h : c = ' ' ∨ c = '\t') : isWs c = true := by
  rcases h with rfl | rfl <;> decide

theorem lineWs_ne (c d : Char) (h : c = ' ' ∨ c = '\t') (hd : d ≠ ' ' ∧ d ≠ '\t') : c ≠ d := by
  rcases h with rfl | rfl <;> exact fun e => by simp [← e] at hd

theorem lineWs_not_nl (c : Char) (h : c = ' ' ∨ c = '\t') : ¬ c = '\n' := by
  rcases h with rfl | rfl <;> decide

/-! ## Scanner lemmas for symbolic templates -/

theorem rem_mk (src : Str) (p : Nat) : Scanner.rem ⟨src, p⟩ = src.drop p := rfl

theorem rem_add (src : Str) (p k : Nat) :
    Scanner.rem ⟨src, p + k⟩ = (Scanner.rem ⟨src, p⟩).drop k := by
  simp [Scanner.rem, List.drop_drop]

theorem findSub_of_prefix (pat s : Str) (h : pat.isPrefixOf s) : findSub pat s = some 0 := by
  cases s <;> simp [findSub, h]

theorem findSub_append (p₀ : Char) (pt a rest : Str) (h : ∀ c ∈ a, c ≠ p₀) :
    findSub (p₀ :: pt) (a ++ rest) = (findSub (p₀ :: pt) rest).map (· + a.length) := by
  induction a with
  | nil =>
    simp only [List.nil_append, List.length_nil]
    cases findSub (p₀ :: pt) rest <;> simp
  | cons c a' ih =>
    have hc : c ≠ p₀ := h c (by simp)
    have hpre : ((p₀ :: pt).isPrefixOf (c :: (a' ++ rest))) = false := by
      simp [List.isPrefixOf]
      intro e; exact absurd e.symm hc
    simp only [List.cons_append, findSub, List.append_eq]
    rw [hpre]
    simp only [Bool.false_eq_true, if_false]
    rw [ih (fun x hx => h x (by simp [hx]))]
    cases findSub (p₀ :: pt) rest with
    | none => simp
    | some i => simp; omega

theorem findSub_none (p₀ : Char) (pt a : Str) (h : ∀ c ∈ a, c ≠ p₀) :
    findSub (p₀ :: pt) a = none := by
  have := findSub_append p₀ pt a [] h
  simpa [findSub] using this

theorem wsRunLen_cons_not (c : Char) (t : Str) (h : isWs c = false) :
    wsRunLen (c :: t) = 0 := by
  simp [wsRunLen, h]

theorem wsRunLen_zero_of_head (s : Str) (h : s = [] ∨ ∃ c t, s = c :: t ∧ isWs c = false) :
    wsRunLen s = 0 := by
  rcases h with rfl | ⟨c, t, rfl, hc⟩
  · rfl
  · exact wsRunLen_cons_not c t hc

theorem matchWsLAt_zero_run (L s : Str) (h : wsRunLen s = 0) :
    matchWsLAt L s = if L.isPrefixOf s then some L.length else none := by
  rw [matchWsLAt, h]; rfl

theorem findWsL_cons_none (l₀ : Char) (lt : Str) (c : Char) (t : Str)
    (hws : isWs c = false) (hne : c ≠ l₀) :
    findWsL (l₀ :: lt) (c :: t) = (findWsL (l₀ :: lt) t).map (fun p => (p.1 + 1, p.2)) := by
  have hm : matchWsLAt (l₀ :: lt) (c :: t) = none := by
    rw [matchWsLAt_zero_run _ _ (wsRunLen_cons_not c t hws)]
    simp [List.isPrefixOf]
    intro e; exact absurd e.symm hne
  simp [findWsL, hm]

theorem findWsL_append (l₀ : Char) (lt a rest : Str)
    (h : ∀ c ∈ a, isWs c = false ∧ c ≠ l₀) :
    findWsL (l₀ :: lt) (a ++ rest) =
      (findWsL (l₀ :: lt) rest).map (fun p => (p.1 + a.length, p.2)) := by
  induction a with
  | nil =>
    simp only [List.nil_append, List.length_nil]
    cases findWsL (l₀ :: lt) rest with
    | none => simp
    | some p => cases p; simp
  | cons c a' ih =>
    have hc := h c (by simp)
    rw [List.cons_append, findWsL_cons_none l₀ lt c _ hc.1 hc.2,
      ih (fun x hx => h x (by simp [hx]))]
    cases findWsL (l₀ :: lt) rest with
    | none => simp
    | some p => obtain ⟨x, y⟩ := p; simp; try omega

theorem findWsL_at_prefix (l₀ : Char) (lt s : Str) (hnw : isWs l₀ = false)
    (hp : (l₀ :: lt).isPrefixOf s) :
    findWsL (l₀ :: lt) s = some (0, lt.length + 1) := by
  cases s with
  | nil => simp [List.isPrefixOf] at hp
  | cons c t =>
    have hc : l₀ = c := by
      simp [List.isPrefixOf] at hp; exact hp.1
    have hm : matchWsLAt (l₀ :: lt) (c :: t) = some (lt.length + 1) := by
      rw [matchWsLAt_zero_run _ _ (wsRunLen_cons_not c t (hc ▸ hnw)), if_pos hp]
      simp
    simp [findWsL, hm]

theorem findWsL_none (l₀ : Char) (lt a : Str) (h : ∀ c ∈ a, isWs c = false ∧ c ≠ l₀) :
    findWsL (l₀ :: lt) a = none := by
  have := findWsL_append l₀ lt a [] h
  have hnil : findWsL (l₀ :: lt) ([] : Str) = none := by
    simp [findWsL, matchWsLAt, tryWsL, wsRunLen, List.isPrefixOf]
  rw [List.append_nil] at this
  rw [this, hnil]
  rfl

/-! Scanner operations on shaped remainders. -/

theorem eos_false (sc : Scanner) (x : Char) (r : Str) (hrem : sc.rem = x :: r) :
    sc.eos = false := by
  simp [Scanner.eos, hrem]

theorem scanUntilLit_clean (p₀ : Char) (pt : Str) (src : Str) (p : Nat) (a r : Str)
    (hrem : Scanner.rem ⟨src, p⟩ = a ++ (p₀ :: pt) ++ r) (ha : ∀ c ∈ a, c ≠ p₀) :
    scanUntilLit (p₀ :: pt) ⟨src, p⟩ = (a, ⟨src, p + a.length⟩) := by
  have hfind : findSub (p₀ :: pt) (Scanner.rem ⟨src, p⟩) = some a.length := by
    rw [hrem, List.append_assoc, findSub_append p₀ pt a _ ha,
      findSub_of_prefix _ _ (by simp [List.isPrefixOf_iff_prefix, List.prefix_append])]
    simp
  simp only [scanUntilLit]
  rw [hfind]
  simp [hrem, List.append_assoc, List.take_left]

theorem scanUntilLit_all (p₀ : Char) (pt : Str) (src : Str) (p : Nat) (a : Str)
    (hrem : Scanner.rem ⟨src, p⟩ = a) (ha : ∀ c ∈ a, c ≠ p₀) :
    scanUntilLit (p₀ :: pt) ⟨src, p⟩ = (a, ⟨src, p + a.length⟩) := by
  have hfind : findSub (p₀ :: pt) (Scanner.rem ⟨src, p⟩) = none := by
    rw [hrem]; exact findSub_none p₀ pt a ha
  simp only [scanUntilLit]
  rw [hfind]
  simp [hrem]

theorem scanLitWs_at (L : Str) (src : Str) (p : Nat) (r : Str)
    (hrem : Scanner.rem ⟨src, p⟩ = L ++ r) (hr : wsRunLen r = 0) :
    scanLitWs L ⟨src, p⟩ = (L, ⟨src, p + L.length⟩) := by
  have hpre : L.isPrefixOf (Scanner.rem ⟨src, p⟩) = true := by
    rw [hrem]; simp [List.isPrefixOf_iff_prefix, List.prefix_append]
  simp [scanLitWs, hpre, hrem, List.drop_left, hr, List.take_left]

theorem scanLitWs_fail (L : Str) (sc : Scanner)
    (h : L.isPrefixOf sc.rem = false) : scanLitWs L sc = ([], sc) := by
  simp [scanLitWs, h]

theorem scanTagType_sigil (src : Str) (p : Nat) (c : Char) (r : Str)
    (hrem : Scanner.rem ⟨src, p⟩ = c :: r) (hc : c ∈ tagChars) :
    scanTagType ⟨src, p⟩ = (some c, ⟨src, p + 1⟩) := by
  simp [scanTagType, hrem, hc]

theorem scanTagType_name (src : Str) (p : Nat) (c : Char) (r : Str)
    (hrem : Scanner.rem ⟨src, p⟩ = c :: r) (hc : c ∉ tagChars) :
    scanTagType ⟨src, p⟩ = (none, ⟨src, p⟩) := by
  simp [scanTagType, hrem, hc]

theorem scanWhite_zero (src : Str) (p : Nat) (h : wsRunLen (Scanner.rem ⟨src, p⟩) = 0) :
    scanWhite ⟨src, p⟩ = ⟨src, p⟩ := by
  simp [scanWhite, h]

theorem scanUntilWsL_clean (l₀ : Char) (lt : Str) (src : Str) (p : Nat) (a r : Str)
    (hnw : isWs l₀ = false)
    (hrem : Scanner.rem ⟨src, p⟩ = a ++ (l₀ :: lt) ++ r)
    (ha : ∀ c ∈ a, isWs c = false ∧ c ≠ l₀) :
    scanUntilWsL (l₀ :: lt) ⟨src, p⟩ = (a, ⟨src, p + a.length⟩) := by
  have hfind : findWsL (l₀ :: lt) (Scanner.rem ⟨src, p⟩) = some (a.length, lt.length + 1) := by
    rw [hrem, List.append_assoc, findWsL_append l₀ lt a _ ha,
      findWsL_at_prefix l₀ lt _ hnw (by simp [List.isPrefixOf_iff_prefix, List.prefix_append])]
    simp
  simp only [scanUntilWsL]
  rw [hfind]
  simp [hrem, List.append_assoc, List.take_left]

theorem scanUntilWsL_all (l₀ : Char) (lt : Str) (src : Str) (p : Nat) (a : Str)
    (hrem : Scanner.rem ⟨src, p⟩ = a) (ha : ∀ c ∈ a, isWs c = false ∧ c ≠ l₀) :
    scanUntilWsL (l₀ :: lt) ⟨src, p⟩ = (a, ⟨src, p + a.length⟩) := by
  have hfind : findWsL (l₀ :: lt) (Scanner.rem ⟨src, p⟩) = none := by
    rw [hrem]; exact findWsL_none l₀ lt a ha
  simp only [scanUntilWsL]
  rw [hfind]
  simp [hrem]

theorem scanWsL_at (l₀ : Char) (lt : Str) (src : Str) (p : Nat) (r : Str)
    (hnw : isWs l₀ = false)
    (hrem : Scanner.rem ⟨src, p⟩ = (l₀ :: lt) ++ r) :
    scanWsL (l₀ :: lt) ⟨src, p⟩ = (l₀ :: lt, ⟨src, p + (lt.length + 1)⟩) := by
  have hm : matchWsLAt (l₀ :: lt) (Scanner.rem ⟨src, p⟩) = some (lt.length + 1) := by
    rw [hrem, matchWsLAt_zero_run _ _ (by rw [List.cons_append]; exact wsRunLen_cons_not _ _ hnw),
      if_pos (by simp [List.isPrefixOf_iff_prefix, List.prefix_append])]
    simp
  have htake : (Scanner.rem ⟨src, p⟩).take (lt.length + 1) = l₀ :: lt := by
    rw [hrem]
    exact List.take_left' (by simp)
  simp only [scanWsL]
  rw [hm]
  simp [htake]

theorem scanWsL_nil (L : Str) (src : Str) (p : Nat) (hL : L ≠ [])
    (hrem : Scanner.rem ⟨src, p⟩ = []) : scanWsL L ⟨src, p⟩ = ([], ⟨src, p⟩) := by
  have hm : matchWsLAt L (Scanner.rem ⟨src, p⟩) = none := by
    rw [hrem]
    simp [matchWsLAt, wsRunLen, tryWsL]
    cases L with
    | nil => exact absurd rfl hL
    | cons x xs => simp [List.isPrefixOf]
  simp only [scanWsL]
  rw [hm]

/-! ## Symbolic descriptions of the token buffer -/

/-- The per-character text tokens the scanning loop pushes for a text run
starting at offset `start`. -/
def textToks : Str → Nat → List (Option PFlat)
  | [], _ => []
  | c :: cs, start =>
    some ⟨"text", [c], start, start + 1, [], 0, false⟩ :: textToks cs (start + 1)

/-- `n` consecutive indices starting at `base`. -/
def idxFrom : Nat → Nat → List Nat
  | _, 0 => []
  | base, n + 1 => base :: idxFrom (base + 1) n

/-- The squashed text token of a (possibly empty) kept text run. -/
def optText (s : Str) (st : Nat) : List Tok :=
  if s = [] then [] else [.flat ⟨"text", s, st, st + s.length, [], 0, false⟩]

theorem textToks_length (s : Str) (start : Nat) : (textToks s start).length = s.length := by
  induction s generalizing start with
  | nil => rfl
  | cons c cs ih => simp [textToks, ih]

theorem processText_append (x y : Str) : ∀ (st : PState) (start : Nat),
    processText st (x ++ y) start = processText (processText st x start) y (start + x.length) := by
  induction x with
  | nil => intro st start; simp [processText]
  | cons c cs ih =>
    intro st start
    simp only [List.cons_append, processText, List.append_eq]
    rw [ih (pushTextChar st c start) (start + 1)]
    have harith : start + (c :: cs).length = start + 1 + cs.length := by
      simp only [List.length_cons]; omega
    rw [harith]

theorem processText_lineWs (a : Str) (ha : lineWsOf a) :
    ∀ (st : PState) (start : Nat), processText st a start =
      { st with tokens := st.tokens ++ textToks a start,
                spaces := st.spaces ++ idxFrom st.tokens.length a.length,
                indentation := st.indentation ++ a } := by
  induction a with
  | nil => intro st start; simp [processText, textToks, idxFrom]
  | cons c cs ih =>
    intro st start
    have hc := ha c (by simp)
    have hws : isWs c = true := lineWs_isWs c hc
    have hnl : ¬ c = '\n' := lineWs_not_nl c hc
    have ha' : lineWsOf cs := fun x hx => ha x (by simp [hx])
    obtain ⟨tk, sp, secs, ht, ns, ind, ti, lns, ot, ct⟩ := st
    simp only [processText, pushTextChar, hws, if_true, if_neg hnl]
    rw [ih ha']
    simp [textToks, idxFrom, List.append_assoc, List.length_append]

/-- Processing a single newline: push its (whitespace) text token, strip the
line, and reset the per-line state. -/
theorem processText_nl (st : PState) (start : Nat) :
    processText st ['\n'] start =
      { stripSpace { st with
          spaces := st.spaces ++ [st.tokens.length],
          indentation := st.indentation ++ ['\n'],
          tokens := st.tokens ++ [some ⟨"text", ['\n'], start, start + 1, [], 0, false⟩] } with
        indentation := [], tagIndex := 0, lineHasNonSpace := false } := by
  obtain ⟨tk, sp, secs, ht, ns, ind, ti, lns, ot, ct⟩ := st
  simp [processText, pushTextChar, isWs]

/-! ## Deleting the recorded whitespace tokens -/

theorem set_append_length (pre : List (Option PFlat)) (x : Option PFlat)
    (rest : List (Option PFlat)) (v : Option PFlat) :
    (pre ++ x :: rest).set pre.length v = pre ++ v :: rest := by
  induction pre with
  | nil => rfl
  | cons y ys ih => simp [List.set, ih]

theorem foldl_delete_region : ∀ (n : Nat) (pre mid post : List (Option PFlat)),
    mid.length = n →
    (idxFrom pre.length n).foldl deleteTok (pre ++ (mid ++ post)) =
      pre ++ (List.replicate n none ++ post) := by
  intro n
  induction n with
  | zero =>
    intro pre mid post hlen
    rw [List.length_eq_zero] at hlen
    subst hlen
    simp [idxFrom]
  | succ n ih =>
    intro pre mid post hlen
    cases mid with
    | nil => simp at hlen
    | cons m mid' =>
      simp only [idxFrom, List.foldl_cons]
      rw [show deleteTok (pre ++ (m :: mid' ++ post)) pre.length = pre ++ (none :: (mid' ++ post))
        from set_append_length pre m (mid' ++ post) none]
      have : pre ++ (none :: (mid' ++ post)) = (pre ++ [none]) ++ (mid' ++ post) := by simp
      rw [this, show pre.length + 1 = (pre ++ [none]).length by simp,
        ih (pre ++ [none]) mid' post (by simpa using hlen)]
      simp [List.replicate_succ]

theorem stripSpace_delete (st : PState) (h1 : st.hasTag = true) (h2 : st.nonSpace = false) :
    stripSpace st = { st with tokens := st.spaces.foldl deleteTok st.tokens,
                              spaces := [], hasTag := false, nonSpace := false } := by
  simp [stripSpace, h1, h2]

theorem stripSpace_keep (st : PState) (h2 : st.nonSpace = true) :
    stripSpace st = { st with spaces := [], hasTag := false, nonSpace := false } := by
  simp [stripSpace, h2]

/-! ## Squashing and nesting, symbolically -/

theorem squashGo_blanks (n : Nat) (r : List (Option PFlat)) (acc : List PFlat) :
    squashGo (List.replicate n none ++ r) acc = squashGo r acc := by
  induction n with
  | zero => rfl
  | succ n ih => simpa [List.replicate_succ, squashGo] using ih

theorem squashGo_push (t : PFlat) (r : List (Option PFlat)) (acc : List PFlat)
    (h : t.ty ≠ "text") :
    squashGo (some t :: r) acc = squashGo r (t :: acc) := by
  cases acc with
  | nil => rfl
  | cons last rest => simp [squashGo, h]

theorem squashGo_texts (cs : Str) : ∀ (start : Nat) (last : PFlat) (rest : List PFlat)
    (r : List (Option PFlat)), last.ty = "text" → last.te = start →
    squashGo (textToks cs start ++ r) (last :: rest) =
      squashGo r ({ last with val := last.val ++ cs, te := start + cs.length } :: rest) := by
  induction cs with
  | nil =>
    intro start last rest r hty hte
    simp [textToks, ← hte]
  | cons c cs' ih =>
    intro start last rest r hty hte
    simp only [textToks, List.cons_append, squashGo, hty, and_true, if_pos, List.append_eq]
    rw [ih (start + 1) _ rest r rfl rfl]
    have hval : last.val ++ [c] ++ cs' = last.val ++ c :: cs' := by simp
    have hte2 : start + 1 + cs'.length = start + (c :: cs').length := by
      simp only [List.length_cons]; omega
    rw [hval, hte2]

theorem squashGo_text_start (c : Char) (cs : Str) (start : Nat) (r : List (Option PFlat)) :
    squashGo (textToks (c :: cs) start ++ r) [] =
      squashGo r [⟨"text", c :: cs, start, start + (cs.length + 1), [], 0, false⟩] := by
  simp only [textToks, List.cons_append, squashGo, List.append_eq]
  rw [squashGo_texts cs (start + 1) _ [] r rfl rfl]
  have : start + 1 + cs.length = start + (cs.length + 1) := by omega
  rw [this]
  rfl

/-! ## Preservation facts about `processText` -/

theorem stripSpace_keeps (st : PState) :
    (stripSpace st).otag = st.otag ∧ (stripSpace st).ctag = st.ctag
    ∧ (stripSpace st).sections = st.sections := by
  rw [stripSpace]
  split <;> simp

theorem pushTextChar_keeps (st : PState) (c : Char) (start : Nat) :
    (pushTextChar st c start).otag = st.otag ∧ (pushTextChar st c start).ctag = st.ctag
    ∧ (pushTextChar st c start).sections = st.sections := by
  rw [pushTextChar]
  split
  · split <;> simp [stripSpace_keeps]
  · split <;> simp [stripSpace_keeps]

theorem processText_keeps (a : Str) : ∀ (st : PState) (start : Nat),
    (processText st a start).otag = st.otag ∧ (processText st a start).ctag = st.ctag
    ∧ (processText st a start).sections = st.sections := by
  induction a with
  | nil => intro st start; simp [processText]
  | cons c cs ih =>
    intro st start
    simp only [processText]
    have h1 := ih (pushTextChar st c start) (start + 1)
    have h2 := pushTextChar_keeps st c start
    exact ⟨h1.1.trans h2.1, h1.2.1.trans h2.2.1, h1.2.2.trans h2.2.2⟩

/-! ## Character facts for tags -/

theorem strmk_ne (c d : Char) (h : c ≠ d) : String.mk [c] ≠ String.mk [d] := by
  intro hc
  apply h
  have := congrArg String.data hc
  simpa using this

theorem alpha_not_tagChar (c : Char) (h : c.isAlpha = true) : c ∉ tagChars := by
  intro hmem
  rcases (by simpa [tagChars] using hmem :
      c = '#' ∨ c = '^' ∨ c = '/' ∨ c = '>' ∨ c = '{' ∨ c = '&' ∨ c = '=' ∨ c = '!') with
    rfl | rfl | rfl | rfl | rfl | rfl | rfl | rfl <;> exact absurd h (by decide)

theorem alpha_clean_name (name : Str) (hn : alphaOf name) :
    ∀ c ∈ name, isWs c = false ∧ c ≠ '}' :=
  fun c hc => ⟨alpha_not_ws c (hn c hc), alpha_ne c '}' (hn c hc) (by decide)⟩

theorem lineWs_clean_open (a : Str) (ha : lineWsOf a) : ∀ c ∈ a, c ≠ '{' :=
  fun c hc => lineWs_ne c '{' (ha c hc) (by decide)

/-- `wsRunLen` is zero on a name followed by the closing delimiter. -/
theorem wsRunLen_name_close (name r : Str) (hname : ∀ c ∈ name, isWs c = false) :
    wsRunLen (name ++ ('}' :: '}' :: r)) = 0 := by
  cases name with
  | nil => exact wsRunLen_cons_not _ _ (by decide)
  | cons c cs =>
    rw [List.cons_append]
    exact wsRunLen_cons_not _ _ (hname c (by simp))

/-! ## One symbolic loop iteration for a sigil tag -/

set_option maxHeartbeats 1000000

/-- A full `parseStep` for `text… {{σbody}} …` where the text region has no
`{`, the sigil is one of `tagRe` other than `=` and `{`, and the body has no
whitespace and no `}`: scan the text, the tag, and hand the built token to
`handleTag`, continuing the loop. -/
theorem parseStep_tag (st : PState) (src : Str) (p : Nat) (a : Str) (sig : Char)
    (name r : Str)
    (hotag : st.otag = "\x7b\x7b".toList) (hctag : st.ctag = "\x7d\x7d".toList)
    (hrem : Scanner.rem ⟨src, p⟩ = a ++ '{' :: '{' :: sig :: (name ++ ('}' :: '}' :: r)))
    (ha : ∀ c ∈ a, c ≠ '{')
    (hsig : sig ∈ tagChars) (hsig1 : sig ≠ '=') (hsig2 : sig ≠ '{')
    (hsignw : isWs sig = false)
    (hname : ∀ c ∈ name, isWs c = false ∧ c ≠ '}') :
    parseStep st ⟨src, p⟩ =
      match handleTag { processText st a p with hasTag := true }
          ⟨src, p + a.length + 2 + 1 + name.length⟩ (String.mk [sig]) name (p + a.length) with
      | .error e => .error e
      | .ok (st2, sc2) => .ok (.inr (st2, sc2)) := by
  have hotag2 : st.otag = '{' :: ['{'] := by rw [hotag]; rfl
  have hctag2 : st.ctag = '}' :: ['}'] := by rw [hctag]; rfl
  have hrem1 : Scanner.rem ⟨src, p + a.length⟩ =
      '{' :: '{' :: sig :: (name ++ ('}' :: '}' :: r)) := by
    rw [rem_add, hrem]
    exact List.drop_left a _
  have hrem2 : Scanner.rem ⟨src, p + a.length + 2⟩ = sig :: (name ++ ('}' :: '}' :: r)) := by
    rw [rem_add, hrem1]; rfl
  have hrem3 : Scanner.rem ⟨src, p + a.length + 2 + 1⟩ = name ++ ('}' :: '}' :: r) := by
    rw [rem_add, hrem2]; rfl
  have heos : Scanner.eos ⟨src, p⟩ = false := by
    simp [Scanner.eos, hrem]
  have hscanU : scanUntilLit ('{' :: ['{']) ⟨src, p⟩ = (a, ⟨src, p + a.length⟩) :=
    scanUntilLit_clean '{' ['{'] src p a
      (sig :: (name ++ ('}' :: '}' :: r))) (by rw [hrem]; simp) ha
  have hscanL : scanLitWs ('{' :: ['{']) ⟨src, p + a.length⟩ =
      ('{' :: ['{'], ⟨src, p + a.length + 2⟩) :=
    scanLitWs_at ('{' :: ['{']) src (p + a.length) (sig :: (name ++ ('}' :: '}' :: r)))
      (by rw [hrem1]; rfl) (wsRunLen_cons_not _ _ hsignw)
  have hscanT : scanTagType ⟨src, p + a.length + 2⟩ =
      (some sig, ⟨src, p + a.length + 2 + 1⟩) := scanTagType_sigil src _ sig _ hrem2 hsig
  have hwhite : scanWhite ⟨src, p + a.length + 2 + 1⟩ = ⟨src, p + a.length + 2 + 1⟩ :=
    scanWhite_zero src _
      (by rw [hrem3]; exact wsRunLen_name_close name r (fun c hc => (hname c hc).1))
  have hne1 : ¬ (String.mk [sig] = "=") := strmk_ne sig '=' hsig1
  have hne2 : ¬ (String.mk [sig] = "\x7b") := strmk_ne sig '{' hsig2
  have hctag3 : (processText st a p).ctag = '}' :: ['}'] := by
    rw [(processText_keeps a st p).2.1, hctag2]
  have hscanV : scanUntilWsL ('}' :: ['}']) ⟨src, p + a.length + 2 + 1⟩ =
      (name, ⟨src, p + a.length + 2 + 1 + name.length⟩) := by
    refine scanUntilWsL_clean '}' ['}'] src _ name r (by decide) ?_ hname
    rw [hrem3]; simp
  have hkeep := processText_keeps a st p
  simp only [parseStep, heos, Bool.false_eq_true, if_false, hscanU, Nat.add_sub_cancel,
    hkeep.1, hotag2, hscanL, List.isEmpty_cons, hscanT, hwhite, if_neg hne1, if_neg hne2,
    hctag3, hscanV]

/-- A final iteration that consumes trailing text and exits the loop: the
remainder has no opening delimiter. -/
theorem parseStep_break (st : PState) (src : Str) (p : Nat) (b : Str)
    (hotag : st.otag = "\x7b\x7b".toList)
    (hrem : Scanner.rem ⟨src, p⟩ = b) (hb : ∀ c ∈ b, c ≠ '{') :
    parseStep st ⟨src, p⟩ = .ok (.inl (processText st b p, ⟨src, p + b.length⟩)) := by
  have hotag2 : st.otag = '{' :: ['{'] := by rw [hotag]; rfl
  cases b with
  | nil =>
    have heos : Scanner.eos ⟨src, p⟩ = true := by simp [Scanner.eos, hrem]
    simp [parseStep, heos, processText]
  | cons c0 b' =>
    have heos : Scanner.eos ⟨src, p⟩ = false := by simp [Scanner.eos, hrem]
    have hscanU : scanUntilLit ('{' :: ['{']) ⟨src, p⟩ =
        (c0 :: b', ⟨src, p + (c0 :: b').length⟩) :=
      scanUntilLit_all '{' ['{'] src p (c0 :: b') hrem hb
    have hremEnd : Scanner.rem ⟨src, p + (c0 :: b').length⟩ = [] := by
      rw [rem_add, hrem]
      simp
    have hfail : scanLitWs ('{' :: ['{']) ⟨src, p + (c0 :: b').length⟩ =
        ([], ⟨src, p + (c0 :: b').length⟩) := by
      refine scanLitWs_fail _ _ ?_
      rw [hremEnd]
      rfl
    simp only [parseStep, heos, Bool.false_eq_true, if_false, hotag2, hscanU,
      Nat.add_sub_cancel, (processText_keeps (c0 :: b') st p).1, hfail, List.isEmpty_nil,
      if_true]

/-- After the loop: `parseTemplate` on a non-empty template with default
delimiters reduces to the final strip / section check / squash / nest. -/
theorem parseTemplate_run (t : Str) (ht : t ≠ []) (stF : PState) (pF : Nat)
    (hrun : parseLoop (t.length + 1) { otag := "\x7b\x7b".toList, ctag := "\x7d\x7d".toList }
      ⟨t, 0⟩ = .ok (stF, ⟨t, pF⟩)) :
    parseTemplate t none =
      match (stripSpace stF).sections with
      | s :: _ => .error (.unclosedSection s.val pF)
      | [] => .ok (nestTokens (squashTokens (stripSpace stF).tokens)) := by
  have hemp : t.isEmpty = false := by
    cases t with
    | nil => exact absurd rfl ht
    | cons x xs => rfl
  simp only [parseTemplate, hemp, Bool.false_eq_true, if_false, Option.getD,
    mustacheTags, compileTagsList, hrun]

theorem squashGo_first (t : PFlat) (r : List (Option PFlat)) :
    squashGo (some t :: r) [] = squashGo r [t] := rfl

/-- The closing-delimiter scan inside `handleTag`, resolved. -/
theorem scanClose_at (src : Str) (p : Nat) (r : Str)
    (hrem : Scanner.rem ⟨src, p⟩ = '}' :: '}' :: r) :
    scanWsL ['}', '}'] ⟨src, p⟩ = (['}', '}'], ⟨src, p + 2⟩) := by
  have := scanWsL_at '}' ['}'] src p r (by decide) (by rw [hrem]; rfl)
  simpa using this

/-- Fuel monotonicity: a loop result other than fuel exhaustion is stable
under extra fuel. -/
theorem parseLoop_succ (f : Nat) (st : PState) (sc : Scanner) :
    parseLoop (f + 1) st sc =
      match parseStep st sc with
      | .error e => .error e
      | .ok (.inl r) => .ok r
      | .ok (.inr (st, sc)) => parseLoop f st sc := rfl

/-- The parser state `parseTemplate` starts from with default delimiters. -/
def stInit : PState := { otag := "\x7b\x7b".toList, ctag := "\x7d\x7d".toList }

theorem foldl_delete_zero (n : Nat) (mid post : List (Option PFlat)) (h : mid.length = n) :
    (idxFrom 0 n).foldl deleteTok (mid ++ post) = List.replicate n none ++ post := by
  have := foldl_delete_region n [] mid post h
  simpa using this

theorem foldl_delete_at (k n : Nat) (pre mid : List (Option PFlat))
    (hk : pre.length = k) (h : mid.length = n) :
    (idxFrom k n).foldl deleteTok (pre ++ mid) = pre ++ List.replicate n none := by
  have := foldl_delete_region n pre mid [] h
  rw [List.append_nil, List.append_nil] at this
  rw [← hk]
  exact this

theorem squashGo_blanks_nil (n : Nat) (acc : List PFlat) :
    squashGo (List.replicate n none) acc = acc.reverse := by
  have := squashGo_blanks n [] acc
  rw [List.append_nil] at this
  rw [this]
  rfl

theorem parseLoop_mono : ∀ f g st sc, f ≤ g → parseLoop f st sc ≠ .error .fuel →
    parseLoop g st sc = parseLoop f st sc := by
  intro f
  induction f with
  | zero => intro g st sc _ h; exact absurd rfl h
  | succ f ih =>
    intro g st sc hle h
    obtain ⟨g', rfl⟩ : ∃ g', g = g' + 1 := ⟨g - 1, by omega⟩
    have hle' : f ≤ g' := by omega
    rw [parseLoop_succ] at h
    rw [parseLoop_succ g', parseLoop_succ f]
    cases hs : parseStep st sc with
    | error e => simp [hs]
    | ok r =>
      cases r with
      | inl q => simp [hs]
      | inr q =>
        obtain ⟨st2, sc2⟩ := q
        simp only [hs] at h ⊢
        exact ih g' st2 sc2 hle' h

/-! ## Symbolic parses of standalone-tag templates -/

/-- A comment tag alone on the template's only line, with any surrounding
spaces/tabs: all the whitespace text tokens are discarded. -/
theorem parse_comment_standalone (a b c : Str)
    (ha : lineWsOf a) (hb : lineWsOf b) (hc : alphaOf c) :
    parseTemplate (a ++ '{' :: '{' :: '!' :: (c ++ '}' :: '}' :: b)) none =
      .ok [.flat ⟨"!", c, a.length, a.length + c.length + 5, [], 0, false⟩] := by
  set t : Str := a ++ '{' :: '{' :: '!' :: (c ++ '}' :: '}' :: b) with ht_def
  have hrem0 : Scanner.rem ⟨t, 0⟩ = a ++ '{' :: '{' :: '!' :: (c ++ '}' :: '}' :: b) := by
    simp [Scanner.rem]
  have hmid : Scanner.rem ⟨t, a.length + 3⟩ = c ++ '}' :: '}' :: b := by
    rw [show a.length + 3 = 0 + (a.length + 3) by omega, rem_add, hrem0]
    rw [show a ++ '{' :: '{' :: '!' :: (c ++ '}' :: '}' :: b)
        = (a ++ ['{', '{', '!']) ++ (c ++ '}' :: '}' :: b) by simp]
    exact List.drop_left' (by simp)
  have hrem2 : Scanner.rem ⟨t, a.length + 2 + 1 + c.length⟩ = '}' :: '}' :: b := by
    rw [show a.length + 2 + 1 + c.length = (a.length + 3) + c.length by omega, rem_add, hmid]
    exact List.drop_left c _
  have hrem3 : Scanner.rem ⟨t, a.length + 2 + 1 + c.length + 2⟩ = b := by
    rw [rem_add, hrem2]
    rfl
  have hstep1 := parseStep_tag { otag := "\x7b\x7b".toList, ctag := "\x7d\x7d".toList } t 0 a '!' c b
    rfl rfl hrem0 (lineWs_clean_open a ha) (by decide) (by decide) (by decide) (by decide)
    (alpha_clean_name c hc)
  simp only [Nat.zero_add] at hstep1
  have hpt : processText { otag := "\x7b\x7b".toList, ctag := "\x7d\x7d".toList } a 0 =
      ({ tokens := textToks a 0, spaces := idxFrom 0 a.length, sections := [],
         hasTag := false, nonSpace := false, indentation := a, tagIndex := 0,
         lineHasNonSpace := false, otag := "\x7b\x7b".toList, ctag := "\x7d\x7d".toList } : PState) := by
    rw [processText_lineWs a ha]
    simp
  rw [hpt] at hstep1
  dsimp only at hstep1
  have hclose : scanWsL ['}', '}'] ⟨t, a.length + 2 + 1 + c.length⟩ =
      (['}', '}'], ⟨t, a.length + 2 + 1 + c.length + 2⟩) := scanClose_at t _ b hrem2
  rw [show (handleTag
      ({ tokens := textToks a 0, spaces := idxFrom 0 a.length, sections := [],
         hasTag := true, nonSpace := false, indentation := a, tagIndex := 0,
         lineHasNonSpace := false, otag := "\x7b\x7b".toList, ctag := "\x7d\x7d".toList } : PState)
      ⟨t, a.length + 2 + 1 + c.length⟩ (String.mk ['!']) c a.length) =
    .ok (({ tokens := textToks a 0 ++
              [some ⟨"!", c, a.length, a.length + 2 + 1 + c.length + 2, [], 0, false⟩],
            spaces := idxFrom 0 a.length, sections := [],
            hasTag := true, nonSpace := false, indentation := a, tagIndex := 1,
            lineHasNonSpace := false, otag := "\x7b\x7b".toList, ctag := "\x7d\x7d".toList } : PState),
          (⟨t, a.length + 2 + 1 + c.length + 2⟩ : Scanner)) from by
    simp [handleTag, hclose]] at hstep1
  dsimp only at hstep1
  have hstep2 := parseStep_break
    ({ tokens := textToks a 0 ++
         [some ⟨"!", c, a.length, a.length + 2 + 1 + c.length + 2, [], 0, false⟩],
       spaces := idxFrom 0 a.length, sections := [],
       hasTag := true, nonSpace := false, indentation := a, tagIndex := 1,
       lineHasNonSpace := false, otag := "\x7b\x7b".toList, ctag := "\x7d\x7d".toList } : PState)
    t (a.length + 2 + 1 + c.length + 2) b rfl hrem3 (lineWs_clean_open b hb)
  rw [processText_lineWs b hb] at hstep2
  dsimp only at hstep2
  have hloop2 : parseLoop 2 { otag := "\x7b\x7b".toList, ctag := "\x7d\x7d".toList } ⟨t, 0⟩ =
      .ok (({ tokens := (textToks a 0 ++
                [some ⟨"!", c, a.length, a.length + 2 + 1 + c.length + 2, [], 0, false⟩])
                ++ textToks b (a.length + 2 + 1 + c.length + 2),
              spaces := idxFrom 0 a.length ++
                idxFrom (textToks a 0 ++
                  [some (⟨"!", c, a.length, a.length + 2 + 1 + c.length + 2, [], 0,
                    false⟩ : PFlat)]).length b.length,
              sections := [],
              hasTag := true, nonSpace := false, indentation := a ++ b, tagIndex := 1,
              lineHasNonSpace := false, otag := "\x7b\x7b".toList, ctag := "\x7d\x7d".toList } : PState),
            (⟨t, a.length + 2 + 1 + c.length + 2 + b.length⟩ : Scanner)) := by
    rw [show (2 : Nat) = 1 + 1 from rfl, parseLoop_succ, hstep1]
    dsimp only
    rw [show (1 : Nat) = 0 + 1 from rfl, parseLoop_succ, hstep2]
  have hfuel : parseLoop (t.length + 1) { otag := "\x7b\x7b".toList, ctag := "\x7d\x7d".toList } ⟨t, 0⟩ =
      parseLoop 2 { otag := "\x7b\x7b".toList, ctag := "\x7d\x7d".toList } ⟨t, 0⟩ := by
    refine parseLoop_mono 2 (t.length + 1) _ _ ?_ (by rw [hloop2]; simp)
    have : 1 ≤ t.length := by
      rw [ht_def]
      simp only [List.length_append, List.length_cons]
      omega
    omega
  rw [parseTemplate_run t (by rw [ht_def]; simp) _ _ (by rw [hfuel, hloop2])]
  rw [stripSpace_delete _ rfl rfl]
  dsimp only
  rw [show (textToks a 0 ++ [some (⟨"!", c, a.length, a.length + 2 + 1 + c.length + 2, [], 0,
      false⟩ : PFlat)]).length = a.length + 1 by simp [textToks_length]]
  rw [List.foldl_append]
  rw [show (textToks a 0 ++
        [some ⟨"!", c, a.length, a.length + 2 + 1 + c.length + 2, [], 0, false⟩])
        ++ textToks b (a.length + 2 + 1 + c.length + 2)
      = textToks a 0 ++
        ([some ⟨"!", c, a.length, a.length + 2 + 1 + c.length + 2, [], 0, false⟩]
          ++ textToks b (a.length + 2 + 1 + c.length + 2)) by simp]
  rw [foldl_delete_zero a.length _ _ (textToks_length a 0)]
  rw [show List.replicate a.length (none : Option PFlat) ++
        ([some ⟨"!", c, a.length, a.length + 2 + 1 + c.length + 2, [], 0, false⟩]
          ++ textToks b (a.length + 2 + 1 + c.length + 2))
      = (List.replicate a.length none ++
          [some ⟨"!", c, a.length, a.length + 2 + 1 + c.length + 2, [], 0, false⟩])
        ++ textToks b (a.length + 2 + 1 + c.length + 2) by simp]
  rw [foldl_delete_at (a.length + 1) b.length _ _ (by simp [textToks_length])
    (textToks_length _ _)]
  rw [show (List.replicate a.length (none : Option PFlat) ++
        [some ⟨"!", c, a.length, a.length + 2 + 1 + c.length + 2, [], 0, false⟩])
        ++ List.replicate b.length none
      = List.replicate a.length none ++
        (some ⟨"!", c, a.length, a.length + 2 + 1 + c.length + 2, [], 0, false⟩ ::
          List.replicate b.length none) by simp]
  rw [squashTokens, squashGo_blanks, squashGo_first, squashGo_blanks_nil]
  simp only [List.reverse_cons, List.reverse_nil, List.nil_append]
  rw [nestTokens]
  simp only [nestGo, closeLeftovers]
  rw [if_neg (by decide : ¬(("!" : String) = "#" ∨ ("!" : String) = "^")),
    if_neg (by decide : ¬(("!" : String) = "/"))]
  rw [show List.length a + 2 + 1 + List.length c + 2 = List.length a + List.length c + 5 by omega]
  simp

/-- A partial tag alone on the template's only line, with any surrounding
spaces/tabs: the whitespace text tokens are discarded, and the token carries
the captured indentation, tag index `0` and `lineHasNonSpace = false`. -/
theorem parse_partial_standalone (a b c : Str)
    (ha : lineWsOf a) (hb : lineWsOf b) (hc : alphaOf c) :
    parseTemplate (a ++ '{' :: '{' :: '>' :: (c ++ '}' :: '}' :: b)) none =
      .ok [.flat ⟨">", c, a.length, a.length + c.length + 5, a, 0, false⟩] := by
  set t : Str := a ++ '{' :: '{' :: '>' :: (c ++ '}' :: '}' :: b) with ht_def
  have hrem0 : Scanner.rem ⟨t, 0⟩ = a ++ '{' :: '{' :: '>' :: (c ++ '}' :: '}' :: b) := by
    simp [Scanner.rem]
  have hmid : Scanner.rem ⟨t, a.length + 3⟩ = c ++ '}' :: '}' :: b := by
    rw [show a.length + 3 = 0 + (a.length + 3) by omega, rem_add, hrem0]
    rw [show a ++ '{' :: '{' :: '>' :: (c ++ '}' :: '}' :: b)
        = (a ++ ['{', '{', '>']) ++ (c ++ '}' :: '}' :: b) by simp]
    exact List.drop_left' (by simp)
  have hrem2 : Scanner.rem ⟨t, a.length + 2 + 1 + c.length⟩ = '}' :: '}' :: b := by
    rw [show a.length + 2 + 1 + c.length = (a.length + 3) + c.length by omega, rem_add, hmid]
    exact List.drop_left c _
  have hrem3 : Scanner.rem ⟨t, a.length + 2 + 1 + c.length + 2⟩ = b := by
    rw [rem_add, hrem2]
    rfl
  have hstep1 := parseStep_tag { otag := "\x7b\x7b".toList, ctag := "\x7d\x7d".toList } t 0 a '>' c b
    rfl rfl hrem0 (lineWs_clean_open a ha) (by decide) (by decide) (by decide) (by decide)
    (alpha_clean_name c hc)
  simp only [Nat.zero_add] at hstep1
  have hpt : processText { otag := "\x7b\x7b".toList, ctag := "\x7d\x7d".toList } a 0 =
      ({ tokens := textToks a 0, spaces := idxFrom 0 a.length, sections := [],
         hasTag := false, nonSpace := false, indentation := a, tagIndex := 0,
         lineHasNonSpace := false, otag := "\x7b\x7b".toList, ctag := "\x7d\x7d".toList } : PState) := by
    rw [processText_lineWs a ha]
    simp
  rw [hpt] at hstep1
  dsimp only at hstep1
  have hclose : scanWsL ['}', '}'] ⟨t, a.length + 2 + 1 + c.length⟩ =
      (['}', '}'], ⟨t, a.length + 2 + 1 + c.length + 2⟩) := scanClose_at t _ b hrem2
  rw [show (handleTag
      ({ tokens := textToks a 0, spaces := idxFrom 0 a.length, sections := [],
         hasTag := true, nonSpace := false, indentation := a, tagIndex := 0,
         lineHasNonSpace := false, otag := "\x7b\x7b".toList, ctag := "\x7d\x7d".toList } : PState)
      ⟨t, a.length + 2 + 1 + c.length⟩ (String.mk ['>']) c a.length) =
    .ok (({ tokens := textToks a 0 ++
              [some ⟨">", c, a.length, a.length + 2 + 1 + c.length + 2, a, 0, false⟩],
            spaces := idxFrom 0 a.length, sections := [],
            hasTag := true, nonSpace := false, indentation := a, tagIndex := 1,
            lineHasNonSpace := false, otag := "\x7b\x7b".toList, ctag := "\x7d\x7d".toList } : PState),
          (⟨t, a.length + 2 + 1 + c.length + 2⟩ : Scanner)) from by
    simp [handleTag, hclose]] at hstep1
  dsimp only at hstep1
  have hstep2 := parseStep_break
    ({ tokens := textToks a 0 ++
         [some ⟨">", c, a.length, a.length + 2 + 1 + c.length + 2, a, 0, false⟩],
       spaces := idxFrom 0 a.length, sections := [],
       hasTag := true, nonSpace := false, indentation := a, tagIndex := 1,
       lineHasNonSpace := false, otag := "\x7b\x7b".toList, ctag := "\x7d\x7d".toList } : PState)
    t (a.length + 2 + 1 + c.length + 2) b rfl hrem3 (lineWs_clean_open b hb)
  rw [processText_lineWs b hb] at hstep2
  dsimp only at hstep2
  have hloop2 : parseLoop 2 { otag := "\x7b\x7b".toList, ctag := "\x7d\x7d".toList } ⟨t, 0⟩ =
      .ok (({ tokens := (textToks a 0 ++
                [some ⟨">", c, a.length, a.length + 2 + 1 + c.length + 2, a, 0, false⟩])
                ++ textToks b (a.length + 2 + 1 + c.length + 2),
              spaces := idxFrom 0 a.length ++
                idxFrom (textToks a 0 ++
                  [some (⟨">", c, a.length, a.length + 2 + 1 + c.length + 2, a, 0,
                    false⟩ : PFlat)]).length b.length,
              sections := [],
              hasTag := true, nonSpace := false, indentation := a ++ b, tagIndex := 1,
              lineHasNonSpace := false, otag := "\x7b\x7b".toList, ctag := "\x7d\x7d".toList } : PState),
            (⟨t, a.length + 2 + 1 + c.length + 2 + b.length⟩ : Scanner)) := by
    rw [show (2 : Nat) = 1 + 1 from rfl, parseLoop_succ, hstep1]
    dsimp only
    rw [show (1 : Nat) = 0 + 1 from rfl, parseLoop_succ, hstep2]
  have hfuel : parseLoop (t.length + 1) { otag := "\x7b\x7b".toList, ctag := "\x7d\x7d".toList } ⟨t, 0⟩ =
      parseLoop 2 { otag := "\x7b\x7b".toList, ctag := "\x7d\x7d".toList } ⟨t, 0⟩ := by
    refine parseLoop_mono 2 (t.length + 1) _ _ ?_ (by rw [hloop2]; simp)
    have : 1 ≤ t.length := by
      rw [ht_def]
      simp only [List.length_append, List.length_cons]
      omega
    omega
  rw [parseTemplate_run t (by rw [ht_def]; simp) _ _ (by rw [hfuel, hloop2])]
  rw [stripSpace_delete _ rfl rfl]
  dsimp only
  rw [show (textToks a 0 ++ [some (⟨">", c, a.length, a.length + 2 + 1 + c.length + 2, a, 0,
      false⟩ : PFlat)]).length = a.length + 1 by simp [textToks_length]]
  rw [List.foldl_append]
  rw [show (textToks a 0 ++
        [some ⟨">", c, a.length, a.length + 2 + 1 + c.length + 2, a, 0, false⟩])
        ++ textToks b (a.length + 2 + 1 + c.length + 2)
      = textToks a 0 ++
        ([some ⟨">", c, a.length, a.length + 2 + 1 + c.length + 2, a, 0, false⟩]
          ++ textToks b (a.length + 2 + 1 + c.length + 2)) by simp]
  rw [foldl_delete_zero a.length _ _ (textToks_length a 0)]
  rw [show List.replicate a.length (none : Option PFlat) ++
        ([some ⟨">", c, a.length, a.length + 2 + 1 + c.length + 2, a, 0, false⟩]
          ++ textToks b (a.length + 2 + 1 + c.length + 2))
      = (List.replicate a.length none ++
          [some ⟨">", c, a.length, a.length + 2 + 1 + c.length + 2, a, 0, false⟩])
        ++ textToks b (a.length + 2 + 1 + c.length + 2) by simp]
  rw [foldl_delete_at (a.length + 1) b.length _ _ (by simp [textToks_length])
    (textToks_length _ _)]
  rw [show (List.replicate a.length (none : Option PFlat) ++
        [some ⟨">", c, a.length, a.length + 2 + 1 + c.length + 2, a, 0, false⟩])
        ++ List.replicate b.length none
      = List.replicate a.length none ++
        (some ⟨">", c, a.length, a.length + 2 + 1 + c.length + 2, a, 0, false⟩ ::
          List.replicate b.length none) by simp]
  rw [squashTokens, squashGo_blanks, squashGo_first, squashGo_blanks_nil]
  simp only [List.reverse_cons, List.reverse_nil, List.nil_append]
  rw [nestTokens]
  simp only [nestGo, closeLeftovers]
  rw [if_neg (by decide : ¬((">" : String) = "#" ∨ (">" : String) = "^")),
    if_neg (by decide : ¬((">" : String) = "/"))]
  rw [show List.length a + 2 + 1 + List.length c + 2 = List.length a + List.length c + 5 by omega]
  simp

/-- A full `parseStep` for `text… {{name}} …`: no sigil, so the tag type is
`"name"`. -/
theorem parseStep_name (st : PState) (src : Str) (p : Nat) (a : Str) (name r : Str)
    (hotag : st.otag = "\x7b\x7b".toList) (hctag : st.ctag = "\x7d\x7d".toList)
    (hrem : Scanner.rem ⟨src, p⟩ = a ++ '{' :: '{' :: (name ++ ('}' :: '}' :: r)))
    (ha : ∀ c ∈ a, c ≠ '{')
    (hname : ∀ c ∈ name, isWs c = false ∧ c ≠ '}')
    (hntc : ∀ c ∈ name.take 1, c ∉ tagChars) :
    parseStep st ⟨src, p⟩ =
      match handleTag { processText st a p with hasTag := true }
          ⟨src, p + a.length + 2 + name.length⟩ "name" name (p + a.length) with
      | .error e => .error e
      | .ok (st2, sc2) => .ok (.inr (st2, sc2)) := by
  have hotag2 : st.otag = '{' :: ['{'] := by rw [hotag]; rfl
  have hctag2 : st.ctag = '}' :: ['}'] := by rw [hctag]; rfl
  have hrem1 : Scanner.rem ⟨src, p + a.length⟩ = '{' :: '{' :: (name ++ ('}' :: '}' :: r)) := by
    rw [rem_add, hrem]
    exact List.drop_left a _
  have hrem2 : Scanner.rem ⟨src, p + a.length + 2⟩ = name ++ ('}' :: '}' :: r) := by
    rw [rem_add, hrem1]; rfl
  have heos : Scanner.eos ⟨src, p⟩ = false := by
    simp [Scanner.eos, hrem]
  have hscanU : scanUntilLit ('{' :: ['{']) ⟨src, p⟩ = (a, ⟨src, p + a.length⟩) :=
    scanUntilLit_clean '{' ['{'] src p a (name ++ ('}' :: '}' :: r)) (by rw [hrem]; simp) ha
  have hwsz : wsRunLen (name ++ ('}' :: '}' :: r)) = 0 :=
    wsRunLen_name_close name r (fun c hc => (hname c hc).1)
  have hscanL : scanLitWs ('{' :: ['{']) ⟨src, p + a.length⟩ =
      ('{' :: ['{'], ⟨src, p + a.length + 2⟩) :=
    scanLitWs_at ('{' :: ['{']) src (p + a.length) (name ++ ('}' :: '}' :: r))
      (by rw [hrem1]; rfl) hwsz
  have hscanT : scanTagType ⟨src, p + a.length + 2⟩ = (none, ⟨src, p + a.length + 2⟩) := by
    cases name with
    | nil => exact scanTagType_name src _ '}' _ hrem2 (by decide)
    | cons c cs => exact scanTagType_name src _ c _ hrem2 (hntc c (by simp))
  have hwhite : scanWhite ⟨src, p + a.length + 2⟩ = ⟨src, p + a.length + 2⟩ :=
    scanWhite_zero src _ (by rw [hrem2]; exact hwsz)
  have hne1 : ¬ (("name" : String) = "=") := by decide
  have hne2 : ¬ (("name" : String) = "\x7b") := by decide
  have hctag3 : (processText st a p).ctag = '}' :: ['}'] := by
    rw [(processText_keeps a st p).2.1, hctag2]
  have hscanV : scanUntilWsL ('}' :: ['}']) ⟨src, p + a.length + 2⟩ =
      (name, ⟨src, p + a.length + 2 + name.length⟩) := by
    refine scanUntilWsL_clean '}' ['}'] src _ name r (by decide) ?_ hname
    rw [hrem2]; simp
  have hkeep := processText_keeps a st p
  simp only [parseStep, heos, Bool.false_eq_true, if_false, hscanU, Nat.add_sub_cancel,
    hkeep.1, hotag2, hscanL, List.isEmpty_cons, hscanT, hwhite, if_neg hne1, if_neg hne2,
    hctag3, hscanV]

/-- Pushing a fresh text run onto a non-text last token: no merging with the
previous token, and the run itself merges into a single token. -/
theorem squashGo_text_after (c : Char) (cs : Str) (start : Nat) (r : List (Option PFlat))
    (last : PFlat) (rest : List PFlat) (h : ¬ last.ty = "text") :
    squashGo (textToks (c :: cs) start ++ r) (last :: rest) =
      squashGo r (⟨"text", c :: cs, start, start + (cs.length + 1), [], 0, false⟩
        :: last :: rest) := by
  simp only [textToks, List.cons_append, squashGo, List.append_eq]
  rw [if_neg (fun hcon => h hcon.2)]
  rw [squashGo_texts cs (start + 1) _ _ r rfl rfl]
  have hval : ([c] : Str) ++ cs = c :: cs := by simp
  have hte : start + 1 + cs.length = start + (cs.length + 1) := by omega
  rw [hval, hte]

/-- A variable tag on a line of otherwise only spaces/tabs: the whitespace
text tokens are kept (the tag sets `nonSpace`), so the parse result retains
the surrounding text. -/
theorem parse_variable_keeps (a b n : Str)
    (ha : lineWsOf a) (hb : lineWsOf b) (hn : alphaOf n) :
    parseTemplate (a ++ '{' :: '{' :: (n ++ '}' :: '}' :: b)) none =
      .ok (optText a 0 ++
        Tok.flat ⟨"name", n, a.length, a.length + n.length + 4, [], 0, false⟩ ::
        optText b (a.length + n.length + 4)) := by
  set t : Str := a ++ '{' :: '{' :: (n ++ '}' :: '}' :: b) with ht_def
  have hrem0 : Scanner.rem ⟨t, 0⟩ = a ++ '{' :: '{' :: (n ++ '}' :: '}' :: b) := by
    simp [Scanner.rem]
  have hmid : Scanner.rem ⟨t, a.length + 2⟩ = n ++ '}' :: '}' :: b := by
    rw [show a.length + 2 = 0 + (a.length + 2) by omega, rem_add, hrem0]
    rw [show a ++ '{' :: '{' :: (n ++ '}' :: '}' :: b)
        = (a ++ ['{', '{']) ++ (n ++ '}' :: '}' :: b) by simp]
    exact List.drop_left' (by simp)
  have hrem2 : Scanner.rem ⟨t, a.length + 2 + n.length⟩ = '}' :: '}' :: b := by
    rw [rem_add, hmid]
    exact List.drop_left n _
  have hrem3 : Scanner.rem ⟨t, a.length + 2 + n.length + 2⟩ = b := by
    rw [rem_add, hrem2]
    rfl
  have hstep1 := parseStep_name { otag := "\x7b\x7b".toList, ctag := "\x7d\x7d".toList } t 0 a n b
    rfl rfl hrem0 (lineWs_clean_open a ha) (alpha_clean_name n hn)
    (fun c hc => alpha_not_tagChar c (hn c (List.take_subset 1 n hc)))
  simp only [Nat.zero_add] at hstep1
  have hpt : processText { otag := "\x7b\x7b".toList, ctag := "\x7d\x7d".toList } a 0 =
      ({ tokens := textToks a 0, spaces := idxFrom 0 a.length, sections := [],
         hasTag := false, nonSpace := false, indentation := a, tagIndex := 0,
         lineHasNonSpace := false, otag := "\x7b\x7b".toList, ctag := "\x7d\x7d".toList } : PState) := by
    rw [processText_lineWs a ha]
    simp
  rw [hpt] at hstep1
  dsimp only at hstep1
  have hclose : scanWsL ['}', '}'] ⟨t, a.length + 2 + n.length⟩ =
      (['}', '}'], ⟨t, a.length + 2 + n.length + 2⟩) := scanClose_at t _ b hrem2
  rw [show (handleTag
      ({ tokens := textToks a 0, spaces := idxFrom 0 a.length, sections := [],
         hasTag := true, nonSpace := false, indentation := a, tagIndex := 0,
         lineHasNonSpace := false, otag := "\x7b\x7b".toList, ctag := "\x7d\x7d".toList } : PState)
      ⟨t, a.length + 2 + n.length⟩ "name" n a.length) =
    .ok (({ tokens := textToks a 0 ++
              [some ⟨"name", n, a.length, a.length + 2 + n.length + 2, [], 0, false⟩],
            spaces := idxFrom 0 a.length, sections := [],
            hasTag := true, nonSpace := true, indentation := a, tagIndex := 1,
            lineHasNonSpace := false, otag := "\x7b\x7b".toList, ctag := "\x7d\x7d".toList } : PState),
          (⟨t, a.length + 2 + n.length + 2⟩ : Scanner)) from by
    simp [handleTag, hclose]] at hstep1
  dsimp only at hstep1
  have hstep2 := parseStep_break
    ({ tokens := textToks a 0 ++
         [some ⟨"name", n, a.length, a.length + 2 + n.length + 2, [], 0, false⟩],
       spaces := idxFrom 0 a.length, sections := [],
       hasTag := true, nonSpace := true, indentation := a, tagIndex := 1,
       lineHasNonSpace := false, otag := "\x7b\x7b".toList, ctag := "\x7d\x7d".toList } : PState)
    t (a.length + 2 + n.length + 2) b rfl hrem3 (lineWs_clean_open b hb)
  rw [processText_lineWs b hb] at hstep2
  dsimp only at hstep2
  have hloop2 : parseLoop 2 { otag := "\x7b\x7b".toList, ctag := "\x7d\x7d".toList } ⟨t, 0⟩ =
      .ok (({ tokens := (textToks a 0 ++
                [some ⟨"name", n, a.length, a.length + 2 + n.length + 2, [], 0, false⟩])
                ++ textToks b (a.length + 2 + n.length + 2),
              spaces := idxFrom 0 a.length ++
                idxFrom (textToks a 0 ++
                  [some (⟨"name", n, a.length, a.length + 2 + n.length + 2, [], 0,
                    false⟩ : PFlat)]).length b.length,
              sections := [],
              hasTag := true, nonSpace := true, indentation := a ++ b, tagIndex := 1,
              lineHasNonSpace := false, otag := "\x7b\x7b".toList, ctag := "\x7d\x7d".toList } : PState),
            (⟨t, a.length + 2 + n.length + 2 + b.length⟩ : Scanner)) := by
    rw [show (2 : Nat) = 1 + 1 from rfl, parseLoop_succ, hstep1]
    dsimp only
    rw [show (1 : Nat) = 0 + 1 from rfl, parseLoop_succ, hstep2]
  have hfuel : parseLoop (t.length + 1) { otag := "\x7b\x7b".toList, ctag := "\x7d\x7d".toList } ⟨t, 0⟩ =
      parseLoop 2 { otag := "\x7b\x7b".toList, ctag := "\x7d\x7d".toList } ⟨t, 0⟩ := by
    refine parseLoop_mono 2 (t.length + 1) _ _ ?_ (by rw [hloop2]; simp)
    have : 1 ≤ t.length := by
      rw [ht_def]
      simp only [List.length_append, List.length_cons]
      omega
    omega
  rw [parseTemplate_run t (by rw [ht_def]; simp) _ _ (by rw [hfuel, hloop2])]
  rw [stripSpace_keep _ rfl]
  dsimp only
  rw [show a.length + 2 + n.length + 2 = a.length + n.length + 4 by omega]
  cases a with
  | nil =>
    cases b with
    | nil =>
      simp [optText, textToks, squashTokens, squashGo, nestTokens, nestGo, closeLeftovers]
    | cons b₀ b' =>
      simp only [List.length_nil, Nat.zero_add]
      rw [show textToks ([] : Str) 0 = ([] : List (Option PFlat)) from rfl]
      simp only [List.nil_append, List.singleton_append]
      rw [squashTokens, squashGo_first,
        show textToks (b₀ :: b') (n.length + 4) =
          textToks (b₀ :: b') (n.length + 4) ++ ([] : List (Option PFlat)) by simp,
        squashGo_text_after b₀ b' (n.length + 4) []
          ⟨"name", n, 0, n.length + 4, [], 0, false⟩ [] (by simp)]
      rw [show squashGo ([] : List (Option PFlat))
          [(⟨"text", b₀ :: b', n.length + 4, n.length + 4 + (b'.length + 1), [], 0,
             false⟩ : PFlat),
           ⟨"name", n, 0, n.length + 4, [], 0, false⟩] =
        [(⟨"name", n, 0, n.length + 4, [], 0, false⟩ : PFlat),
         ⟨"text", b₀ :: b', n.length + 4, n.length + 4 + (b'.length + 1), [], 0, false⟩]
        from rfl]
      rw [nestTokens]
      simp only [nestGo, closeLeftovers]
      rw [if_neg (by decide : ¬(("name" : String) = "#" ∨ ("name" : String) = "^")),
        if_neg (by decide : ¬(("name" : String) = "/")),
        if_neg (by decide : ¬(("text" : String) = "#" ∨ ("text" : String) = "^")),
        if_neg (by decide : ¬(("text" : String) = "/"))]
      simp [optText, List.length_cons]
  | cons a₀ a' =>
    cases b with
    | nil =>
      rw [show textToks ([] : Str) ((a₀ :: a').length + n.length + 4)
          = ([] : List (Option PFlat)) from rfl, List.append_nil, squashTokens]
      rw [squashGo_text_start a₀ a' 0]
      rw [squashGo_push
        (⟨"name", n, (a₀ :: a').length, (a₀ :: a').length + n.length + 4, [], 0,
          false⟩ : PFlat) []
        [⟨"text", a₀ :: a', 0, 0 + (a'.length + 1), [], 0, false⟩] (by simp)]
      rw [show squashGo ([] : List (Option PFlat))
          [(⟨"name", n, (a₀ :: a').length, (a₀ :: a').length + n.length + 4, [], 0,
             false⟩ : PFlat),
           ⟨"text", a₀ :: a', 0, 0 + (a'.length + 1), [], 0, false⟩] =
        [(⟨"text", a₀ :: a', 0, 0 + (a'.length + 1), [], 0, false⟩ : PFlat),
         ⟨"name", n, (a₀ :: a').length, (a₀ :: a').length + n.length + 4, [], 0, false⟩]
        from rfl]
      rw [nestTokens]
      simp only [nestGo, closeLeftovers]
      rw [if_neg (by decide : ¬(("text" : String) = "#" ∨ ("text" : String) = "^")),
        if_neg (by decide : ¬(("text" : String) = "/")),
        if_neg (by decide : ¬(("name" : String) = "#" ∨ ("name" : String) = "^")),
        if_neg (by decide : ¬(("name" : String) = "/"))]
      simp [optText, List.length_cons]
    | cons b₀ b' =>
      rw [squashTokens,
        show (textToks (a₀ :: a') 0 ++
            [some (⟨"name", n, (a₀ :: a').length, (a₀ :: a').length + n.length + 4, [], 0,
              false⟩ : PFlat)]) ++ textToks (b₀ :: b') ((a₀ :: a').length + n.length + 4)
          = textToks (a₀ :: a') 0 ++
            (some ⟨"name", n, (a₀ :: a').length, (a₀ :: a').length + n.length + 4, [], 0,
              false⟩ ::
              textToks (b₀ :: b') ((a₀ :: a').length + n.length + 4)) by simp]
      rw [squashGo_text_start a₀ a' 0]
      rw [squashGo_push
        (⟨"name", n, (a₀ :: a').length, (a₀ :: a').length + n.length + 4, [], 0,
          false⟩ : PFlat)
        (textToks (b₀ :: b') ((a₀ :: a').length + n.length + 4))
        [⟨"text", a₀ :: a', 0, 0 + (a'.length + 1), [], 0, false⟩] (by simp)]
      rw [show textToks (b₀ :: b') ((a₀ :: a').length + n.length + 4) =
          textToks (b₀ :: b') ((a₀ :: a').length + n.length + 4)
            ++ ([] : List (Option PFlat)) by simp,
        squashGo_text_after b₀ b' ((a₀ :: a').length + n.length + 4) []
          ⟨"name", n, (a₀ :: a').length, (a₀ :: a').length + n.length + 4, [], 0, false⟩
          [⟨"text", a₀ :: a', 0, 0 + (a'.length + 1), [], 0, false⟩] (by simp)]
      rw [show squashGo ([] : List (Option PFlat))
          [(⟨"text", b₀ :: b', (a₀ :: a').length + n.length + 4,
             (a₀ :: a').length + n.length + 4 + (b'.length + 1), [], 0, false⟩ : PFlat),
           ⟨"name", n, (a₀ :: a').length, (a₀ :: a').length + n.length + 4, [], 0, false⟩,
           ⟨"text", a₀ :: a', 0, 0 + (a'.length + 1), [], 0, false⟩] =
        [(⟨"text", a₀ :: a', 0, 0 + (a'.length + 1), [], 0, false⟩ : PFlat),
         ⟨"name", n, (a₀ :: a').length, (a₀ :: a').length + n.length + 4, [], 0, false⟩,
         ⟨"text", b₀ :: b', (a₀ :: a').length + n.length + 4,
           (a₀ :: a').length + n.length + 4 + (b'.length + 1), [], 0, false⟩]
        from rfl]
      rw [nestTokens]
      simp only [nestGo, closeLeftovers]
      rw [if_neg (by decide : ¬(("text" : String) = "#" ∨ ("text" : String) = "^")),
        if_neg (by decide : ¬(("text" : String) = "/")),
        if_neg (by decide : ¬(("name" : String) = "#" ∨ ("name" : String) = "^")),
        if_neg (by decide : ¬(("name" : String) = "/"))]
      simp [optText, List.length_cons]

/-- A comment tag on a line that also carries a non-whitespace character
before it: nothing is stripped, the text (including all its whitespace) is
kept around the tag. -/
theorem parse_nonspace_keeps (x : Char) (a b c : Str)
    (hx : isWs x = false) (hx2 : x ≠ '{')
    (ha : lineWsOf a) (hb : lineWsOf b) (hc : alphaOf c) :
    parseTemplate ((x :: a) ++ '{' :: '{' :: '!' :: (c ++ '}' :: '}' :: b)) none =
      .ok (Tok.flat ⟨"text", x :: a, 0, a.length + 1, [], 0, false⟩ ::
        Tok.flat ⟨"!", c, a.length + 1, a.length + c.length + 6, [], 0, false⟩ ::
        optText b (a.length + c.length + 6)) := by
  set t : Str := (x :: a) ++ '{' :: '{' :: '!' :: (c ++ '}' :: '}' :: b) with ht_def
  have hxnl : ¬ x = '\n' := fun h => by rw [h] at hx; exact absurd hx (by decide)
  have hrem0 : Scanner.rem ⟨t, 0⟩ = (x :: a) ++ '{' :: '{' :: '!' :: (c ++ '}' :: '}' :: b) := by
    simp [Scanner.rem, ht_def]
  have hmid : Scanner.rem ⟨t, (x :: a).length + 3⟩ = c ++ '}' :: '}' :: b := by
    rw [show (x :: a).length + 3 = 0 + ((x :: a).length + 3) by omega, rem_add, hrem0]
    rw [show (x :: a) ++ '{' :: '{' :: '!' :: (c ++ '}' :: '}' :: b)
        = ((x :: a) ++ ['{', '{', '!']) ++ (c ++ '}' :: '}' :: b) by simp]
    exact List.drop_left' (by simp)
  have hrem2 : Scanner.rem ⟨t, (x :: a).length + 2 + 1 + c.length⟩ = '}' :: '}' :: b := by
    rw [show (x :: a).length + 2 + 1 + c.length = ((x :: a).length + 3) + c.length by omega,
      rem_add, hmid]
    exact List.drop_left c _
  have hrem3 : Scanner.rem ⟨t, (x :: a).length + 2 + 1 + c.length + 2⟩ = b := by
    rw [rem_add, hrem2]
    rfl
  have haclean : ∀ d ∈ (x :: a), d ≠ '{' := by
    intro d hd
    rcases List.mem_cons.mp hd with rfl | hd2
    · exact hx2
    · exact lineWs_clean_open a ha d hd2
  have hstep1 := parseStep_tag { otag := "\x7b\x7b".toList, ctag := "\x7d\x7d".toList } t 0 (x :: a) '!' c b
    rfl rfl hrem0 haclean (by decide) (by decide) (by decide) (by decide)
    (alpha_clean_name c hc)
  simp only [Nat.zero_add] at hstep1
  have hpt : processText { otag := "\x7b\x7b".toList, ctag := "\x7d\x7d".toList } (x :: a) 0 =
      ({ tokens := some ⟨"text", [x], 0, 1, [], 0, false⟩ :: textToks a 1,
         spaces := idxFrom 1 a.length, sections := [],
         hasTag := false, nonSpace := true, indentation := ' ' :: a, tagIndex := 0,
         lineHasNonSpace := true, otag := "\x7b\x7b".toList, ctag := "\x7d\x7d".toList } : PState) := by
    rw [show processText { otag := "\x7b\x7b".toList, ctag := "\x7d\x7d".toList } (x :: a) 0 =
        processText (pushTextChar { otag := "\x7b\x7b".toList, ctag := "\x7d\x7d".toList } x 0) a 1
      from rfl]
    rw [show pushTextChar { otag := "\x7b\x7b".toList, ctag := "\x7d\x7d".toList } x 0 =
        ({ tokens := [some ⟨"text", [x], 0, 1, [], 0, false⟩], spaces := [], sections := [],
           hasTag := false, nonSpace := true, indentation := [' '], tagIndex := 0,
           lineHasNonSpace := true, otag := "\x7b\x7b".toList, ctag := "\x7d\x7d".toList } : PState)
      from by simp [pushTextChar, hx, hxnl]]
    rw [processText_lineWs a ha]
    simp
  rw [hpt] at hstep1
  dsimp only at hstep1
  have hclose : scanWsL ['}', '}'] ⟨t, (x :: a).length + 2 + 1 + c.length⟩ =
      (['}', '}'], ⟨t, (x :: a).length + 2 + 1 + c.length + 2⟩) := scanClose_at t _ b hrem2
  simp only [List.length_cons] at hclose
  rw [show (handleTag
      ({ tokens := some ⟨"text", [x], 0, 1, [], 0, false⟩ :: textToks a 1,
         spaces := idxFrom 1 a.length, sections := [],
         hasTag := true, nonSpace := true, indentation := ' ' :: a, tagIndex := 0,
         lineHasNonSpace := true, otag := "\x7b\x7b".toList, ctag := "\x7d\x7d".toList } : PState)
      ⟨t, (x :: a).length + 2 + 1 + c.length⟩ (String.mk ['!']) c (x :: a).length) =
    .ok (({ tokens := (some ⟨"text", [x], 0, 1, [], 0, false⟩ :: textToks a 1) ++
              [some ⟨"!", c, (x :: a).length, (x :: a).length + 2 + 1 + c.length + 2, [], 0,
                false⟩],
            spaces := idxFrom 1 a.length, sections := [],
            hasTag := true, nonSpace := true, indentation := ' ' :: a, tagIndex := 1,
            lineHasNonSpace := true, otag := "\x7b\x7b".toList, ctag := "\x7d\x7d".toList } : PState),
          (⟨t, (x :: a).length + 2 + 1 + c.length + 2⟩ : Scanner)) from by
    simp [handleTag, hclose]] at hstep1
  dsimp only at hstep1
  have hstep2 := parseStep_break
    ({ tokens := (some ⟨"text", [x], 0, 1, [], 0, false⟩ :: textToks a 1) ++
         [some ⟨"!", c, (x :: a).length, (x :: a).length + 2 + 1 + c.length + 2, [], 0, false⟩],
       spaces := idxFrom 1 a.length, sections := [],
       hasTag := true, nonSpace := true, indentation := ' ' :: a, tagIndex := 1,
       lineHasNonSpace := true, otag := "\x7b\x7b".toList, ctag := "\x7d\x7d".toList } : PState)
    t ((x :: a).length + 2 + 1 + c.length + 2) b rfl hrem3 (lineWs_clean_open b hb)
  rw [processText_lineWs b hb] at hstep2
  dsimp only at hstep2
  have hloop2 : parseLoop 2 { otag := "\x7b\x7b".toList, ctag := "\x7d\x7d".toList } ⟨t, 0⟩ =
      .ok (({ tokens := ((some ⟨"text", [x], 0, 1, [], 0, false⟩ :: textToks a 1) ++
                [some ⟨"!", c, (x :: a).length, (x :: a).length + 2 + 1 + c.length + 2, [], 0,
                  false⟩])
                ++ textToks b ((x :: a).length + 2 + 1 + c.length + 2),
              spaces := idxFrom 1 a.length ++
                idxFrom ((some (⟨"text", [x], 0, 1, [], 0, false⟩ : PFlat) :: textToks a 1) ++
                  [some (⟨"!", c, (x :: a).length, (x :: a).length + 2 + 1 + c.length + 2, [], 0,
                    false⟩ : PFlat)]).length b.length,
              sections := [],
              hasTag := true, nonSpace := true, indentation := (' ' :: a) ++ b, tagIndex := 1,
              lineHasNonSpace := true, otag := "\x7b\x7b".toList, ctag := "\x7d\x7d".toList } : PState),
            (⟨t, (x :: a).length + 2 + 1 + c.length + 2 + b.length⟩ : Scanner)) := by
    rw [show (2 : Nat) = 1 + 1 from rfl, parseLoop_succ, hstep1]
    dsimp only
    rw [show (1 : Nat) = 0 + 1 from rfl, parseLoop_succ, hstep2]
  have hfuel : parseLoop (t.length + 1) { otag := "\x7b\x7b".toList, ctag := "\x7d\x7d".toList } ⟨t, 0⟩ =
      parseLoop 2 { otag := "\x7b\x7b".toList, ctag := "\x7d\x7d".toList } ⟨t, 0⟩ := by
    refine parseLoop_mono 2 (t.length + 1) _ _ ?_ (by rw [hloop2]; simp)
    have : 1 ≤ t.length := by
      rw [ht_def]
      simp only [List.length_append, List.length_cons]
      omega
    omega
  rw [parseTemplate_run t (by rw [ht_def]; simp) _ _ (by rw [hfuel, hloop2])]
  rw [stripSpace_keep _ rfl]
  dsimp only
  simp only [List.length_cons]
  rw [show a.length + 1 + 2 + 1 + c.length + 2 = a.length + c.length + 6 by omega]
  rw [squashTokens,
    show ((some (⟨"text", [x], 0, 1, [], 0, false⟩ : PFlat) :: textToks a 1) ++
        [some (⟨"!", c, a.length + 1, a.length + c.length + 6, [], 0, false⟩ : PFlat)])
        ++ textToks b (a.length + c.length + 6)
      = textToks (x :: a) 0 ++
        (some ⟨"!", c, a.length + 1, a.length + c.length + 6, [], 0, false⟩ ::
          textToks b (a.length + c.length + 6)) by simp [textToks]]
  rw [squashGo_text_start x a 0]
  rw [squashGo_push
    (⟨"!", c, a.length + 1, a.length + c.length + 6, [], 0, false⟩ : PFlat)
    (textToks b (a.length + c.length + 6))
    [⟨"text", x :: a, 0, 0 + (a.length + 1), [], 0, false⟩] (by simp)]
  cases b with
  | nil =>
    rw [show textToks ([] : Str) (a.length + c.length + 6) = ([] : List (Option PFlat))
      from rfl]
    rw [show squashGo ([] : List (Option PFlat))
        [(⟨"!", c, a.length + 1, a.length + c.length + 6, [], 0, false⟩ : PFlat),
         ⟨"text", x :: a, 0, 0 + (a.length + 1), [], 0, false⟩] =
      [(⟨"text", x :: a, 0, 0 + (a.length + 1), [], 0, false⟩ : PFlat),
       ⟨"!", c, a.length + 1, a.length + c.length + 6, [], 0, false⟩] from rfl]
    rw [nestTokens]
    simp only [nestGo, closeLeftovers]
    rw [if_neg (by decide : ¬(("text" : String) = "#" ∨ ("text" : String) = "^")),
      if_neg (by decide : ¬(("text" : String) = "/")),
      if_neg (by decide : ¬(("!" : String) = "#" ∨ ("!" : String) = "^")),
      if_neg (by decide : ¬(("!" : String) = "/"))]
    simp [optText]
  | cons b₀ b' =>
    rw [show textToks (b₀ :: b') (a.length + c.length + 6) =
        textToks (b₀ :: b') (a.length + c.length + 6) ++ ([] : List (Option PFlat)) by simp,
      squashGo_text_after b₀ b' (a.length + c.length + 6) []
        ⟨"!", c, a.length + 1, a.length + c.length + 6, [], 0, false⟩
        [⟨"text", x :: a, 0, 0 + (a.length + 1), [], 0, false⟩] (by simp)]
    rw [show squashGo ([] : List (Option PFlat))
        [(⟨"text", b₀ :: b', a.length + c.length + 6,
           a.length + c.length + 6 + (b'.length + 1), [], 0, false⟩ : PFlat),
         ⟨"!", c, a.length + 1, a.length + c.length + 6, [], 0, false⟩,
         ⟨"text", x :: a, 0, 0 + (a.length + 1), [], 0, false⟩] =
      [(⟨"text", x :: a, 0, 0 + (a.length + 1), [], 0, false⟩ : PFlat),
       ⟨"!", c, a.length + 1, a.length + c.length + 6, [], 0, false⟩,
       ⟨"text", b₀ :: b', a.length + c.length + 6,
         a.length + c.length + 6 + (b'.length + 1), [], 0, false⟩] from rfl]
    rw [nestTokens]
    simp only [nestGo, closeLeftovers]
    rw [if_neg (by decide : ¬(("text" : String) = "#" ∨ ("text" : String) = "^")),
      if_neg (by decide : ¬(("text" : String) = "/")),
      if_neg (by decide : ¬(("!" : String) = "#" ∨ ("!" : String) = "^")),
      if_neg (by decide : ¬(("!" : String) = "/"))]
    simp [optText, List.length_cons]

theorem squashGo_none (t : List (Option PFlat)) (acc : List PFlat) :
    squashGo (none :: t) acc = squashGo t acc := rfl

/-- A section-open tag alone on one line and its matching close tag alone on
the next: all the surrounding whitespace text tokens (including the newline)
are discarded, leaving a single childless section token. -/
theorem parse_section_standalone (sig : Char) (hsig : sig = '#' ∨ sig = '^')
    (a₁ b₁ a₂ b₂ n : Str)
    (ha₁ : lineWsOf a₁) (hb₁ : lineWsOf b₁) (ha₂ : lineWsOf a₂) (hb₂ : lineWsOf b₂)
    (hn : alphaOf n) :
    parseTemplate (a₁ ++ '{' :: '{' :: sig :: (n ++ '}' :: '}' ::
        (b₁ ++ '\n' :: (a₂ ++ '{' :: '{' :: '/' :: (n ++ '}' :: '}' :: b₂))))) none =
      .ok [.sec (String.mk [sig]) n a₁.length (a₁.length + n.length + 5) []
        (a₁.length + n.length + 5 + b₁.length + 1 + a₂.length)] := by
  have hsigtc : sig ∈ tagChars := by rcases hsig with rfl | rfl <;> decide
  have hsigne1 : sig ≠ '=' := by rcases hsig with rfl | rfl <;> decide
  have hsigne2 : sig ≠ '{' := by rcases hsig with rfl | rfl <;> decide
  have hsignw : isWs sig = false := by rcases hsig with rfl | rfl <;> decide
  have hty : String.mk [sig] = "#" ∨ String.mk [sig] = "^" := by
    rcases hsig with rfl | rfl
    · exact Or.inl rfl
    · exact Or.inr rfl
  have hgt : ¬ (String.mk [sig] = ">") := by rcases hsig with rfl | rfl <;> decide
  set t : Str := a₁ ++ '{' :: '{' :: sig :: (n ++ '}' :: '}' ::
      (b₁ ++ '\n' :: (a₂ ++ '{' :: '{' :: '/' :: (n ++ '}' :: '}' :: b₂)))) with ht_def
  have hrem0 : Scanner.rem ⟨t, 0⟩ = a₁ ++ '{' :: '{' :: sig :: (n ++ '}' :: '}' ::
      (b₁ ++ '\n' :: (a₂ ++ '{' :: '{' :: '/' :: (n ++ '}' :: '}' :: b₂)))) := by
    simp [Scanner.rem, ht_def]
  have hmid1 : Scanner.rem ⟨t, a₁.length + 3⟩ = n ++ '}' :: '}' ::
      (b₁ ++ '\n' :: (a₂ ++ '{' :: '{' :: '/' :: (n ++ '}' :: '}' :: b₂))) := by
    rw [show a₁.length + 3 = 0 + (a₁.length + 3) by omega, rem_add, hrem0]
    rw [show a₁ ++ '{' :: '{' :: sig :: (n ++ '}' :: '}' ::
          (b₁ ++ '\n' :: (a₂ ++ '{' :: '{' :: '/' :: (n ++ '}' :: '}' :: b₂))))
        = (a₁ ++ ['{', '{', sig]) ++ (n ++ '}' :: '}' ::
          (b₁ ++ '\n' :: (a₂ ++ '{' :: '{' :: '/' :: (n ++ '}' :: '}' :: b₂)))) by simp]
    exact List.drop_left' (by simp)
  have hrem2 : Scanner.rem ⟨t, a₁.length + 2 + 1 + n.length⟩ = '}' :: '}' ::
      (b₁ ++ '\n' :: (a₂ ++ '{' :: '{' :: '/' :: (n ++ '}' :: '}' :: b₂))) := by
    rw [show a₁.length + 2 + 1 + n.length = (a₁.length + 3) + n.length by omega, rem_add, hmid1]
    exact List.drop_left n _
  have hremQ : Scanner.rem ⟨t, a₁.length + 2 + 1 + n.length + 2⟩ =
      (b₁ ++ '\n' :: a₂) ++ '{' :: '{' :: '/' :: (n ++ '}' :: '}' :: b₂) := by
    rw [rem_add, hrem2]
    simp
  have hrem4 : Scanner.rem ⟨t, a₁.length + 2 + 1 + n.length + 2 + (b₁ ++ '\n' :: a₂).length⟩ =
      '{' :: '{' :: '/' :: (n ++ '}' :: '}' :: b₂) := by
    rw [rem_add, hremQ]
    exact List.drop_left _ _
  have hrem5 : Scanner.rem ⟨t, a₁.length + 2 + 1 + n.length + 2 + (b₁ ++ '\n' :: a₂).length + 3⟩ =
      n ++ '}' :: '}' :: b₂ := by
    rw [rem_add, hrem4]
    rfl
  have hrem6 : Scanner.rem ⟨t, a₁.length + 2 + 1 + n.length + 2 + (b₁ ++ '\n' :: a₂).length
      + 2 + 1 + n.length⟩ = '}' :: '}' :: b₂ := by
    rw [show a₁.length + 2 + 1 + n.length + 2 + (b₁ ++ '\n' :: a₂).length + 2 + 1 + n.length
        = (a₁.length + 2 + 1 + n.length + 2 + (b₁ ++ '\n' :: a₂).length + 3) + n.length
      by omega, rem_add, hrem5]
    exact List.drop_left n _
  have hremR : Scanner.rem ⟨t, a₁.length + 2 + 1 + n.length + 2 + (b₁ ++ '\n' :: a₂).length
      + 2 + 1 + n.length + 2⟩ = b₂ := by
    rw [rem_add, hrem6]
    rfl
  have hstep1 := parseStep_tag { otag := "\x7b\x7b".toList, ctag := "\x7d\x7d".toList } t 0 a₁ sig n
    (b₁ ++ '\n' :: (a₂ ++ '{' :: '{' :: '/' :: (n ++ '}' :: '}' :: b₂)))
    rfl rfl hrem0 (lineWs_clean_open a₁ ha₁) hsigtc hsigne1 hsigne2 hsignw
    (alpha_clean_name n hn)
  simp only [Nat.zero_add] at hstep1
  have hpt1 : processText { otag := "\x7b\x7b".toList, ctag := "\x7d\x7d".toList } a₁ 0 =
      ({ tokens := textToks a₁ 0, spaces := idxFrom 0 a₁.length, sections := [],
         hasTag := false, nonSpace := false, indentation := a₁, tagIndex := 0,
         lineHasNonSpace := false, otag := "\x7b\x7b".toList, ctag := "\x7d\x7d".toList } : PState) := by
    rw [processText_lineWs a₁ ha₁]
    simp
  rw [hpt1] at hstep1
  dsimp only at hstep1
  have hclose1 : scanWsL ['}', '}'] ⟨t, a₁.length + 2 + 1 + n.length⟩ =
      (['}', '}'], ⟨t, a₁.length + 2 + 1 + n.length + 2⟩) := scanClose_at t _ _ hrem2
  rw [show (handleTag
      ({ tokens := textToks a₁ 0, spaces := idxFrom 0 a₁.length, sections := [],
         hasTag := true, nonSpace := false, indentation := a₁, tagIndex := 0,
         lineHasNonSpace := false, otag := "\x7b\x7b".toList, ctag := "\x7d\x7d".toList } : PState)
      ⟨t, a₁.length + 2 + 1 + n.length⟩ (String.mk [sig]) n a₁.length) =
    .ok (({ tokens := textToks a₁ 0 ++
              [some ⟨String.mk [sig], n, a₁.length, a₁.length + 2 + 1 + n.length + 2, [], 0,
                false⟩],
            spaces := idxFrom 0 a₁.length,
            sections := [⟨String.mk [sig], n, a₁.length, a₁.length + 2 + 1 + n.length + 2, [],
              0, false⟩],
            hasTag := true, nonSpace := false, indentation := a₁, tagIndex := 1,
            lineHasNonSpace := false, otag := "\x7b\x7b".toList, ctag := "\x7d\x7d".toList } : PState),
          (⟨t, a₁.length + 2 + 1 + n.length + 2⟩ : Scanner)) from by
    simp [handleTag, hclose1, if_neg hgt, if_pos hty]] at hstep1
  dsimp only at hstep1
  have haclean2 : ∀ c ∈ b₁ ++ '\n' :: a₂, c ≠ '{' := by
    intro c hc
    rcases List.mem_append.mp hc with h | h
    · exact lineWs_clean_open b₁ hb₁ c h
    · rcases List.mem_cons.mp h with rfl | h2
      · decide
      · exact lineWs_clean_open a₂ ha₂ c h2
  have hstep2 := parseStep_tag
    ({ tokens := textToks a₁ 0 ++
         [some ⟨String.mk [sig], n, a₁.length, a₁.length + 2 + 1 + n.length + 2, [], 0, false⟩],
       spaces := idxFrom 0 a₁.length,
       sections := [⟨String.mk [sig], n, a₁.length, a₁.length + 2 + 1 + n.length + 2, [], 0,
         false⟩],
       hasTag := true, nonSpace := false, indentation := a₁, tagIndex := 1,
       lineHasNonSpace := false, otag := "\x7b\x7b".toList, ctag := "\x7d\x7d".toList } : PState)
    t (a₁.length + 2 + 1 + n.length + 2) (b₁ ++ '\n' :: a₂) '/' n b₂
    rfl rfl hremQ haclean2 (by decide) (by decide) (by decide) (by decide)
    (alpha_clean_name n hn)
  have hlen1 : (textToks a₁ 0 ++
      [some (⟨String.mk [sig], n, a₁.length, a₁.length + 2 + 1 + n.length + 2, [], 0,
        false⟩ : PFlat)]).length = a₁.length + 1 := by
    simp [textToks_length]
  have hptBig : processText
      ({ tokens := textToks a₁ 0 ++
           [some ⟨String.mk [sig], n, a₁.length, a₁.length + 2 + 1 + n.length + 2, [], 0,
             false⟩],
         spaces := idxFrom 0 a₁.length,
         sections := [⟨String.mk [sig], n, a₁.length, a₁.length + 2 + 1 + n.length + 2, [], 0,
           false⟩],
         hasTag := true, nonSpace := false, indentation := a₁, tagIndex := 1,
         lineHasNonSpace := false, otag := "\x7b\x7b".toList, ctag := "\x7d\x7d".toList } : PState)
      (b₁ ++ '\n' :: a₂) (a₁.length + 2 + 1 + n.length + 2) =
      ({ tokens := ((List.replicate a₁.length none ++
            [some ⟨String.mk [sig], n, a₁.length, a₁.length + 2 + 1 + n.length + 2, [], 0,
              false⟩]) ++
            (List.replicate b₁.length none ++ [none])) ++
            textToks a₂ (a₁.length + 2 + 1 + n.length + 2 + (b₁.length + 1)),
         spaces := idxFrom (a₁.length + 1 + b₁.length + 1) a₂.length,
         sections := [⟨String.mk [sig], n, a₁.length, a₁.length + 2 + 1 + n.length + 2, [], 0,
           false⟩],
         hasTag := false, nonSpace := false, indentation := a₂, tagIndex := 0,
         lineHasNonSpace := false, otag := "\x7b\x7b".toList, ctag := "\x7d\x7d".toList } : PState) := by
    rw [show (b₁ ++ '\n' :: a₂ : Str) = (b₁ ++ ['\n']) ++ a₂ by simp]
    rw [processText_append, processText_append]
    rw [processText_lineWs b₁ hb₁]
    dsimp only
    rw [processText_nl]
    dsimp only
    rw [stripSpace_delete _ rfl rfl]
    dsimp only
    rw [hlen1]
    rw [show ((textToks a₁ 0 ++
          [some (⟨String.mk [sig], n, a₁.length, a₁.length + 2 + 1 + n.length + 2, [], 0,
            false⟩ : PFlat)]) ++
          textToks b₁ (a₁.length + 2 + 1 + n.length + 2)).length = a₁.length + 1 + b₁.length by
      simp [textToks_length]
      omega]
    rw [List.foldl_append, List.foldl_append]
    rw [show ((textToks a₁ 0 ++
          [some (⟨String.mk [sig], n, a₁.length, a₁.length + 2 + 1 + n.length + 2, [], 0,
            false⟩ : PFlat)]) ++
          textToks b₁ (a₁.length + 2 + 1 + n.length + 2)) ++
          [some ⟨"text", ['\n'], a₁.length + 2 + 1 + n.length + 2 + b₁.length,
            a₁.length + 2 + 1 + n.length + 2 + b₁.length + 1, [], 0, false⟩]
        = textToks a₁ 0 ++
          ([some ⟨String.mk [sig], n, a₁.length, a₁.length + 2 + 1 + n.length + 2, [], 0,
            false⟩] ++
            (textToks b₁ (a₁.length + 2 + 1 + n.length + 2) ++
              [some ⟨"text", ['\n'], a₁.length + 2 + 1 + n.length + 2 + b₁.length,
                a₁.length + 2 + 1 + n.length + 2 + b₁.length + 1, [], 0, false⟩])) by simp]
    rw [foldl_delete_zero a₁.length _ _ (textToks_length _ _)]
    have hreg := foldl_delete_region b₁.length
      (List.replicate a₁.length (none : Option PFlat) ++
        [some ⟨String.mk [sig], n, a₁.length, a₁.length + 2 + 1 + n.length + 2, [], 0, false⟩])
      (textToks b₁ (a₁.length + 2 + 1 + n.length + 2))
      [some ⟨"text", ['\n'], a₁.length + 2 + 1 + n.length + 2 + b₁.length,
        a₁.length + 2 + 1 + n.length + 2 + b₁.length + 1, [], 0, false⟩]
      (textToks_length _ _)
    simp only [List.length_append, List.length_replicate, List.length_cons,
      List.length_nil] at hreg
    rw [show List.replicate a₁.length (none : Option PFlat) ++
          ([some ⟨String.mk [sig], n, a₁.length, a₁.length + 2 + 1 + n.length + 2, [], 0,
            false⟩] ++
            (textToks b₁ (a₁.length + 2 + 1 + n.length + 2) ++
              [some ⟨"text", ['\n'], a₁.length + 2 + 1 + n.length + 2 + b₁.length,
                a₁.length + 2 + 1 + n.length + 2 + b₁.length + 1, [], 0, false⟩]))
        = (List.replicate a₁.length none ++
            [some ⟨String.mk [sig], n, a₁.length, a₁.length + 2 + 1 + n.length + 2, [], 0,
              false⟩]) ++
          (textToks b₁ (a₁.length + 2 + 1 + n.length + 2) ++
            [some ⟨"text", ['\n'], a₁.length + 2 + 1 + n.length + 2 + b₁.length,
              a₁.length + 2 + 1 + n.length + 2 + b₁.length + 1, [], 0, false⟩]) by simp]
    rw [hreg]
    rw [show List.foldl deleteTok
          ((List.replicate a₁.length (none : Option PFlat) ++
            [some ⟨String.mk [sig], n, a₁.length, a₁.length + 2 + 1 + n.length + 2, [], 0,
              false⟩]) ++
            (List.replicate b₁.length none ++
              [some ⟨"text", ['\n'], a₁.length + 2 + 1 + n.length + 2 + b₁.length,
                a₁.length + 2 + 1 + n.length + 2 + b₁.length + 1, [], 0, false⟩]))
          [a₁.length + 1 + b₁.length]
        = deleteTok
          ((List.replicate a₁.length (none : Option PFlat) ++
            [some ⟨String.mk [sig], n, a₁.length, a₁.length + 2 + 1 + n.length + 2, [], 0,
              false⟩]) ++
            (List.replicate b₁.length none ++
              [some ⟨"text", ['\n'], a₁.length + 2 + 1 + n.length + 2 + b₁.length,
                a₁.length + 2 + 1 + n.length + 2 + b₁.length + 1, [], 0, false⟩]))
          (a₁.length + 1 + b₁.length) from rfl]
    rw [deleteTok]
    have hset := set_append_length
      ((List.replicate a₁.length (none : Option PFlat) ++
        [some ⟨String.mk [sig], n, a₁.length, a₁.length + 2 + 1 + n.length + 2, [], 0,
          false⟩]) ++
        List.replicate b₁.length none)
      (some ⟨"text", ['\n'], a₁.length + 2 + 1 + n.length + 2 + b₁.length,
        a₁.length + 2 + 1 + n.length + 2 + b₁.length + 1, [], 0, false⟩)
      [] none
    simp only [List.length_append, List.length_replicate, List.length_cons,
      List.length_nil] at hset
    rw [show ((List.replicate a₁.length (none : Option PFlat) ++
          [some ⟨String.mk [sig], n, a₁.length, a₁.length + 2 + 1 + n.length + 2, [], 0,
            false⟩]) ++
          (List.replicate b₁.length none ++
            [some ⟨"text", ['\n'], a₁.length + 2 + 1 + n.length + 2 + b₁.length,
              a₁.length + 2 + 1 + n.length + 2 + b₁.length + 1, [], 0, false⟩]))
        = ((List.replicate a₁.length none ++
            [some ⟨String.mk [sig], n, a₁.length, a₁.length + 2 + 1 + n.length + 2, [], 0,
              false⟩]) ++
            List.replicate b₁.length none) ++
          (some ⟨"text", ['\n'], a₁.length + 2 + 1 + n.length + 2 + b₁.length,
            a₁.length + 2 + 1 + n.length + 2 + b₁.length + 1, [], 0, false⟩ :: []) by simp]
    rw [hset]
    rw [processText_lineWs a₂ ha₂]
    dsimp only
    rw [show a₁.length + 2 + 1 + n.length + 2 + (b₁ ++ ['\n']).length
        = a₁.length + 2 + 1 + n.length + 2 + (b₁.length + 1) by
      simp only [List.length_append, List.length_cons, List.length_nil]]
    rw [show (((List.replicate a₁.length (none : Option PFlat) ++
          [some (⟨String.mk [sig], n, a₁.length, a₁.length + 2 + 1 + n.length + 2, [], 0,
            false⟩ : PFlat)]) ++
          List.replicate b₁.length (none : Option PFlat)) ++
          (none : Option PFlat) :: []).length
        = a₁.length + 1 + b₁.length + 1 by
      simp only [List.length_append, List.length_cons, List.length_nil,
        List.length_replicate]]
    rw [show ((List.replicate a₁.length (none : Option PFlat) ++
          [some (⟨String.mk [sig], n, a₁.length, a₁.length + 2 + 1 + n.length + 2, [], 0,
            false⟩ : PFlat)]) ++
          List.replicate b₁.length (none : Option PFlat)) ++
          (none : Option PFlat) :: []
        = (List.replicate a₁.length (none : Option PFlat) ++
            [some (⟨String.mk [sig], n, a₁.length, a₁.length + 2 + 1 + n.length + 2, [], 0,
              false⟩ : PFlat)]) ++
          (List.replicate b₁.length (none : Option PFlat) ++ [(none : Option PFlat)]) by simp]
    simp
  rw [hptBig] at hstep2
  dsimp only at hstep2
  have hclose2 : scanWsL ['}', '}']
      ⟨t, a₁.length + 2 + 1 + n.length + 2 + (b₁ ++ '\n' :: a₂).length + 2 + 1 + n.length⟩ =
      (['}', '}'],
        ⟨t, a₁.length + 2 + 1 + n.length + 2 + (b₁ ++ '\n' :: a₂).length + 2 + 1 + n.length
          + 2⟩) := scanClose_at t _ _ hrem6
  simp only [List.length_append, List.length_cons] at hclose2
  rw [show (handleTag
      ({ tokens := ((List.replicate a₁.length none ++
            [some ⟨String.mk [sig], n, a₁.length, a₁.length + 2 + 1 + n.length + 2, [], 0,
              false⟩]) ++
            (List.replicate b₁.length none ++ [none])) ++
            textToks a₂ (a₁.length + 2 + 1 + n.length + 2 + (b₁.length + 1)),
         spaces := idxFrom (a₁.length + 1 + b₁.length + 1) a₂.length,
         sections := [⟨String.mk [sig], n, a₁.length, a₁.length + 2 + 1 + n.length + 2, [], 0,
           false⟩],
         hasTag := true, nonSpace := false, indentation := a₂, tagIndex := 0,
         lineHasNonSpace := false, otag := "\x7b\x7b".toList, ctag := "\x7d\x7d".toList } : PState)
      ⟨t, a₁.length + 2 + 1 + n.length + 2 + (b₁ ++ '\n' :: a₂).length + 2 + 1 + n.length⟩
      "/" n (a₁.length + 2 + 1 + n.length + 2 + (b₁ ++ '\n' :: a₂).length)) =
    .ok (({ tokens := (((List.replicate a₁.length none ++
              [some ⟨String.mk [sig], n, a₁.length, a₁.length + 2 + 1 + n.length + 2, [], 0,
                false⟩]) ++
              (List.replicate b₁.length none ++ [none])) ++
              textToks a₂ (a₁.length + 2 + 1 + n.length + 2 + (b₁.length + 1))) ++
              [some ⟨"/", n, a₁.length + 2 + 1 + n.length + 2 + (b₁ ++ '\n' :: a₂).length,
                a₁.length + 2 + 1 + n.length + 2 + (b₁ ++ '\n' :: a₂).length + 2 + 1
                  + n.length + 2, [], 0, false⟩],
            spaces := idxFrom (a₁.length + 1 + b₁.length + 1) a₂.length,
            sections := [],
            hasTag := true, nonSpace := false, indentation := a₂, tagIndex := 1,
            lineHasNonSpace := false, otag := "\x7b\x7b".toList, ctag := "\x7d\x7d".toList } : PState),
          (⟨t, a₁.length + 2 + 1 + n.length + 2 + (b₁ ++ '\n' :: a₂).length + 2 + 1 + n.length
            + 2⟩ : Scanner)) from by
    simp [handleTag, hclose2]] at hstep2
  dsimp only at hstep2
  have hstep3 := parseStep_break
    ({ tokens := (((List.replicate a₁.length none ++
          [some ⟨String.mk [sig], n, a₁.length, a₁.length + 2 + 1 + n.length + 2, [], 0,
            false⟩]) ++
          (List.replicate b₁.length none ++ [none])) ++
          textToks a₂ (a₁.length + 2 + 1 + n.length + 2 + (b₁.length + 1))) ++
          [some ⟨"/", n, a₁.length + 2 + 1 + n.length + 2 + (b₁ ++ '\n' :: a₂).length,
            a₁.length + 2 + 1 + n.length + 2 + (b₁ ++ '\n' :: a₂).length + 2 + 1 + n.length
              + 2, [], 0, false⟩],
       spaces := idxFrom (a₁.length + 1 + b₁.length + 1) a₂.length,
       sections := [],
       hasTag := true, nonSpace := false, indentation := a₂, tagIndex := 1,
       lineHasNonSpace := false, otag := "\x7b\x7b".toList, ctag := "\x7d\x7d".toList } : PState)
    t (a₁.length + 2 + 1 + n.length + 2 + (b₁ ++ '\n' :: a₂).length + 2 + 1 + n.length + 2)
    b₂ rfl hremR (lineWs_clean_open b₂ hb₂)
  rw [processText_lineWs b₂ hb₂] at hstep3
  dsimp only at hstep3
  have hloop3 : parseLoop 3 { otag := "\x7b\x7b".toList, ctag := "\x7d\x7d".toList } ⟨t, 0⟩ =
      .ok (({ tokens := ((((List.replicate a₁.length none ++
                [some ⟨String.mk [sig], n, a₁.length, a₁.length + 2 + 1 + n.length + 2, [], 0,
                  false⟩]) ++
                (List.replicate b₁.length none ++ [none])) ++
                textToks a₂ (a₁.length + 2 + 1 + n.length + 2 + (b₁.length + 1))) ++
                [some ⟨"/", n, a₁.length + 2 + 1 + n.length + 2 + (b₁ ++ '\n' :: a₂).length,
                  a₁.length + 2 + 1 + n.length + 2 + (b₁ ++ '\n' :: a₂).length + 2 + 1
                    + n.length + 2, [], 0, false⟩]) ++
                textToks b₂ (a₁.length + 2 + 1 + n.length + 2 + (b₁ ++ '\n' :: a₂).length
                  + 2 + 1 + n.length + 2),
              spaces := idxFrom (a₁.length + 1 + b₁.length + 1) a₂.length ++
                idxFrom ((((List.replicate a₁.length (none : Option PFlat) ++
                  [some (⟨String.mk [sig], n, a₁.length, a₁.length + 2 + 1 + n.length + 2, [],
                    0, false⟩ : PFlat)]) ++
                  (List.replicate b₁.length none ++ [none])) ++
                  textToks a₂ (a₁.length + 2 + 1 + n.length + 2 + (b₁.length + 1))) ++
                  [some (⟨"/", n, a₁.length + 2 + 1 + n.length + 2 + (b₁ ++ '\n' :: a₂).length,
                    a₁.length + 2 + 1 + n.length + 2 + (b₁ ++ '\n' :: a₂).length + 2 + 1
                      + n.length + 2, [], 0, false⟩ : PFlat)]).length b₂.length,
              sections := [],
              hasTag := true, nonSpace := false, indentation := a₂ ++ b₂, tagIndex := 1,
              lineHasNonSpace := false, otag := "\x7b\x7b".toList, ctag := "\x7d\x7d".toList } : PState),
            (⟨t, a₁.length + 2 + 1 + n.length + 2 + (b₁ ++ '\n' :: a₂).length + 2 + 1
              + n.length + 2 + b₂.length⟩ : Scanner)) := by
    rw [show (3 : Nat) = 2 + 1 from rfl, parseLoop_succ, hstep1]
    dsimp only
    rw [show (2 : Nat) = 1 + 1 from rfl, parseLoop_succ, hstep2]
    dsimp only
    rw [show (1 : Nat) = 0 + 1 from rfl, parseLoop_succ, hstep3]
  have hfuel : parseLoop (t.length + 1) { otag := "\x7b\x7b".toList, ctag := "\x7d\x7d".toList } ⟨t, 0⟩ =
      parseLoop 3 { otag := "\x7b\x7b".toList, ctag := "\x7d\x7d".toList } ⟨t, 0⟩ := by
    refine parseLoop_mono 3 (t.length + 1) _ _ ?_ (by rw [hloop3]; simp)
    have : 2 ≤ t.length := by
      rw [ht_def]
      simp only [List.length_append, List.length_cons]
      omega
    omega
  rw [parseTemplate_run t (by rw [ht_def]; simp) _ _ (by rw [hfuel, hloop3])]
  rw [stripSpace_delete _ rfl rfl]
  dsimp only
  rw [show ((((List.replicate a₁.length (none : Option PFlat) ++
        [some (⟨String.mk [sig], n, a₁.length, a₁.length + 2 + 1 + n.length + 2, [], 0,
          false⟩ : PFlat)]) ++
        (List.replicate b₁.length (none : Option PFlat) ++ [(none : Option PFlat)])) ++
        textToks a₂ (a₁.length + 2 + 1 + n.length + 2 + (b₁.length + 1))) ++
        [some (⟨"/", n, a₁.length + 2 + 1 + n.length + 2 + (b₁ ++ '\n' :: a₂).length,
          a₁.length + 2 + 1 + n.length + 2 + (b₁ ++ '\n' :: a₂).length + 2 + 1 + n.length
            + 2, [], 0, false⟩ : PFlat)]).length
      = a₁.length + 1 + b₁.length + 1 + a₂.length + 1 by
    simp [textToks_length]
    omega]
  rw [List.foldl_append]
  have hregA := foldl_delete_region a₂.length
    ((List.replicate a₁.length (none : Option PFlat) ++
      [some ⟨String.mk [sig], n, a₁.length, a₁.length + 2 + 1 + n.length + 2, [], 0, false⟩]) ++
      (List.replicate b₁.length none ++ [none]))
    (textToks a₂ (a₁.length + 2 + 1 + n.length + 2 + (b₁.length + 1)))
    ([some ⟨"/", n, a₁.length + 2 + 1 + n.length + 2 + (b₁ ++ '\n' :: a₂).length,
      a₁.length + 2 + 1 + n.length + 2 + (b₁ ++ '\n' :: a₂).length + 2 + 1 + n.length + 2,
      [], 0, false⟩] ++
      textToks b₂ (a₁.length + 2 + 1 + n.length + 2 + (b₁ ++ '\n' :: a₂).length + 2 + 1
        + n.length + 2))
    (textToks_length _ _)
  rw [show ((List.replicate a₁.length (none : Option PFlat) ++
        [some (⟨String.mk [sig], n, a₁.length, a₁.length + 2 + 1 + n.length + 2, [], 0,
          false⟩ : PFlat)]) ++
        (List.replicate b₁.length (none : Option PFlat) ++ [(none : Option PFlat)])).length
      = a₁.length + 1 + (b₁.length + 1) by
    simp
    omega] at hregA
  rw [show (((((List.replicate a₁.length (none : Option PFlat) ++
        [some ⟨String.mk [sig], n, a₁.length, a₁.length + 2 + 1 + n.length + 2, [], 0,
          false⟩]) ++
        (List.replicate b₁.length none ++ [none])) ++
        textToks a₂ (a₁.length + 2 + 1 + n.length + 2 + (b₁.length + 1))) ++
        [some ⟨"/", n, a₁.length + 2 + 1 + n.length + 2 + (b₁ ++ '\n' :: a₂).length,
          a₁.length + 2 + 1 + n.length + 2 + (b₁ ++ '\n' :: a₂).length + 2 + 1 + n.length
            + 2, [], 0, false⟩]) ++
        textToks b₂ (a₁.length + 2 + 1 + n.length + 2 + (b₁ ++ '\n' :: a₂).length + 2 + 1
          + n.length + 2))
      = ((List.replicate a₁.length none ++
          [some ⟨String.mk [sig], n, a₁.length, a₁.length + 2 + 1 + n.length + 2, [], 0,
            false⟩]) ++
          (List.replicate b₁.length none ++ [none])) ++
        (textToks a₂ (a₁.length + 2 + 1 + n.length + 2 + (b₁.length + 1)) ++
          ([some ⟨"/", n, a₁.length + 2 + 1 + n.length + 2 + (b₁ ++ '\n' :: a₂).length,
            a₁.length + 2 + 1 + n.length + 2 + (b₁ ++ '\n' :: a₂).length + 2 + 1 + n.length
              + 2, [], 0, false⟩] ++
            textToks b₂ (a₁.length + 2 + 1 + n.length + 2 + (b₁ ++ '\n' :: a₂).length + 2 + 1
              + n.length + 2))) by simp]
  rw [show idxFrom (a₁.length + 1 + b₁.length + 1) a₂.length
      = idxFrom (a₁.length + 1 + (b₁.length + 1)) a₂.length by rw [show a₁.length + 1
        + b₁.length + 1 = a₁.length + 1 + (b₁.length + 1) by omega]]
  rw [hregA]
  have hregB := foldl_delete_at (a₁.length + 1 + b₁.length + 1 + a₂.length + 1) b₂.length
    (((List.replicate a₁.length (none : Option PFlat) ++
      [some ⟨String.mk [sig], n, a₁.length, a₁.length + 2 + 1 + n.length + 2, [], 0, false⟩]) ++
      (List.replicate b₁.length none ++ [none])) ++
      (List.replicate a₂.length none ++
        [some ⟨"/", n, a₁.length + 2 + 1 + n.length + 2 + (b₁ ++ '\n' :: a₂).length,
          a₁.length + 2 + 1 + n.length + 2 + (b₁ ++ '\n' :: a₂).length + 2 + 1 + n.length
            + 2, [], 0, false⟩]))
    (textToks b₂ (a₁.length + 2 + 1 + n.length + 2 + (b₁ ++ '\n' :: a₂).length + 2 + 1
      + n.length + 2))
    (by simp; omega) (textToks_length _ _)
  rw [show ((List.replicate a₁.length (none : Option PFlat) ++
        [some ⟨String.mk [sig], n, a₁.length, a₁.length + 2 + 1 + n.length + 2, [], 0,
          false⟩]) ++
        (List.replicate b₁.length none ++ [none])) ++
        (List.replicate a₂.length none ++
          ([some ⟨"/", n, a₁.length + 2 + 1 + n.length + 2 + (b₁ ++ '\n' :: a₂).length,
            a₁.length + 2 + 1 + n.length + 2 + (b₁ ++ '\n' :: a₂).length + 2 + 1 + n.length
              + 2, [], 0, false⟩] ++
            textToks b₂ (a₁.length + 2 + 1 + n.length + 2 + (b₁ ++ '\n' :: a₂).length + 2 + 1
              + n.length + 2)))
      = (((List.replicate a₁.length none ++
          [some ⟨String.mk [sig], n, a₁.length, a₁.length + 2 + 1 + n.length + 2, [], 0,
            false⟩]) ++
          (List.replicate b₁.length none ++ [none])) ++
          (List.replicate a₂.length none ++
            [some ⟨"/", n, a₁.length + 2 + 1 + n.length + 2 + (b₁ ++ '\n' :: a₂).length,
              a₁.length + 2 + 1 + n.length + 2 + (b₁ ++ '\n' :: a₂).length + 2 + 1 + n.length
                + 2, [], 0, false⟩])) ++
        textToks b₂ (a₁.length + 2 + 1 + n.length + 2 + (b₁ ++ '\n' :: a₂).length + 2 + 1
          + n.length + 2) by simp]
  rw [hregB]
  rw [show (((List.replicate a₁.length (none : Option PFlat) ++
        [some ⟨String.mk [sig], n, a₁.length, a₁.length + 2 + 1 + n.length + 2, [], 0,
          false⟩]) ++
        (List.replicate b₁.length none ++ [none])) ++
        (List.replicate a₂.length none ++
          [some ⟨"/", n, a₁.length + 2 + 1 + n.length + 2 + (b₁ ++ '\n' :: a₂).length,
            a₁.length + 2 + 1 + n.length + 2 + (b₁ ++ '\n' :: a₂).length + 2 + 1 + n.length
              + 2, [], 0, false⟩])) ++
        List.replicate b₂.length none
      = List.replicate a₁.length none ++
        (some ⟨String.mk [sig], n, a₁.length, a₁.length + 2 + 1 + n.length + 2, [], 0, false⟩ ::
          (List.replicate b₁.length none ++
            (none ::
              (List.replicate a₂.length none ++
                (some ⟨"/", n, a₁.length + 2 + 1 + n.length + 2 + (b₁ ++ '\n' :: a₂).length,
                  a₁.length + 2 + 1 + n.length + 2 + (b₁ ++ '\n' :: a₂).length + 2 + 1
                    + n.length + 2, [], 0, false⟩ ::
                  List.replicate b₂.length none))))) by simp]
  rw [squashTokens, squashGo_blanks, squashGo_first, squashGo_blanks, squashGo_none,
    squashGo_blanks, squashGo_push _ _ _ (by simp), squashGo_blanks_nil]
  simp only [List.reverse_cons, List.reverse_nil, List.nil_append]
  rw [nestTokens]
  simp only [nestGo, closeLeftovers]
  rw [if_pos hty]
  rw [if_pos trivial]
  simp only [List.nil_append]
  rw [show a₁.length + 2 + 1 + n.length + 2 = a₁.length + n.length + 5 by omega]
  rw [show (b₁ ++ '\n' :: a₂).length = b₁.length + 1 + a₂.length by simp; omega]
  rw [show a₁.length + n.length + 5 + (b₁.length + 1 + a₂.length)
      = a₁.length + n.length + 5 + b₁.length + 1 + a₂.length by omega]
  rw [if_neg (by decide : ¬(("/" : String) = "#" ∨ ("/" : String) = "^"))]

/-- `parseStep_break` for arbitrary compiled delimiters: trailing text with no
occurrence of the opening delimiter's first character exits the loop. -/
theorem parseStep_break_gen (st : PState) (src : Str) (p : Nat) (b : Str)
    (o₀ : Char) (ot : Str) (hotag : st.otag = o₀ :: ot)
    (hrem : Scanner.rem ⟨src, p⟩ = b) (hb : ∀ c ∈ b, c ≠ o₀) :
    parseStep st ⟨src, p⟩ = .ok (.inl (processText st b p, ⟨src, p + b.length⟩)) := by
  cases b with
  | nil =>
    have heos : Scanner.eos ⟨src, p⟩ = true := by simp [Scanner.eos, hrem]
    simp [parseStep, heos, processText]
  | cons c0 b' =>
    have heos : Scanner.eos ⟨src, p⟩ = false := by simp [Scanner.eos, hrem]
    have hscanU : scanUntilLit (o₀ :: ot) ⟨src, p⟩ =
        (c0 :: b', ⟨src, p + (c0 :: b').length⟩) :=
      scanUntilLit_all o₀ ot src p (c0 :: b') hrem hb
    have hremEnd : Scanner.rem ⟨src, p + (c0 :: b').length⟩ = [] := by
      rw [rem_add, hrem]
      simp
    have hfail : scanLitWs (o₀ :: ot) ⟨src, p + (c0 :: b').length⟩ =
        ([], ⟨src, p + (c0 :: b').length⟩) := by
      refine scanLitWs_fail _ _ ?_
      rw [hremEnd]
      rfl
    simp only [parseStep, heos, Bool.false_eq_true, if_false, hotag, hscanU,
      Nat.add_sub_cancel, (processText_keeps (c0 :: b') st p).1, hfail, List.isEmpty_nil,
      if_true]

/-- A full `parseStep` for `text… \x7b\x7b=<% %>=\x7d\x7d …`: the delimiter-change tag
with concrete new delimiters `<%`/`%>`. -/
theorem parseStep_eqTag (st : PState) (src : Str) (p : Nat) (a b : Str)
    (hotag : st.otag = "\x7b\x7b".toList) (hctag : st.ctag = "\x7d\x7d".toList)
    (hrem : Scanner.rem ⟨src, p⟩ = a ++ '{' :: '{' :: '=' :: '<' :: '%' :: ' ' :: '%' ::
      '>' :: '=' :: '}' :: '}' :: b)
    (ha : ∀ c ∈ a, c ≠ '{') :
    parseStep st ⟨src, p⟩ =
      match handleTag { processText st a p with hasTag := true }
          ⟨src, p + a.length + 2 + 1 + 5 + 1⟩ "=" ['<', '%', ' ', '%', '>'] (p + a.length)
        with
      | .error e => .error e
      | .ok (st2, sc2) => .ok (.inr (st2, sc2)) := by
  have hotag2 : st.otag = '{' :: ['{'] := by rw [hotag]; rfl
  have hctag2 : st.ctag = '}' :: ['}'] := by rw [hctag]; rfl
  have hrem1 : Scanner.rem ⟨src, p + a.length⟩ = '{' :: '{' :: '=' :: '<' :: '%' :: ' ' ::
      '%' :: '>' :: '=' :: '}' :: '}' :: b := by
    rw [rem_add, hrem]
    exact List.drop_left a _
  have hrem2 : Scanner.rem ⟨src, p + a.length + 2⟩ = '=' :: '<' :: '%' :: ' ' :: '%' ::
      '>' :: '=' :: '}' :: '}' :: b := by
    rw [rem_add, hrem1]
    rfl
  have hrem3 : Scanner.rem ⟨src, p + a.length + 2 + 1⟩ = '<' :: '%' :: ' ' :: '%' ::
      '>' :: '=' :: '}' :: '}' :: b := by
    rw [rem_add, hrem2]
    rfl
  have hrem8 : Scanner.rem ⟨src, p + a.length + 2 + 1 + 5⟩ = '=' :: '}' :: '}' :: b := by
    rw [rem_add, hrem3]
    rfl
  have hrem9 : Scanner.rem ⟨src, p + a.length + 2 + 1 + 5 + 1⟩ = '}' :: '}' :: b := by
    rw [rem_add, hrem8]
    rfl
  have heos : Scanner.eos ⟨src, p⟩ = false := by
    simp [Scanner.eos, hrem]
  have hscanU : scanUntilLit ('{' :: ['{']) ⟨src, p⟩ = (a, ⟨src, p + a.length⟩) :=
    scanUntilLit_clean '{' ['{'] src p a
      ('=' :: '<' :: '%' :: ' ' :: '%' :: '>' :: '=' :: '}' :: '}' :: b)
      (by rw [hrem]; simp) ha
  have hscanL : scanLitWs ('{' :: ['{']) ⟨src, p + a.length⟩ =
      ('{' :: ['{'], ⟨src, p + a.length + 2⟩) :=
    scanLitWs_at ('{' :: ['{']) src (p + a.length) _ (by rw [hrem1]; rfl)
      (wsRunLen_cons_not _ _ (by decide))
  have hscanT : scanTagType ⟨src, p + a.length + 2⟩ = (some '=', ⟨src, p + a.length + 2 + 1⟩) :=
    scanTagType_sigil src _ '=' _ hrem2 (by decide)
  have hwhite : scanWhite ⟨src, p + a.length + 2 + 1⟩ = ⟨src, p + a.length + 2 + 1⟩ :=
    scanWhite_zero src _ (by rw [hrem3]; exact wsRunLen_cons_not _ _ (by decide))
  have hfind : findWsL ['='] ('<' :: '%' :: ' ' :: '%' :: '>' :: '=' :: '}' :: '}' :: b) =
      some (5, 1) := rfl
  have hscanV : scanUntilWsL ['='] ⟨src, p + a.length + 2 + 1⟩ =
      (['<', '%', ' ', '%', '>'], ⟨src, p + a.length + 2 + 1 + 5⟩) := by
    simp only [scanUntilWsL, hrem3, hfind]
    rfl
  have hscanEq : scanWsL ['='] ⟨src, p + a.length + 2 + 1 + 5⟩ =
      (['='], ⟨src, p + a.length + 2 + 1 + 5 + 1⟩) :=
    scanWsL_at '=' [] src _ _ (by decide) (by rw [hrem8]; rfl)
  have hscanU2 : scanUntilWsL ('}' :: ['}']) ⟨src, p + a.length + 2 + 1 + 5 + 1⟩ =
      ([], ⟨src, p + a.length + 2 + 1 + 5 + 1⟩) := by
    have := scanUntilWsL_clean '}' ['}'] src (p + a.length + 2 + 1 + 5 + 1) [] b (by decide)
      (by rw [hrem9]; rfl) (by intro c hc; cases hc)
    simpa using this
  have heq : (String.mk ['='] : String) = "=" := rfl
  have hkeep := processText_keeps a st p
  simp only [parseStep, heos, Bool.false_eq_true, if_false, hscanU, Nat.add_sub_cancel,
    hkeep.1, hotag2, hscanL, List.isEmpty_cons, hscanT, hwhite, heq, if_pos (rfl :
      ("=" : String) = "="), hscanV, hscanEq, hkeep.2.1, hctag2, hscanU2]
  rw [if_pos trivial]

/-- A delimiter-change tag `\x7b\x7b=<% %>=\x7d\x7d` alone on the template's only line,
with any surrounding spaces/tabs: the whitespace text tokens are discarded,
leaving only the `=` token (which renders to nothing). -/
theorem parse_delim_standalone (a b : Str) (ha : lineWsOf a) (hb : lineWsOf b) :
    parseTemplate (a ++ '{' :: '{' :: '=' :: '<' :: '%' :: ' ' :: '%' :: '>' :: '=' ::
        '}' :: '}' :: b) none =
      .ok [.flat ⟨"=", ['<', '%', ' ', '%', '>'], a.length, a.length + 11, [], 0, false⟩] := by
  set t : Str := a ++ '{' :: '{' :: '=' :: '<' :: '%' :: ' ' :: '%' :: '>' :: '=' ::
      '}' :: '}' :: b with ht_def
  have hrem0 : Scanner.rem ⟨t, 0⟩ = a ++ '{' :: '{' :: '=' :: '<' :: '%' :: ' ' :: '%' ::
      '>' :: '=' :: '}' :: '}' :: b := by
    simp [Scanner.rem, ht_def]
  have hrem9 : Scanner.rem ⟨t, a.length + 2 + 1 + 5 + 1⟩ = '}' :: '}' :: b := by
    rw [show a.length + 2 + 1 + 5 + 1 = 0 + (a.length + 9) by omega, rem_add, hrem0]
    rw [show a ++ '{' :: '{' :: '=' :: '<' :: '%' :: ' ' :: '%' :: '>' :: '=' ::
          '}' :: '}' :: b
        = (a ++ ['{', '{', '=', '<', '%', ' ', '%', '>', '=']) ++ ('}' :: '}' :: b) by simp]
    exact List.drop_left' (by simp)
  have hrem11 : Scanner.rem ⟨t, a.length + 2 + 1 + 5 + 1 + 2⟩ = b := by
    rw [rem_add, hrem9]
    rfl
  have hstep1 := parseStep_eqTag { otag := "\x7b\x7b".toList, ctag := "\x7d\x7d".toList } t 0 a b
    rfl rfl hrem0 (lineWs_clean_open a ha)
  simp only [Nat.zero_add] at hstep1
  have hpt : processText { otag := "\x7b\x7b".toList, ctag := "\x7d\x7d".toList } a 0 =
      ({ tokens := textToks a 0, spaces := idxFrom 0 a.length, sections := [],
         hasTag := false, nonSpace := false, indentation := a, tagIndex := 0,
         lineHasNonSpace := false, otag := "\x7b\x7b".toList, ctag := "\x7d\x7d".toList } : PState) := by
    rw [processText_lineWs a ha]
    simp
  rw [hpt] at hstep1
  dsimp only at hstep1
  have hclose : scanWsL ['}', '}'] ⟨t, a.length + 2 + 1 + 5 + 1⟩ =
      (['}', '}'], ⟨t, a.length + 2 + 1 + 5 + 1 + 2⟩) := scanClose_at t _ b hrem9
  have hcomp : compileTagsStr ['<', '%', ' ', '%', '>'] =
      .ok (('<' :: ['%'] : Str), ('%' :: ['>'] : Str)) := rfl
  rw [show (handleTag
      ({ tokens := textToks a 0, spaces := idxFrom 0 a.length, sections := [],
         hasTag := true, nonSpace := false, indentation := a, tagIndex := 0,
         lineHasNonSpace := false, otag := "\x7b\x7b".toList, ctag := "\x7d\x7d".toList } : PState)
      ⟨t, a.length + 2 + 1 + 5 + 1⟩ "=" ['<', '%', ' ', '%', '>'] a.length) =
    .ok (({ tokens := textToks a 0 ++
              [some ⟨"=", ['<', '%', ' ', '%', '>'], a.length, a.length + 2 + 1 + 5 + 1 + 2,
                [], 0, false⟩],
            spaces := idxFrom 0 a.length, sections := [],
            hasTag := true, nonSpace := false, indentation := a, tagIndex := 1,
            lineHasNonSpace := false, otag := '<' :: ['%'], ctag := '%' :: ['>'] } : PState),
          (⟨t, a.length + 2 + 1 + 5 + 1 + 2⟩ : Scanner)) from by
    simp [handleTag, hclose, hcomp]] at hstep1
  dsimp only at hstep1
  have hstep2 := parseStep_break_gen
    ({ tokens := textToks a 0 ++
         [some ⟨"=", ['<', '%', ' ', '%', '>'], a.length, a.length + 2 + 1 + 5 + 1 + 2, [], 0,
           false⟩],
       spaces := idxFrom 0 a.length, sections := [],
       hasTag := true, nonSpace := false, indentation := a, tagIndex := 1,
       lineHasNonSpace := false, otag := '<' :: ['%'], ctag := '%' :: ['>'] } : PState)
    t (a.length + 2 + 1 + 5 + 1 + 2) b '<' ['%'] rfl hrem11
    (fun c hc => lineWs_ne c '<' (hb c hc) (by decide))
  rw [processText_lineWs b hb] at hstep2
  dsimp only at hstep2
  have hloop2 : parseLoop 2 { otag := "\x7b\x7b".toList, ctag := "\x7d\x7d".toList } ⟨t, 0⟩ =
      .ok (({ tokens := (textToks a 0 ++
                [some ⟨"=", ['<', '%', ' ', '%', '>'], a.length, a.length + 2 + 1 + 5 + 1 + 2,
                  [], 0, false⟩])
                ++ textToks b (a.length + 2 + 1 + 5 + 1 + 2),
              spaces := idxFrom 0 a.length ++
                idxFrom (textToks a 0 ++
                  [some (⟨"=", ['<', '%', ' ', '%', '>'], a.length,
                    a.length + 2 + 1 + 5 + 1 + 2, [], 0, false⟩ : PFlat)]).length b.length,
              sections := [],
              hasTag := true, nonSpace := false, indentation := a ++ b, tagIndex := 1,
              lineHasNonSpace := false, otag := '<' :: ['%'], ctag := '%' :: ['>'] } : PState),
            (⟨t, a.length + 2 + 1 + 5 + 1 + 2 + b.length⟩ : Scanner)) := by
    rw [show (2 : Nat) = 1 + 1 from rfl, parseLoop_succ, hstep1]
    dsimp only
    rw [show (1 : Nat) = 0 + 1 from rfl, parseLoop_succ, hstep2]
  have hfuel : parseLoop (t.length + 1) { otag := "\x7b\x7b".toList, ctag := "\x7d\x7d".toList } ⟨t, 0⟩ =
      parseLoop 2 { otag := "\x7b\x7b".toList, ctag := "\x7d\x7d".toList } ⟨t, 0⟩ := by
    refine parseLoop_mono 2 (t.length + 1) _ _ ?_ (by rw [hloop2]; simp)
    have : 1 ≤ t.length := by
      rw [ht_def]
      simp only [List.length_append, List.length_cons]
      omega
    omega
  rw [parseTemplate_run t (by rw [ht_def]; simp) _ _ (by rw [hfuel, hloop2])]
  rw [stripSpace_delete _ rfl rfl]
  dsimp only
  rw [show (textToks a 0 ++ [some (⟨"=", ['<', '%', ' ', '%', '>'], a.length,
      a.length + 2 + 1 + 5 + 1 + 2, [], 0, false⟩ : PFlat)]).length = a.length + 1 by
    simp [textToks_length]]
  rw [List.foldl_append]
  rw [show (textToks a 0 ++
        [some ⟨"=", ['<', '%', ' ', '%', '>'], a.length, a.length + 2 + 1 + 5 + 1 + 2, [], 0,
          false⟩])
        ++ textToks b (a.length + 2 + 1 + 5 + 1 + 2)
      = textToks a 0 ++
        ([some ⟨"=", ['<', '%', ' ', '%', '>'], a.length, a.length + 2 + 1 + 5 + 1 + 2, [], 0,
          false⟩]
          ++ textToks b (a.length + 2 + 1 + 5 + 1 + 2)) by simp]
  rw [foldl_delete_zero a.length _ _ (textToks_length a 0)]
  rw [show List.replicate a.length (none : Option PFlat) ++
        ([some ⟨"=", ['<', '%', ' ', '%', '>'], a.length, a.length + 2 + 1 + 5 + 1 + 2, [], 0,
          false⟩]
          ++ textToks b (a.length + 2 + 1 + 5 + 1 + 2))
      = (List.replicate a.length none ++
          [some ⟨"=", ['<', '%', ' ', '%', '>'], a.length, a.length + 2 + 1 + 5 + 1 + 2, [],
            0, false⟩])
        ++ textToks b (a.length + 2 + 1 + 5 + 1 + 2) by simp]
  rw [foldl_delete_at (a.length + 1) b.length _ _ (by simp [textToks_length])
    (textToks_length _ _)]
  rw [show (List.replicate a.length (none : Option PFlat) ++
        [some ⟨"=", ['<', '%', ' ', '%', '>'], a.length, a.length + 2 + 1 + 5 + 1 + 2, [], 0,
          false⟩])
        ++ List.replicate b.length none
      = List.replicate a.length none ++
        (some ⟨"=", ['<', '%', ' ', '%', '>'], a.length, a.length + 2 + 1 + 5 + 1 + 2, [], 0,
          false⟩ ::
          List.replicate b.length none) by simp]
  rw [squashTokens, squashGo_blanks, squashGo_first, squashGo_blanks_nil]
  simp only [List.reverse_cons, List.reverse_nil, List.nil_append]
  rw [nestTokens]
  simp only [nestGo, closeLeftovers]
  rw [if_neg (by decide : ¬(("=" : String) = "#" ∨ ("=" : String) = "^")),
    if_neg (by decide : ¬(("=" : String) = "/"))]
  rw [show a.length + 2 + 1 + 5 + 1 + 2 = a.length + 11 by omega]
  simp

/-! ## C2 — standalone block tags and whitespace stripping -/

/-- C2: a block tag (comment, partial, section open with its close, or
delimiter change) that occupies a source line alone except for surrounding
spaces/tabs has that line's whitespace-only text tokens discarded from the
parsed token sequence; a block tag sharing its line with non-whitespace
content, or a variable tag on the line, keeps the line's whitespace. -/
theorem c2_standalone_whitespace :
    (∀ a b c : Str, lineWsOf a → lineWsOf b → alphaOf c →
      parseTemplate (a ++ '{' :: '{' :: '!' :: (c ++ '}' :: '}' :: b)) none =
        .ok [.flat ⟨"!", c, a.length, a.length + c.length + 5, [], 0, false⟩]) ∧
    (∀ a b c : Str, lineWsOf a → lineWsOf b → alphaOf c →
      parseTemplate (a ++ '{' :: '{' :: '>' :: (c ++ '}' :: '}' :: b)) none =
        .ok [.flat ⟨">", c, a.length, a.length + c.length + 5, a, 0, false⟩]) ∧
    (∀ (sig : Char), sig = '#' ∨ sig = '^' → ∀ a₁ b₁ a₂ b₂ n : Str,
      lineWsOf a₁ → lineWsOf b₁ → lineWsOf a₂ → lineWsOf b₂ → alphaOf n →
      parseTemplate (a₁ ++ '{' :: '{' :: sig :: (n ++ '}' :: '}' ::
          (b₁ ++ '\n' :: (a₂ ++ '{' :: '{' :: '/' :: (n ++ '}' :: '}' :: b₂))))) none =
        .ok [.sec (String.mk [sig]) n a₁.length (a₁.length + n.length + 5) []
          (a₁.length + n.length + 5 + b₁.length + 1 + a₂.length)]) ∧
    (∀ a b : Str, lineWsOf a → lineWsOf b →
      parseTemplate (a ++ '{' :: '{' :: '=' :: '<' :: '%' :: ' ' :: '%' :: '>' :: '=' ::
          '}' :: '}' :: b) none =
        .ok [.flat ⟨"=", ['<', '%', ' ', '%', '>'], a.length, a.length + 11, [], 0,
          false⟩]) ∧
    (∀ (x : Char) (a b c : Str), isWs x = false → x ≠ '{' →
      lineWsOf a → lineWsOf b → alphaOf c →
      parseTemplate ((x :: a) ++ '{' :: '{' :: '!' :: (c ++ '}' :: '}' :: b)) none =
        .ok (Tok.flat ⟨"text", x :: a, 0, a.length + 1, [], 0, false⟩ ::
          Tok.flat ⟨"!", c, a.length + 1, a.length + c.length + 6, [], 0, false⟩ ::
          optText b (a.length + c.length + 6))) ∧
    (∀ a b n : Str, lineWsOf a → lineWsOf b → alphaOf n →
      parseTemplate (a ++ '{' :: '{' :: (n ++ '}' :: '}' :: b)) none =
        .ok (optText a 0 ++
          Tok.flat ⟨"name", n, a.length, a.length + n.length + 4, [], 0, false⟩ ::
          optText b (a.length + n.length + 4))) :=
  ⟨parse_comment_standalone, parse_partial_standalone, parse_section_standalone,
    parse_delim_standalone, parse_nonspace_keeps, parse_variable_keeps⟩

/-- Witness for C2: each conjunct instantiated at a concrete template. -/
theorem c2_standalone_whitespace_witness :
    (parseTemplate "\x20\x7b\x7b!x\x7d\x7d\t".toList none =
      .ok [.flat ⟨"!", ['x'], 1, 7, [], 0, false⟩]) ∧
    (parseTemplate "\x20\x7b\x7b>p\x7d\x7d".toList none =
      .ok [.flat ⟨">", ['p'], 1, 7, [' '], 0, false⟩]) ∧
    (parseTemplate "\x7b\x7b#s\x7d\x7d\n\x7b\x7b/s\x7d\x7d".toList none =
      .ok [.sec "#" ['s'] 0 6 [] 7]) ∧
    (parseTemplate "\x7b\x7b=<% %>=\x7d\x7d".toList none =
      .ok [.flat ⟨"=", ['<', '%', ' ', '%', '>'], 0, 11, [], 0, false⟩]) ∧
    (parseTemplate "x\x7b\x7b!c\x7d\x7d".toList none =
      .ok [.flat ⟨"text", ['x'], 0, 1, [], 0, false⟩,
        .flat ⟨"!", ['c'], 1, 7, [], 0, false⟩]) ∧
    (parseTemplate "\x20\x7b\x7bv\x7d\x7d\x20".toList none =
      .ok [.flat ⟨"text", [' '], 0, 1, [], 0, false⟩,
        .flat ⟨"name", ['v'], 1, 6, [], 0, false⟩,
        .flat ⟨"text", [' '], 6, 7, [], 0, false⟩]) :=
  ⟨c2_standalone_whitespace.1 [' '] ['\t'] ['x'] (by unfold lineWsOf; decide)
     (by unfold lineWsOf; decide) (by unfold alphaOf; decide),
   c2_standalone_whitespace.2.1 [' '] [] ['p'] (by unfold lineWsOf; decide)
     (by unfold lineWsOf; decide) (by unfold alphaOf; decide),
   c2_standalone_whitespace.2.2.1 '#' (Or.inl rfl) [] [] [] [] ['s']
     (by unfold lineWsOf; decide) (by unfold lineWsOf; decide)
     (by unfold lineWsOf; decide) (by unfold lineWsOf; decide)
     (by unfold alphaOf; decide),
   c2_standalone_whitespace.2.2.2.1 [] [] (by unfold lineWsOf; decide)
     (by unfold lineWsOf; decide),
   c2_standalone_whitespace.2.2.2.2.1 'x' [] [] ['c'] (by decide) (by decide)
     (by unfold lineWsOf; decide) (by unfold lineWsOf; decide)
     (by unfold alphaOf; decide),
   c2_standalone_whitespace.2.2.2.2.2 [' '] [' '] ['v'] (by unfold lineWsOf; decide)
     (by unfold lineWsOf; decide) (by unfold alphaOf; decide)⟩

/-! ## C9 — parse-time structural violations -/

/-- After the loop: `parseTemplate` surfaces a loop error unchanged. -/
theorem parseTemplate_err (t : Str) (ht : t ≠ []) (e : PErr)
    (hrun : parseLoop (t.length + 1) { otag := "\x7b\x7b".toList, ctag := "\x7d\x7d".toList }
      ⟨t, 0⟩ = .error e) :
    parseTemplate t none = .error e := by
  have hemp : t.isEmpty = false := by
    cases t with
    | nil => exact absurd rfl ht
    | cons x xs => rfl
  simp only [parseTemplate, hemp, Bool.false_eq_true, if_false, Option.getD,
    mustacheTags, compileTagsList, hrun]

/-- A delimiter array that is not a two-element pair fails `compileTags` for
every non-empty template. -/
theorem parse_invalid_tags (t : Str) (ht : t ≠ []) (tags : List Str)
    (h2 : tags.length ≠ 2) :
    parseTemplate t (some tags) = .error .invalidTags := by
  have hemp : t.isEmpty = false := by
    cases t with
    | nil => exact absurd rfl ht
    | cons x xs => rfl
  have hcomp : compileTagsList tags = .error .invalidTags := by
    match tags, h2 with
    | [], _ => rfl
    | [o], _ => rfl
    | o :: c :: d :: r, _ => rfl
    | [o, c], h => exact absurd rfl h
  simp only [parseTemplate, hemp, Bool.false_eq_true, if_false, Option.getD, hcomp]

/-- A tag never closed: `Unclosed tag at` the scanner position. -/
theorem parse_unclosed_tag (n : Str) (hn : alphaOf n) :
    parseTemplate ('{' :: '{' :: n) none = .error (.unclosedTag (2 + n.length)) := by
  set t : Str := '{' :: '{' :: n with ht_def
  have hrem0 : Scanner.rem ⟨t, 0⟩ = '{' :: '{' :: n := by simp [Scanner.rem, ht_def]
  have hrem2 : Scanner.rem ⟨t, 2⟩ = n := by
    rw [show (2 : Nat) = 0 + 2 by omega, rem_add, hrem0]
    rfl
  have hrem3 : Scanner.rem ⟨t, 2 + n.length⟩ = [] := by
    rw [rem_add, hrem2]
    simp
  have heos : Scanner.eos ⟨t, 0⟩ = false := by simp [Scanner.eos, hrem0]
  have hscanU : scanUntilLit ('{' :: ['{']) ⟨t, 0⟩ = ([], ⟨t, 0⟩) := by
    have := scanUntilLit_clean '{' ['{'] t 0 [] n (by rw [hrem0]; rfl)
      (by intro c hc; cases hc)
    simpa using this
  have hwsn : wsRunLen n = 0 := by
    cases n with
    | nil => rfl
    | cons c cs => exact wsRunLen_cons_not _ _ (alpha_not_ws c (hn c (by simp)))
  have hscanL : scanLitWs ('{' :: ['{']) ⟨t, 0⟩ = ('{' :: ['{'], ⟨t, 2⟩) :=
    scanLitWs_at _ t 0 n (by rw [hrem0]; rfl) hwsn
  have hscanT : scanTagType ⟨t, 2⟩ = (none, ⟨t, 2⟩) := by
    cases hn2 : n with
    | nil =>
      rw [hn2] at hrem2
      simp [scanTagType, hrem2]
    | cons c cs =>
      rw [hn2] at hrem2
      exact scanTagType_name t 2 c cs hrem2
        (alpha_not_tagChar c (hn c (by rw [hn2]; simp)))
  have hwhite : scanWhite ⟨t, 2⟩ = ⟨t, 2⟩ := scanWhite_zero t 2 (by rw [hrem2]; exact hwsn)
  have hscanV : scanUntilWsL ('}' :: ['}']) ⟨t, 2⟩ = (n, ⟨t, 2 + n.length⟩) :=
    scanUntilWsL_all '}' ['}'] t 2 n hrem2 (alpha_clean_name n hn)
  have hclosefail : scanWsL ('}' :: ['}']) ⟨t, 2 + n.length⟩ = ([], ⟨t, 2 + n.length⟩) :=
    scanWsL_nil _ t _ (by simp) hrem3
  have hstep : parseStep { otag := "\x7b\x7b".toList, ctag := "\x7d\x7d".toList } ⟨t, 0⟩ =
      .error (.unclosedTag (2 + n.length)) := by
    simp [parseStep, heos, hscanU, hscanL, hscanT, hwhite, hscanV, handleTag, hclosefail,
      processText]
  refine parseTemplate_err t (by rw [ht_def]; simp) _ ?_
  rw [parseLoop_succ, hstep]

/-- A close tag with no open section: `Unopened section`. -/
theorem parse_unopened_section (v : Str) (hv : alphaOf v) :
    parseTemplate ('{' :: '{' :: '/' :: (v ++ '}' :: '}' :: [])) none =
      .error (.unopenedSection v 0) := by
  set t : Str := '{' :: '{' :: '/' :: (v ++ '}' :: '}' :: []) with ht_def
  have hrem0 : Scanner.rem ⟨t, 0⟩ = [] ++ '{' :: '{' :: '/' :: (v ++ '}' :: '}' :: []) := by
    simp [Scanner.rem, ht_def]
  have hrem2 : Scanner.rem ⟨t, 2 + 1 + v.length⟩ = '}' :: '}' :: [] := by
    rw [show 2 + 1 + v.length = 0 + (3 + v.length) by omega, rem_add, hrem0]
    rw [show ([] : Str) ++ '{' :: '{' :: '/' :: (v ++ '}' :: '}' :: [])
        = (('{' :: '{' :: '/' :: v) ++ ('}' :: '}' :: [])) by simp]
    exact List.drop_left' (by simp; omega)
  have hstep1 := parseStep_tag { otag := "\x7b\x7b".toList, ctag := "\x7d\x7d".toList } t 0 [] '/'
    v [] rfl rfl hrem0 (by intro c hc; cases hc) (by decide) (by decide) (by decide)
    (by decide) (alpha_clean_name v hv)
  simp only [List.length_nil, Nat.add_zero, Nat.zero_add] at hstep1
  have hclose : scanWsL ['}', '}'] ⟨t, 2 + 1 + v.length⟩ =
      (['}', '}'], ⟨t, 2 + 1 + v.length + 2⟩) := scanClose_at t _ [] hrem2
  rw [show (handleTag { processText { otag := "\x7b\x7b".toList, ctag := "\x7d\x7d".toList } [] 0
        with hasTag := true }
      ⟨t, 2 + 1 + v.length⟩ "/" v 0) = .error (.unopenedSection v 0) from by
    simp [handleTag, hclose, processText]] at hstep1
  refine parseTemplate_err t (by rw [ht_def]; simp) _ ?_
  rw [parseLoop_succ, hstep1]

/-- A close tag naming a different section than the innermost open one:
`Unclosed section` at the close tag's start. -/
theorem parse_mismatched_section (x y : Str) (hx : alphaOf x) (hy : alphaOf y)
    (hxy : x ≠ y) :
    parseTemplate ('{' :: '{' :: '#' :: (x ++ '}' :: '}' ::
        ('{' :: '{' :: '/' :: (y ++ '}' :: '}' :: [])))) none =
      .error (.unclosedSection x (2 + 1 + x.length + 2)) := by
  set t : Str := '{' :: '{' :: '#' :: (x ++ '}' :: '}' ::
      ('{' :: '{' :: '/' :: (y ++ '}' :: '}' :: []))) with ht_def
  have hrem0 : Scanner.rem ⟨t, 0⟩ = [] ++ '{' :: '{' :: '#' :: (x ++ '}' :: '}' ::
      ('{' :: '{' :: '/' :: (y ++ '}' :: '}' :: []))) := by
    simp [Scanner.rem, ht_def]
  have hremQ : Scanner.rem ⟨t, 2 + 1 + x.length + 2⟩ =
      [] ++ '{' :: '{' :: '/' :: (y ++ '}' :: '}' :: []) := by
    rw [show 2 + 1 + x.length + 2 = 0 + (x.length + 5) by omega, rem_add, hrem0]
    rw [show ([] : Str) ++ '{' :: '{' :: '#' :: (x ++ '}' :: '}' ::
          ('{' :: '{' :: '/' :: (y ++ '}' :: '}' :: [])))
        = (('{' :: '{' :: '#' :: x) ++ ('}' :: '}' :: []))
          ++ ('{' :: '{' :: '/' :: (y ++ '}' :: '}' :: [])) by simp]
    rw [show ([] : Str) ++ '{' :: '{' :: '/' :: (y ++ '}' :: '}' :: [])
        = '{' :: '{' :: '/' :: (y ++ '}' :: '}' :: []) by simp]
    exact List.drop_left' (by simp)
  have hremC : Scanner.rem ⟨t, 2 + 1 + x.length + 2 + 2 + 1 + y.length⟩ =
      '}' :: '}' :: [] := by
    rw [show 2 + 1 + x.length + 2 + 2 + 1 + y.length
        = (2 + 1 + x.length + 2) + (3 + y.length) by omega, rem_add, hremQ]
    rw [show ([] : Str) ++ '{' :: '{' :: '/' :: (y ++ '}' :: '}' :: [])
        = (('{' :: '{' :: '/' :: y) ++ ('}' :: '}' :: [])) by simp]
    exact List.drop_left' (by simp; omega)
  have hstep1 := parseStep_tag { otag := "\x7b\x7b".toList, ctag := "\x7d\x7d".toList } t 0 [] '#'
    x ('{' :: '{' :: '/' :: (y ++ '}' :: '}' :: [])) rfl rfl hrem0
    (by intro c hc; cases hc) (by decide) (by decide) (by decide) (by decide)
    (alpha_clean_name x hx)
  simp only [List.length_nil, Nat.add_zero, Nat.zero_add] at hstep1
  have hclose1 : scanWsL ['}', '}'] ⟨t, 2 + 1 + x.length⟩ =
      (['}', '}'], ⟨t, 2 + 1 + x.length + 2⟩) := by
    refine scanClose_at t _ ('{' :: '{' :: '/' :: (y ++ '}' :: '}' :: [])) ?_
    rw [show 2 + 1 + x.length = 0 + (3 + x.length) by omega, rem_add, hrem0]
    rw [show ([] : Str) ++ '{' :: '{' :: '#' :: (x ++ '}' :: '}' ::
          ('{' :: '{' :: '/' :: (y ++ '}' :: '}' :: [])))
        = (('{' :: '{' :: '#' :: x) ++ ('}' :: '}' ::
          ('{' :: '{' :: '/' :: (y ++ '}' :: '}' :: [])))) by simp]
    exact List.drop_left' (by simp; omega)
  rw [show (handleTag { processText { otag := "\x7b\x7b".toList, ctag := "\x7d\x7d".toList } [] 0
        with hasTag := true }
      ⟨t, 2 + 1 + x.length⟩ "#" x 0) =
    .ok (({ tokens := [some ⟨"#", x, 0, 2 + 1 + x.length + 2, [], 0, false⟩],
            spaces := [],
            sections := [⟨"#", x, 0, 2 + 1 + x.length + 2, [], 0, false⟩],
            hasTag := true, nonSpace := false, indentation := [], tagIndex := 1,
            lineHasNonSpace := false, otag := "\x7b\x7b".toList,
            ctag := "\x7d\x7d".toList } : PState),
          (⟨t, 2 + 1 + x.length + 2⟩ : Scanner)) from by
    simp [handleTag, hclose1, processText]] at hstep1
  dsimp only at hstep1
  have hstep2 := parseStep_tag
    ({ tokens := [some ⟨"#", x, 0, 2 + 1 + x.length + 2, [], 0, false⟩],
       spaces := [],
       sections := [⟨"#", x, 0, 2 + 1 + x.length + 2, [], 0, false⟩],
       hasTag := true, nonSpace := false, indentation := [], tagIndex := 1,
       lineHasNonSpace := false, otag := "\x7b\x7b".toList,
       ctag := "\x7d\x7d".toList } : PState)
    t (2 + 1 + x.length + 2) [] '/' y [] rfl rfl hremQ (by intro c hc; cases hc)
    (by decide) (by decide) (by decide) (by decide) (alpha_clean_name y hy)
  simp only [List.length_nil, Nat.add_zero, Nat.zero_add] at hstep2
  have hclose2 : scanWsL ['}', '}'] ⟨t, 2 + 1 + x.length + 2 + 2 + 1 + y.length⟩ =
      (['}', '}'], ⟨t, 2 + 1 + x.length + 2 + 2 + 1 + y.length + 2⟩) :=
    scanClose_at t _ [] hremC
  rw [show (handleTag { processText
        ({ tokens := [some ⟨"#", x, 0, 2 + 1 + x.length + 2, [], 0, false⟩],
           spaces := [],
           sections := [⟨"#", x, 0, 2 + 1 + x.length + 2, [], 0, false⟩],
           hasTag := true, nonSpace := false, indentation := [], tagIndex := 1,
           lineHasNonSpace := false, otag := "\x7b\x7b".toList,
           ctag := "\x7d\x7d".toList } : PState) [] (2 + 1 + x.length + 2)
        with hasTag := true }
      ⟨t, 2 + 1 + x.length + 2 + 2 + 1 + y.length⟩ "/" y (2 + 1 + x.length + 2)) =
    .error (.unclosedSection x (2 + 1 + x.length + 2)) from by
    simp [handleTag, hclose2, processText, hxy]] at hstep2
  refine parseTemplate_err t (by rw [ht_def]; simp) _ ?_
  rw [parseLoop_succ, hstep1]
  dsimp only
  obtain ⟨k, hk⟩ : ∃ k, t.length = k + 1 := by
    refine ⟨t.length - 1, ?_⟩
    rw [ht_def]
    simp
  rw [hk, parseLoop_succ, hstep2]

/-- A section still open at the end of input: `Unclosed section` at the
final scanner position. -/
theorem parse_unclosed_eof (x : Str) (hx : alphaOf x) :
    parseTemplate ('{' :: '{' :: '#' :: (x ++ '}' :: '}' :: [])) none =
      .error (.unclosedSection x (2 + 1 + x.length + 2)) := by
  set t : Str := '{' :: '{' :: '#' :: (x ++ '}' :: '}' :: []) with ht_def
  have hrem0 : Scanner.rem ⟨t, 0⟩ = [] ++ '{' :: '{' :: '#' :: (x ++ '}' :: '}' :: []) := by
    simp [Scanner.rem, ht_def]
  have hrem2 : Scanner.rem ⟨t, 2 + 1 + x.length⟩ = '}' :: '}' :: [] := by
    rw [show 2 + 1 + x.length = 0 + (3 + x.length) by omega, rem_add, hrem0]
    rw [show ([] : Str) ++ '{' :: '{' :: '#' :: (x ++ '}' :: '}' :: [])
        = (('{' :: '{' :: '#' :: x) ++ ('}' :: '}' :: [])) by simp]
    exact List.drop_left' (by simp; omega)
  have hremQ : Scanner.rem ⟨t, 2 + 1 + x.length + 2⟩ = [] := by
    rw [rem_add, hrem2]
    rfl
  have hstep1 := parseStep_tag { otag := "\x7b\x7b".toList, ctag := "\x7d\x7d".toList } t 0 [] '#'
    x [] rfl rfl hrem0 (by intro c hc; cases hc) (by decide) (by decide) (by decide)
    (by decide) (alpha_clean_name x hx)
  simp only [List.length_nil, Nat.add_zero, Nat.zero_add] at hstep1
  have hclose : scanWsL ['}', '}'] ⟨t, 2 + 1 + x.length⟩ =
      (['}', '}'], ⟨t, 2 + 1 + x.length + 2⟩) := scanClose_at t _ [] hrem2
  rw [show (handleTag { processText { otag := "\x7b\x7b".toList, ctag := "\x7d\x7d".toList } [] 0
        with hasTag := true }
      ⟨t, 2 + 1 + x.length⟩ "#" x 0) =
    .ok (({ tokens := [some ⟨"#", x, 0, 2 + 1 + x.length + 2, [], 0, false⟩],
            spaces := [],
            sections := [⟨"#", x, 0, 2 + 1 + x.length + 2, [], 0, false⟩],
            hasTag := true, nonSpace := false, indentation := [], tagIndex := 1,
            lineHasNonSpace := false, otag := "\x7b\x7b".toList,
            ctag := "\x7d\x7d".toList } : PState),
          (⟨t, 2 + 1 + x.length + 2⟩ : Scanner)) from by
    simp [handleTag, hclose, processText]] at hstep1
  dsimp only at hstep1
  have hstep2 := parseStep_break
    ({ tokens := [some ⟨"#", x, 0, 2 + 1 + x.length + 2, [], 0, false⟩],
       spaces := [],
       sections := [⟨"#", x, 0, 2 + 1 + x.length + 2, [], 0, false⟩],
       hasTag := true, nonSpace := false, indentation := [], tagIndex := 1,
       lineHasNonSpace := false, otag := "\x7b\x7b".toList,
       ctag := "\x7d\x7d".toList } : PState)
    t (2 + 1 + x.length + 2) [] rfl hremQ (by intro c hc; cases hc)
  simp only [List.length_nil, Nat.add_zero, processText] at hstep2
  have hloop2 : parseLoop 2 { otag := "\x7b\x7b".toList, ctag := "\x7d\x7d".toList } ⟨t, 0⟩ =
      .ok (({ tokens := [some ⟨"#", x, 0, 2 + 1 + x.length + 2, [], 0, false⟩],
              spaces := [],
              sections := [⟨"#", x, 0, 2 + 1 + x.length + 2, [], 0, false⟩],
              hasTag := true, nonSpace := false, indentation := [], tagIndex := 1,
              lineHasNonSpace := false, otag := "\x7b\x7b".toList,
              ctag := "\x7d\x7d".toList } : PState),
            (⟨t, 2 + 1 + x.length + 2⟩ : Scanner)) := by
    rw [show (2 : Nat) = 1 + 1 from rfl, parseLoop_succ, hstep1]
    dsimp only
    rw [show (1 : Nat) = 0 + 1 from rfl, parseLoop_succ, hstep2]
  have hfuel : parseLoop (t.length + 1) { otag := "\x7b\x7b".toList, ctag := "\x7d\x7d".toList }
      ⟨t, 0⟩ = parseLoop 2 { otag := "\x7b\x7b".toList, ctag := "\x7d\x7d".toList } ⟨t, 0⟩ := by
    refine parseLoop_mono 2 (t.length + 1) _ _ ?_ (by rw [hloop2]; simp)
    have : 1 ≤ t.length := by
      rw [ht_def]
      simp
    omega
  rw [parseTemplate_run t (by rw [ht_def]; simp) _ _ (by rw [hfuel, hloop2])]
  rw [stripSpace_delete _ rfl rfl]

/-- C9 counterexample: a one-element delimiter array is not a two-element
pair, yet a parse call on the empty template returns a (empty) token tree
instead of aborting — `if (!template) return []` runs before `compileTags`. -/
theorem c9_counterexample :
    (["x".toList] : List Str).length ≠ 2 ∧
    parseTemplate [] (some ["x".toList]) = .ok [] :=
  ⟨by decide, rfl⟩

/-- C9 amended: for parse calls on a NON-EMPTY template, each structural
violation — a delimiter set that is not a two-element pair, an unterminated
tag, a close tag with no open section, a close tag naming a different
section than the innermost open one, or a section still open at end of
input — aborts the parse with the corresponding error, and no token tree is
returned (the result is `.error`, which carries no tokens); an empty
template short-circuits to `[]` before the delimiters are validated. -/
theorem c9_parse_errors :
    (∀ tags : List Str, parseTemplate [] (some tags) = .ok []) ∧
    (∀ (t : Str) (tags : List Str), t ≠ [] → tags.length ≠ 2 →
      parseTemplate t (some tags) = .error .invalidTags) ∧
    (∀ n : Str, alphaOf n →
      parseTemplate ('{' :: '{' :: n) none = .error (.unclosedTag (2 + n.length))) ∧
    (∀ v : Str, alphaOf v →
      parseTemplate ('{' :: '{' :: '/' :: (v ++ '}' :: '}' :: [])) none =
        .error (.unopenedSection v 0)) ∧
    (∀ x y : Str, alphaOf x → alphaOf y → x ≠ y →
      parseTemplate ('{' :: '{' :: '#' :: (x ++ '}' :: '}' ::
          ('{' :: '{' :: '/' :: (y ++ '}' :: '}' :: [])))) none =
        .error (.unclosedSection x (2 + 1 + x.length + 2))) ∧
    (∀ x : Str, alphaOf x →
      parseTemplate ('{' :: '{' :: '#' :: (x ++ '}' :: '}' :: [])) none =
        .error (.unclosedSection x (2 + 1 + x.length + 2))) :=
  ⟨fun _ => rfl, fun t tags ht h2 => parse_invalid_tags t ht tags h2,
   parse_unclosed_tag, parse_unopened_section, parse_mismatched_section,
   parse_unclosed_eof⟩

/-- Witness for the amended C9 at concrete inputs. -/
theorem c9_parse_errors_witness :
    (parseTemplate [] (some ["x".toList]) = .ok []) ∧
    (parseTemplate ['y'] (some []) = .error .invalidTags) ∧
    (parseTemplate "\x7b\x7ba".toList none = .error (.unclosedTag 3)) ∧
    (parseTemplate "\x7b\x7b/a\x7d\x7d".toList none = .error (.unopenedSection ['a'] 0)) ∧
    (parseTemplate "\x7b\x7b#a\x7d\x7d\x7b\x7b/b\x7d\x7d".toList none =
      .error (.unclosedSection ['a'] 6)) ∧
    (parseTemplate "\x7b\x7b#a\x7d\x7d".toList none = .error (.unclosedSection ['a'] 6)) :=
  ⟨c9_parse_errors.1 ["x".toList],
   c9_parse_errors.2.1 ['y'] [] (by decide) (by decide),
   c9_parse_errors.2.2.1 ['a'] (by unfold alphaOf; decide),
   c9_parse_errors.2.2.2.1 ['a'] (by unfold alphaOf; decide),
   c9_parse_errors.2.2.2.2.1 ['a'] ['b'] (by unfold alphaOf; decide)
     (by unfold alphaOf; decide) (by decide),
   c9_parse_errors.2.2.2.2.2 ['a'] (by unfold alphaOf; decide)⟩

/-! ## C3 — the raw text handed to a lambda section -/

/-- Entries of the token buffer within a pure-text region: deleted, or a
one-character text token. -/
def textOptP (o : Option PFlat) : Prop :=
  o = none ∨ ∃ ch st, o = some ⟨"text", [ch], st, st + 1, [], 0, false⟩

theorem textOptP_none : textOptP none := Or.inl rfl

theorem set_append_right_none (rest : List (Option PFlat)) :
    ∀ (pre : List (Option PFlat)) (i : Nat), pre.length ≤ i →
    (pre ++ rest).set i none = pre ++ rest.set (i - pre.length) none := by
  intro pre
  induction pre with
  | nil => intro i h; simp
  | cons p ps ih =>
    intro i h
    cases i with
    | zero => simp at h
    | succ j =>
      simp only [List.cons_append, List.set, List.append_eq]
      rw [ih j (by simpa using h)]
      simp only [List.length_cons]
      rw [show j + 1 - (ps.length + 1) = j - ps.length by omega]

theorem set_append_left_none (post : List (Option PFlat)) :
    ∀ (mid : List (Option PFlat)) (j : Nat), j < mid.length →
    (mid ++ post).set j none = mid.set j none ++ post := by
  intro mid
  induction mid with
  | nil => intro j h; simp at h
  | cons m ms ih =>
    intro j h
    cases j with
    | zero => simp [List.set]
    | succ j' =>
      simp only [List.cons_append, List.set, List.append_eq]
      rw [ih j' (by simpa using h)]

/-- Deleting any set of indices that all fall inside the middle region keeps
the outer regions intact and only blanks middle entries. -/
theorem foldl_delete_mid (sp : List Nat) :
    ∀ (pre mid post : List (Option PFlat)),
    (∀ i ∈ sp, pre.length ≤ i ∧ i < pre.length + mid.length) →
    ∃ mid2 : List (Option PFlat), mid2.length = mid.length ∧
      (∀ o ∈ mid2, o = none ∨ o ∈ mid) ∧
      sp.foldl deleteTok (pre ++ (mid ++ post)) = pre ++ (mid2 ++ post) := by
  induction sp with
  | nil =>
    intro pre mid post _
    exact ⟨mid, rfl, fun o ho => Or.inr ho, rfl⟩
  | cons i sp' ih =>
    intro pre mid post hb
    have hi := hb i (by simp)
    have hstep : deleteTok (pre ++ (mid ++ post)) i =
        pre ++ (mid.set (i - pre.length) none ++ post) := by
      rw [deleteTok, set_append_right_none _ pre i hi.1,
        set_append_left_none post mid (i - pre.length) (by omega)]
    have hb' : ∀ j ∈ sp', pre.length ≤ j ∧
        j < pre.length + (mid.set (i - pre.length) none).length := by
      intro j hj
      have := hb j (by simp [hj])
      simpa using this
    obtain ⟨mid2, hlen, hmem, heq⟩ := ih pre (mid.set (i - pre.length) none) post hb'
    refine ⟨mid2, by simpa using hlen, ?_, ?_⟩
    · intro o ho
      rcases hmem o ho with h | h
      · exact Or.inl h
      · rcases List.mem_or_eq_of_mem_set h with h2 | h2
        · exact Or.inr h2
        · exact Or.inl h2
    · rw [List.foldl_cons, hstep, heq]

/-- The invariant `processText` maintains over the token buffer: a protected
prefix of length `k`, all later entries pure text (or deleted), and all
recorded whitespace indices inside the text region. -/
def shapeInv (k : Nat) (st : PState) : Prop :=
  k ≤ st.tokens.length ∧
  (∀ i ∈ st.spaces, k ≤ i ∧ i < st.tokens.length) ∧
  (∀ o ∈ st.tokens.drop k, textOptP o)

theorem stripSpace_shape (st : PState) (k : Nat) (h : shapeInv k st) :
    shapeInv k (stripSpace st) ∧ (stripSpace st).tokens.take k = st.tokens.take k := by
  obtain ⟨hk, hsp, htx⟩ := h
  have hlenpre : (st.tokens.take k).length = k := by rw [List.length_take]; omega
  rw [stripSpace]
  split
  · obtain ⟨mid2, hlen, hmem, heq⟩ := foldl_delete_mid st.spaces (st.tokens.take k)
      (st.tokens.drop k) []
      (by
        intro i hi
        have h1 := hsp i hi
        constructor
        · rw [hlenpre]
          exact h1.1
        · rw [hlenpre, List.length_drop]
          omega)
    rw [List.append_nil] at heq
    have heq2 : st.spaces.foldl deleteTok st.tokens = st.tokens.take k ++ mid2 := by
      conv_lhs => rw [show st.tokens = st.tokens.take k ++ st.tokens.drop k from
        (List.take_append_drop k st.tokens).symm]
      rw [heq, List.append_nil]
    dsimp only
    rw [heq2]
    rw [List.length_drop] at hlen
    refine ⟨⟨?_, ?_, ?_⟩, ?_⟩
    · simp only [List.length_append, hlenpre]
      omega
    · intro i hi
      simp at hi
    · intro o ho
      rw [List.drop_append_of_le_length (le_of_eq hlenpre.symm)] at ho
      rw [show (st.tokens.take k).drop k = [] from
        List.drop_eq_nil_of_le (le_of_eq hlenpre)] at ho
      simp only [List.nil_append] at ho
      rcases hmem o ho with h | h
      · exact Or.inl h
      · exact htx o h
    · rw [List.take_append_of_le_length (le_of_eq hlenpre.symm)]
      rw [List.take_take]
      simp
  · exact ⟨⟨hk, by simp, htx⟩, rfl⟩


theorem pushTextChar_shape (st : PState) (c : Char) (p k : Nat) (h : shapeInv k st) :
    shapeInv k (pushTextChar st c p) ∧
    (pushTextChar st c p).tokens.take k = st.tokens.take k := by
  obtain ⟨hk, hsp, htx⟩ := h
  have hstep : ∀ (st₁ : PState), st₁.tokens = st.tokens →
      (∀ i ∈ st₁.spaces, k ≤ i ∧ i ≤ st.tokens.length) →
      shapeInv k { st₁ with
        tokens := st₁.tokens ++ [some ⟨"text", [c], p, p + 1, [], 0, false⟩] } ∧
      ({ st₁ with tokens := st₁.tokens ++ [some ⟨"text", [c], p, p + 1, [], 0,
        false⟩] } : PState).tokens.take k = st.tokens.take k := by
    intro st₁ htok hsp1
    refine ⟨⟨?_, ?_, ?_⟩, ?_⟩
    · dsimp only
      rw [htok]
      simp only [List.length_append, List.length_cons, List.length_nil]
      omega
    · dsimp only
      intro i hi
      have := hsp1 i hi
      rw [htok]
      simp only [List.length_append, List.length_cons, List.length_nil]
      omega
    · dsimp only
      rw [htok]
      intro o ho
      rw [List.drop_append_of_le_length hk] at ho
      rcases List.mem_append.mp ho with h1 | h1
      · exact htx o h1
      · rw [List.mem_singleton.mp h1]
        exact Or.inr ⟨c, p, rfl⟩
    · dsimp only
      rw [htok, List.take_append_of_le_length hk]
  simp only [pushTextChar]
  by_cases hws : isWs c
  · rw [if_pos hws]
    obtain ⟨hinv, htake⟩ := hstep
      { st with spaces := st.spaces ++ [st.tokens.length],
                indentation := st.indentation ++ [c] } rfl
      (by
        intro i hi
        rcases List.mem_append.mp hi with h1 | h1
        · have := hsp i h1
          exact ⟨this.1, by omega⟩
        · rw [List.mem_singleton.mp h1]
          exact ⟨hk, le_refl _⟩)
    by_cases hnl : c = '\n'
    · rw [if_pos hnl]
      have h2 := stripSpace_shape _ k hinv
      exact ⟨h2.1, h2.2.trans htake⟩
    · rw [if_neg hnl]
      exact ⟨hinv, htake⟩
  · rw [if_neg hws]
    obtain ⟨hinv, htake⟩ := hstep
      { st with nonSpace := true, lineHasNonSpace := true,
                indentation := st.indentation ++ [' '] } rfl
      (by
        intro i hi
        have := hsp i hi
        exact ⟨this.1, by omega⟩)
    by_cases hnl : c = '\n'
    · rw [if_pos hnl]
      have h2 := stripSpace_shape _ k hinv
      exact ⟨h2.1, h2.2.trans htake⟩
    · rw [if_neg hnl]
      exact ⟨hinv, htake⟩

theorem processText_shape (text : Str) : ∀ (st : PState) (p k : Nat), shapeInv k st →
    shapeInv k (processText st text p) ∧
    (processText st text p).tokens.take k = st.tokens.take k := by
  induction text with
  | nil =>
    intro st p k h
    exact ⟨h, rfl⟩
  | cons c cs ih =>
    intro st p k h
    simp only [processText]
    obtain ⟨h1, ht1⟩ := pushTextChar_shape st c p k h
    obtain ⟨h2, ht2⟩ := ih (pushTextChar st c p) (p + 1) k h1
    exact ⟨h2, ht2.trans ht1⟩

theorem squashGo_push_over (t : PFlat) (r : List (Option PFlat)) (last : PFlat)
    (rest : List PFlat) (h : ¬ last.ty = "text") :
    squashGo (some t :: r) (last :: rest) = squashGo r (t :: last :: rest) := by
  simp only [squashGo]
  rw [if_neg (fun hcon => h hcon.2)]

/-- Squashing a pure-text region leaves any accumulator below its top intact
and contributes only text tokens. -/
theorem squashGo_textish (l : List (Option PFlat)) (hl : ∀ o ∈ l, textOptP o) :
    ∀ (mid0 base : List PFlat) (r : List (Option PFlat)),
      (∀ f ∈ mid0, f.ty = "text") →
      (∀ f ∈ base.take 1, ¬ f.ty = "text") →
      ∃ mid, (∀ f ∈ mid, f.ty = "text") ∧
        squashGo (l ++ r) (mid0 ++ base) = squashGo r (mid ++ base) := by
  induction l with
  | nil =>
    intro mid0 base r hm _
    exact ⟨mid0, hm, rfl⟩
  | cons o l' ih =>
    intro mid0 base r hm hb
    have hl' : ∀ x ∈ l', textOptP x := fun x hx => hl x (by simp [hx])
    rcases hl o (by simp) with rfl | ⟨ch, s0, rfl⟩
    · rw [List.cons_append, squashGo_none]
      exact ih hl' mid0 base r hm hb
    · cases mid0 with
      | cons m ms =>
        rw [List.cons_append, List.cons_append]
        rw [show squashGo (some ⟨"text", [ch], s0, s0 + 1, [], 0, false⟩ :: (l' ++ r))
              (m :: (ms ++ base))
            = squashGo (l' ++ r)
              ({ m with val := m.val ++ [ch], te := s0 + 1 } :: (ms ++ base)) from by
          simp only [squashGo]
          rw [if_pos ⟨trivial, hm m (by simp)⟩]]
        obtain ⟨mid, hmid, heq⟩ := ih hl'
          ({ m with val := m.val ++ [ch], te := s0 + 1 } :: ms) base r
          (by
            intro f hf
            rcases List.mem_cons.mp hf with rfl | hf2
            · exact hm m (by simp)
            · exact hm f (by simp [hf2]))
          hb
        rw [List.cons_append] at heq
        exact ⟨mid, hmid, heq⟩
      | nil =>
        cases base with
        | nil =>
          rw [List.cons_append, List.nil_append, squashGo_first]
          obtain ⟨mid, hmid, heq⟩ := ih hl'
            [⟨"text", [ch], s0, s0 + 1, [], 0, false⟩] [] r
            (by
              intro f hf
              rw [List.mem_singleton.mp hf])
            (by intro f hf; cases hf)
          simp only [List.append_nil] at heq
          exact ⟨mid, hmid, by simpa using heq⟩
        | cons b bs =>
          rw [List.cons_append, List.nil_append,
            squashGo_push_over _ _ b bs (hb b (by simp))]
          obtain ⟨mid, hmid, heq⟩ := ih hl'
            [⟨"text", [ch], s0, s0 + 1, [], 0, false⟩] (b :: bs) r
            (by
              intro f hf
              rw [List.mem_singleton.mp hf])
            hb
          simp only [List.singleton_append] at heq
          exact ⟨mid, hmid, heq⟩

/-- Nesting a run of text tokens appends them, as flats, to the current
collector. -/
theorem nestGo_texts (mid : List PFlat) (hmid : ∀ f ∈ mid, f.ty = "text") :
    ∀ (r : List PFlat) (stack : List (PFlat × List Tok)) (cur : List Tok),
      nestGo (mid ++ r) stack cur = nestGo r stack (cur ++ mid.map Tok.flat) := by
  induction mid with
  | nil =>
    intro r stack cur
    simp
  | cons m ms ih =>
    intro r stack cur
    have hm := hmid m (by simp)
    rw [List.cons_append]
    rw [show nestGo (m :: (ms ++ r)) stack cur
        = nestGo (ms ++ r) stack (cur ++ [Tok.flat m]) from by
      simp only [nestGo]
      rw [if_neg (by rw [hm]; decide), if_neg (by rw [hm]; decide)]]
    rw [ih (fun x hx => hmid x (by simp [hx])) r stack (cur ++ [Tok.flat m])]
    simp

/-- Parsing a lambda-section template: the section token records the exact
template offsets of the inner text, whatever the parser did to the inner
text tokens themselves. -/
theorem parse_lambda_section (n inner : Str) (hn : alphaOf n)
    (hin : ∀ c ∈ inner, c ≠ '{') :
    ∃ ch : List Tok,
      parseTemplate ('{' :: '{' :: '#' :: (n ++ '}' :: '}' ::
          (inner ++ '{' :: '{' :: '/' :: (n ++ '}' :: '}' :: [])))) none =
        .ok [.sec "#" n 0 (2 + 1 + n.length + 2) ch
          (2 + 1 + n.length + 2 + inner.length)] := by
  set t : Str := '{' :: '{' :: '#' :: (n ++ '}' :: '}' ::
      (inner ++ '{' :: '{' :: '/' :: (n ++ '}' :: '}' :: []))) with ht_def
  have hrem0 : Scanner.rem ⟨t, 0⟩ = [] ++ '{' :: '{' :: '#' :: (n ++ '}' :: '}' ::
      (inner ++ '{' :: '{' :: '/' :: (n ++ '}' :: '}' :: []))) := by
    simp [Scanner.rem, ht_def]
  have hrem2 : Scanner.rem ⟨t, 2 + 1 + n.length⟩ = '}' :: '}' ::
      (inner ++ '{' :: '{' :: '/' :: (n ++ '}' :: '}' :: [])) := by
    rw [show 2 + 1 + n.length = 0 + (3 + n.length) by omega, rem_add, hrem0]
    rw [show ([] : Str) ++ '{' :: '{' :: '#' :: (n ++ '}' :: '}' ::
          (inner ++ '{' :: '{' :: '/' :: (n ++ '}' :: '}' :: [])))
        = (('{' :: '{' :: '#' :: n) ++ ('}' :: '}' ::
          (inner ++ '{' :: '{' :: '/' :: (n ++ '}' :: '}' :: [])))) by simp]
    exact List.drop_left' (by simp; omega)
  have hremQ : Scanner.rem ⟨t, 2 + 1 + n.length + 2⟩ =
      inner ++ '{' :: '{' :: '/' :: (n ++ '}' :: '}' :: []) := by
    rw [rem_add, hrem2]
    rfl
  have hremA : Scanner.rem ⟨t, 2 + 1 + n.length + 2 + inner.length⟩ =
      '{' :: '{' :: '/' :: (n ++ '}' :: '}' :: []) := by
    rw [rem_add, hremQ]
    exact List.drop_left inner _
  have hremB : Scanner.rem ⟨t, 2 + 1 + n.length + 2 + inner.length + 3⟩ =
      n ++ '}' :: '}' :: [] := by
    rw [rem_add, hremA]
    rfl
  have hremC : Scanner.rem ⟨t, 2 + 1 + n.length + 2 + inner.length + 2 + 1 + n.length⟩ =
      '}' :: '}' :: [] := by
    rw [show 2 + 1 + n.length + 2 + inner.length + 2 + 1 + n.length
        = (2 + 1 + n.length + 2 + inner.length + 3) + n.length by omega, rem_add, hremB]
    exact List.drop_left n _
  have hremR : Scanner.rem
      ⟨t, 2 + 1 + n.length + 2 + inner.length + 2 + 1 + n.length + 2⟩ = [] := by
    rw [rem_add, hremC]
    rfl
  have hstep1 := parseStep_tag { otag := "\x7b\x7b".toList, ctag := "\x7d\x7d".toList } t 0 [] '#'
    n (inner ++ '{' :: '{' :: '/' :: (n ++ '}' :: '}' :: [])) rfl rfl hrem0
    (by intro c hc; cases hc) (by decide) (by decide) (by decide) (by decide)
    (alpha_clean_name n hn)
  simp only [List.length_nil, Nat.add_zero, Nat.zero_add] at hstep1
  have hclose1 : scanWsL ['}', '}'] ⟨t, 2 + 1 + n.length⟩ =
      (['}', '}'], ⟨t, 2 + 1 + n.length + 2⟩) :=
    scanClose_at t _ (inner ++ '{' :: '{' :: '/' :: (n ++ '}' :: '}' :: [])) hrem2
  rw [show (handleTag { processText { otag := "\x7b\x7b".toList, ctag := "\x7d\x7d".toList } [] 0
        with hasTag := true }
      ⟨t, 2 + 1 + n.length⟩ "#" n 0) =
    .ok (({ tokens := [some ⟨"#", n, 0, 2 + 1 + n.length + 2, [], 0, false⟩],
            spaces := [],
            sections := [⟨"#", n, 0, 2 + 1 + n.length + 2, [], 0, false⟩],
            hasTag := true, nonSpace := false, indentation := [], tagIndex := 1,
            lineHasNonSpace := false, otag := "\x7b\x7b".toList,
            ctag := "\x7d\x7d".toList } : PState),
          (⟨t, 2 + 1 + n.length + 2⟩ : Scanner)) from by
    simp [handleTag, hclose1, processText]] at hstep1
  dsimp only at hstep1
  have hstep2 := parseStep_tag
    ({ tokens := [some ⟨"#", n, 0, 2 + 1 + n.length + 2, [], 0, false⟩],
       spaces := [],
       sections := [⟨"#", n, 0, 2 + 1 + n.length + 2, [], 0, false⟩],
       hasTag := true, nonSpace := false, indentation := [], tagIndex := 1,
       lineHasNonSpace := false, otag := "\x7b\x7b".toList,
       ctag := "\x7d\x7d".toList } : PState)
    t (2 + 1 + n.length + 2) inner '/' n [] rfl rfl hremQ hin
    (by decide) (by decide) (by decide) (by decide) (alpha_clean_name n hn)
  have hshape := processText_shape inner
    ({ tokens := [some ⟨"#", n, 0, 2 + 1 + n.length + 2, [], 0, false⟩],
       spaces := [],
       sections := [⟨"#", n, 0, 2 + 1 + n.length + 2, [], 0, false⟩],
       hasTag := true, nonSpace := false, indentation := [], tagIndex := 1,
       lineHasNonSpace := false, otag := "\x7b\x7b".toList,
       ctag := "\x7d\x7d".toList } : PState)
    (2 + 1 + n.length + 2) 1 ⟨by simp, by simp, by simp⟩
  have hkeeps := processText_keeps inner
    ({ tokens := [some ⟨"#", n, 0, 2 + 1 + n.length + 2, [], 0, false⟩],
       spaces := [],
       sections := [⟨"#", n, 0, 2 + 1 + n.length + 2, [], 0, false⟩],
       hasTag := true, nonSpace := false, indentation := [], tagIndex := 1,
       lineHasNonSpace := false, otag := "\x7b\x7b".toList,
       ctag := "\x7d\x7d".toList } : PState)
    (2 + 1 + n.length + 2)
  set stP : PState := processText
    ({ tokens := [some ⟨"#", n, 0, 2 + 1 + n.length + 2, [], 0, false⟩],
       spaces := [],
       sections := [⟨"#", n, 0, 2 + 1 + n.length + 2, [], 0, false⟩],
       hasTag := true, nonSpace := false, indentation := [], tagIndex := 1,
       lineHasNonSpace := false, otag := "\x7b\x7b".toList,
       ctag := "\x7d\x7d".toList } : PState)
    inner (2 + 1 + n.length + 2) with hstPdef
  have hclose2 : scanWsL ['}', '}']
      ⟨t, 2 + 1 + n.length + 2 + inner.length + 2 + 1 + n.length⟩ =
      (['}', '}'],
        ⟨t, 2 + 1 + n.length + 2 + inner.length + 2 + 1 + n.length + 2⟩) :=
    scanClose_at t _ [] hremC
  have hctagP : stP.ctag = ('}' :: ['}'] : Str) := hkeeps.2.1
  have hsecP : stP.sections = [⟨"#", n, 0, 2 + 1 + n.length + 2, [], 0, false⟩] :=
    hkeeps.2.2
  rw [show (handleTag { stP with hasTag := true }
      ⟨t, 2 + 1 + n.length + 2 + inner.length + 2 + 1 + n.length⟩ "/" n
      (2 + 1 + n.length + 2 + inner.length)) =
    .ok (({ stP with
            hasTag := true,
            tokens := stP.tokens ++
              [some ⟨"/", n, 2 + 1 + n.length + 2 + inner.length,
                2 + 1 + n.length + 2 + inner.length + 2 + 1 + n.length + 2, [], 0, false⟩],
            tagIndex := stP.tagIndex + 1, sections := [] } : PState),
          (⟨t, 2 + 1 + n.length + 2 + inner.length + 2 + 1 + n.length + 2⟩ : Scanner))
    from by
    simp only [handleTag]
    rw [show ({ stP with hasTag := true } : PState).ctag = ('}' :: ['}'] : Str) from hctagP]
    rw [hclose2]
    simp only [List.isEmpty_cons, Bool.false_eq_true, if_false]
    rw [show ({ stP with hasTag := true } : PState).sections =
      [⟨"#", n, 0, 2 + 1 + n.length + 2, [], 0, false⟩] from hsecP]
    simp] at hstep2
  dsimp only at hstep2
  have hstep3 := parseStep_break
    ({ stP with
       hasTag := true,
       tokens := stP.tokens ++
         [some ⟨"/", n, 2 + 1 + n.length + 2 + inner.length,
           2 + 1 + n.length + 2 + inner.length + 2 + 1 + n.length + 2, [], 0, false⟩],
       tagIndex := stP.tagIndex + 1, sections := [] } : PState)
    t (2 + 1 + n.length + 2 + inner.length + 2 + 1 + n.length + 2) []
    hkeeps.1 hremR (by intro c hc; cases hc)
  simp only [processText, List.length_nil, Nat.add_zero] at hstep3
  have hloop3 : parseLoop 3 { otag := "\x7b\x7b".toList, ctag := "\x7d\x7d".toList } ⟨t, 0⟩ =
      .ok (({ stP with
              hasTag := true,
              tokens := stP.tokens ++
                [some ⟨"/", n, 2 + 1 + n.length + 2 + inner.length,
                  2 + 1 + n.length + 2 + inner.length + 2 + 1 + n.length + 2, [], 0,
                  false⟩],
              tagIndex := stP.tagIndex + 1, sections := [] } : PState),
            (⟨t, 2 + 1 + n.length + 2 + inner.length + 2 + 1 + n.length + 2⟩ :
              Scanner)) := by
    rw [show (3 : Nat) = 2 + 1 from rfl, parseLoop_succ, hstep1]
    dsimp only
    rw [show (2 : Nat) = 1 + 1 from rfl, parseLoop_succ, hstep2]
    dsimp only
    rw [show (1 : Nat) = 0 + 1 from rfl, parseLoop_succ, hstep3]
  have hfuel : parseLoop (t.length + 1) { otag := "\x7b\x7b".toList, ctag := "\x7d\x7d".toList }
      ⟨t, 0⟩ = parseLoop 3 { otag := "\x7b\x7b".toList, ctag := "\x7d\x7d".toList } ⟨t, 0⟩ := by
    refine parseLoop_mono 3 (t.length + 1) _ _ ?_ (by rw [hloop3]; simp)
    have : 2 ≤ t.length := by
      rw [ht_def]
      simp
    omega
  have htk : stP.tokens = [some ⟨"#", n, 0, 2 + 1 + n.length + 2, [], 0, false⟩]
      ++ stP.tokens.drop 1 := by
    conv_lhs => rw [← List.take_append_drop 1 stP.tokens]
    rw [hshape.2]
    rfl
  have ⟨midL, hmidL, htoks⟩ : ∃ midL : List (Option PFlat), (∀ o ∈ midL, textOptP o) ∧
      (stripSpace ({ stP with
        hasTag := true,
        tokens := stP.tokens ++
          [some ⟨"/", n, 2 + 1 + n.length + 2 + inner.length,
            2 + 1 + n.length + 2 + inner.length + 2 + 1 + n.length + 2, [], 0, false⟩],
        tagIndex := stP.tagIndex + 1, sections := [] } : PState)).tokens =
      [some ⟨"#", n, 0, 2 + 1 + n.length + 2, [], 0, false⟩] ++
        (midL ++ [some ⟨"/", n, 2 + 1 + n.length + 2 + inner.length,
          2 + 1 + n.length + 2 + inner.length + 2 + 1 + n.length + 2, [], 0, false⟩]) := by
    cases hns : stP.nonSpace with
    | true =>
      rw [stripSpace_keep _ (by dsimp only)]
      refine ⟨stP.tokens.drop 1, hshape.1.2.2, ?_⟩
      dsimp only
      conv_lhs => rw [htk]
      simp
    | false =>
      rw [stripSpace_delete _ (by dsimp only) (by dsimp only)]
      dsimp only
      obtain ⟨mid2, hlen2, hmem2, heq2⟩ := foldl_delete_mid stP.spaces
        [some ⟨"#", n, 0, 2 + 1 + n.length + 2, [], 0, false⟩] (stP.tokens.drop 1)
        [some ⟨"/", n, 2 + 1 + n.length + 2 + inner.length,
          2 + 1 + n.length + 2 + inner.length + 2 + 1 + n.length + 2, [], 0, false⟩]
        (by
          intro i hi
          have h1 := hshape.1.2.1 i hi
          have h2 : 1 ≤ stP.tokens.length := hshape.1.1
          have h3 : (stP.tokens.drop 1).length = stP.tokens.length - 1 :=
            List.length_drop 1 stP.tokens
          simp only [List.length_cons, List.length_nil]
          omega)
      refine ⟨mid2, ?_, ?_⟩
      · intro o ho
        rcases hmem2 o ho with h | h
        · exact Or.inl h
        · exact hshape.1.2.2 o h
      · rw [show stP.tokens ++
            [some (⟨"/", n, 2 + 1 + n.length + 2 + inner.length,
              2 + 1 + n.length + 2 + inner.length + 2 + 1 + n.length + 2, [], 0,
              false⟩ : PFlat)]
            = [some (⟨"#", n, 0, 2 + 1 + n.length + 2, [], 0, false⟩ : PFlat)] ++
              (stP.tokens.drop 1 ++
                [some ⟨"/", n, 2 + 1 + n.length + 2 + inner.length,
                  2 + 1 + n.length + 2 + inner.length + 2 + 1 + n.length + 2, [], 0,
                  false⟩]) from by
          conv_lhs => rw [htk]
          simp]
        rw [heq2]
  obtain ⟨midT, hmidT, hsq⟩ := squashGo_textish midL hmidL []
    [⟨"#", n, 0, 2 + 1 + n.length + 2, [], 0, false⟩]
    [some ⟨"/", n, 2 + 1 + n.length + 2 + inner.length,
      2 + 1 + n.length + 2 + inner.length + 2 + 1 + n.length + 2, [], 0, false⟩]
    (by intro f hf; cases hf)
    (by
      intro f hf
      have hf2 : f = (⟨"#", n, 0, 2 + 1 + n.length + 2, [], 0, false⟩ : PFlat) := by
        simpa using hf
      rw [hf2]
      simp)
  simp only [List.nil_append] at hsq
  refine ⟨midT.reverse.map Tok.flat, ?_⟩
  rw [parseTemplate_run t (by rw [ht_def]; simp) _ _ (by rw [hfuel, hloop3])]
  rw [show (stripSpace ({ stP with
      hasTag := true,
      tokens := stP.tokens ++
        [some ⟨"/", n, 2 + 1 + n.length + 2 + inner.length,
          2 + 1 + n.length + 2 + inner.length + 2 + 1 + n.length + 2, [], 0, false⟩],
      tagIndex := stP.tagIndex + 1, sections := [] } : PState)).sections = [] from
    (stripSpace_keeps _).2.2]
  rw [htoks, squashTokens]
  rw [show ([some (⟨"#", n, 0, 2 + 1 + n.length + 2, [], 0, false⟩ : PFlat)] ++
      (midL ++ [some ⟨"/", n, 2 + 1 + n.length + 2 + inner.length,
        2 + 1 + n.length + 2 + inner.length + 2 + 1 + n.length + 2, [], 0, false⟩]))
      = some (⟨"#", n, 0, 2 + 1 + n.length + 2, [], 0, false⟩ : PFlat) ::
        (midL ++ [some ⟨"/", n, 2 + 1 + n.length + 2 + inner.length,
          2 + 1 + n.length + 2 + inner.length + 2 + 1 + n.length + 2, [], 0, false⟩])
    from by simp]
  rw [squashGo_first, hsq]
  rw [squashGo_push _ _ _ (by simp)]
  rw [show squashGo ([] : List (Option PFlat))
      ((⟨"/", n, 2 + 1 + n.length + 2 + inner.length,
        2 + 1 + n.length + 2 + inner.length + 2 + 1 + n.length + 2, [], 0,
        false⟩ : PFlat) ::
        (midT ++ [⟨"#", n, 0, 2 + 1 + n.length + 2, [], 0, false⟩]))
      = (⟨"#", n, 0, 2 + 1 + n.length + 2, [], 0, false⟩ : PFlat) ::
        (midT.reverse ++ [⟨"/", n, 2 + 1 + n.length + 2 + inner.length,
          2 + 1 + n.length + 2 + inner.length + 2 + 1 + n.length + 2, [], 0, false⟩])
    from by simp [squashGo]]
  rw [nestTokens]
  rw [show nestGo ((⟨"#", n, 0, 2 + 1 + n.length + 2, [], 0, false⟩ : PFlat) ::
        (midT.reverse ++ [⟨"/", n, 2 + 1 + n.length + 2 + inner.length,
          2 + 1 + n.length + 2 + inner.length + 2 + 1 + n.length + 2, [], 0, false⟩]))
        [] []
      = nestGo (midT.reverse ++ [⟨"/", n, 2 + 1 + n.length + 2 + inner.length,
          2 + 1 + n.length + 2 + inner.length + 2 + 1 + n.length + 2, [], 0, false⟩])
        [(⟨"#", n, 0, 2 + 1 + n.length + 2, [], 0, false⟩, [])] [] from by
    simp only [nestGo]
    rw [if_pos (Or.inl trivial)]]
  rw [nestGo_texts midT.reverse
    (by
      intro f hf
      exact hmidT f (List.mem_reverse.mp hf))]
  rw [show nestGo [(⟨"/", n, 2 + 1 + n.length + 2 + inner.length,
        2 + 1 + n.length + 2 + inner.length + 2 + 1 + n.length + 2, [], 0,
        false⟩ : PFlat)]
        [(⟨"#", n, 0, 2 + 1 + n.length + 2, [], 0, false⟩, [])]
        ([] ++ midT.reverse.map Tok.flat)
      = [Tok.sec "#" n 0 (2 + 1 + n.length + 2) ([] ++ midT.reverse.map Tok.flat)
          (2 + 1 + n.length + 2 + inner.length)] from by
    simp [nestGo, closeLeftovers]]
  simp

/-- Rendering a `#`-section whose looked-up value is a lambda hands the
lambda the slice of the original template between the open tag's end
offset and the close tag's start offset, and appends the lambda's result
(or nothing) verbatim. -/
theorem render_lambda_slice (f : Nat) (w : Option Cache) (name : Str)
    (ts te : Nat) (ch : List Tok) (cs : Nat) (ctx : Ctx) (parts : Partials)
    (ot : Str) (cfg : Config) (fn : Str → Option Str)
    (hlook : ctx.lookup name = .lambda fn) :
    renderTokens (f + 2) w [.sec "#" name ts te ch cs] ctx parts (some ot) cfg =
      .ok ((fn ((ot.drop te).take (cs - te))).getD [], w) := by
  cases hfn : fn ((ot.drop te).take (cs - te)) with
  | none =>
    simp only [renderTokens, renderWork, hlook, hfn, truthy, Bool.not_true,
      Bool.false_or, Option.getD]
    simp [renderWork]
  | some s =>
    simp only [renderTokens, renderWork, hlook, hfn, truthy, Bool.not_true,
      Bool.false_or, Option.getD]
    simp [renderWork]

/-! ## C3 — lambda sections receive the exact inner template text -/

/-- C3: for a template consisting of a section over name `n` with inner
text `inner`, the parser records the open-tag end and close-tag start
offsets in the section token, the slice of the original template between
those offsets is exactly `inner`, and whenever the looked-up value of `n`
is a callable the renderer invokes it on that slice — i.e. on `inner`
itself, unmodified by any escaping or other processing — and appends its
result verbatim. -/
theorem c3_lambda_section_text (n inner : Str) (hn : alphaOf n)
    (hin : ∀ c ∈ inner, c ≠ '\x7b') :
    ∃ ch : List Tok,
      parseTemplate ('\x7b' :: '\x7b' :: '#' :: (n ++ '\x7d' :: '\x7d' ::
          (inner ++ '\x7b' :: '\x7b' :: '/' :: (n ++ '\x7d' :: '\x7d' :: [])))) none =
        .ok [.sec "#" n 0 (2 + 1 + n.length + 2) ch
          (2 + 1 + n.length + 2 + inner.length)]
      ∧ ((('\x7b' :: '\x7b' :: '#' :: (n ++ '\x7d' :: '\x7d' ::
          (inner ++ '\x7b' :: '\x7b' :: '/' :: (n ++ '\x7d' :: '\x7d' :: [])))).drop
            (2 + 1 + n.length + 2)).take
          ((2 + 1 + n.length + 2 + inner.length) - (2 + 1 + n.length + 2)) = inner)
      ∧ (∀ f w ctx parts cfg fn, Ctx.lookup ctx n = .lambda fn →
          renderTokens (f + 2) w
            [.sec "#" n 0 (2 + 1 + n.length + 2) ch
              (2 + 1 + n.length + 2 + inner.length)] ctx parts
            (some ('\x7b' :: '\x7b' :: '#' :: (n ++ '\x7d' :: '\x7d' ::
              (inner ++ '\x7b' :: '\x7b' :: '/' :: (n ++ '\x7d' :: '\x7d' :: []))))) cfg =
            .ok ((fn inner).getD [], w)) := by
  obtain ⟨ch, hparse⟩ := parse_lambda_section n inner hn hin
  have hslice : (('\x7b' :: '\x7b' :: '#' :: (n ++ '\x7d' :: '\x7d' ::
      (inner ++ '\x7b' :: '\x7b' :: '/' :: (n ++ '\x7d' :: '\x7d' :: [])))).drop
        (2 + 1 + n.length + 2)).take
      ((2 + 1 + n.length + 2 + inner.length) - (2 + 1 + n.length + 2)) = inner := by
    rw [show 2 + 1 + n.length + 2 + inner.length - (2 + 1 + n.length + 2)
        = inner.length by omega]
    rw [show ('\x7b' :: '\x7b' :: '#' :: (n ++ '\x7d' :: '\x7d' ::
        (inner ++ '\x7b' :: '\x7b' :: '/' :: (n ++ '\x7d' :: '\x7d' :: []))))
        = (('\x7b' :: '\x7b' :: '#' :: (n ++ ['\x7d', '\x7d'])) ++
          (inner ++ '\x7b' :: '\x7b' :: '/' :: (n ++ '\x7d' :: '\x7d' :: []))) by simp]
    rw [List.drop_left' (by simp; omega)]
    exact List.take_left' rfl
  refine ⟨ch, hparse, hslice, ?_⟩
  intro f w ctx parts cfg fn hlook
  have h := render_lambda_slice f w n 0 (2 + 1 + n.length + 2) ch
    (2 + 1 + n.length + 2 + inner.length) ctx parts
    ('\x7b' :: '\x7b' :: '#' :: (n ++ '\x7d' :: '\x7d' ::
      (inner ++ '\x7b' :: '\x7b' :: '/' :: (n ++ '\x7d' :: '\x7d' :: []))))
    cfg fn hlook
  rw [h, hslice]

/-- Witness for C3 at concrete inputs. -/
theorem c3_lambda_section_text_witness :
    alphaOf ['n'] ∧ (∀ c ∈ (['a', 'b'] : Str), c ≠ '\x7b')
    ∧ ∃ ch : List Tok,
      parseTemplate ('\x7b' :: '\x7b' :: '#' :: ((['n'] : Str) ++ '\x7d' :: '\x7d' ::
          ((['a', 'b'] : Str) ++ '\x7b' :: '\x7b' :: '/' ::
            ((['n'] : Str) ++ '\x7d' :: '\x7d' :: [])))) none =
        .ok [.sec "#" ['n'] 0 (2 + 1 + (['n'] : Str).length + 2) ch
          (2 + 1 + (['n'] : Str).length + 2 + (['a', 'b'] : Str).length)]
      ∧ ((('\x7b' :: '\x7b' :: '#' :: ((['n'] : Str) ++ '\x7d' :: '\x7d' ::
          ((['a', 'b'] : Str) ++ '\x7b' :: '\x7b' :: '/' ::
            ((['n'] : Str) ++ '\x7d' :: '\x7d' :: [])))).drop
            (2 + 1 + (['n'] : Str).length + 2)).take
          ((2 + 1 + (['n'] : Str).length + 2 + (['a', 'b'] : Str).length) -
            (2 + 1 + (['n'] : Str).length + 2)) = ['a', 'b'])
      ∧ (∀ f w ctx parts cfg fn, Ctx.lookup ctx ['n'] = .lambda fn →
          renderTokens (f + 2) w
            [.sec "#" ['n'] 0 (2 + 1 + (['n'] : Str).length + 2) ch
              (2 + 1 + (['n'] : Str).length + 2 + (['a', 'b'] : Str).length)] ctx parts
            (some ('\x7b' :: '\x7b' :: '#' :: ((['n'] : Str) ++ '\x7d' :: '\x7d' ::
              ((['a', 'b'] : Str) ++ '\x7b' :: '\x7b' :: '/' ::
                ((['n'] : Str) ++ '\x7d' :: '\x7d' :: []))))) cfg =
            .ok ((fn ['a', 'b']).getD [], w)) :=
  ⟨by unfold alphaOf; decide, by decide,
   c3_lambda_section_text ['n'] ['a', 'b'] (by unfold alphaOf; decide) (by decide)⟩

end Mus
